import Mathlib

/-!
Shallow embedding of the simulation core of the plant-growth game
(src/core/state.ts, src/core/loop.ts, src/core/systems/hydraulics.ts,
src/core/systems/metabolism.ts, src/core/systems/climate.ts, src/core/config.ts).

Modelling conventions:
* JavaScript numbers are modelled as exact rationals (ℚ); all the constants of
  config.ts are decimal fractions, so every arithmetic step of the simulation
  is exact here.
* Node ids (strings "node_k" in the source) are modelled as the natural number
  k produced by the `nextId` counter.
* The node table (`Record<string, PlantNode>`, iterated with `Object.values`
  in insertion order) is modelled as a list of nodes in insertion order;
  lookups are `List.find?` on the id.  In-place mutation of a node becomes a
  map over the list that rewrites the entries carrying the target id, which
  agrees with the source whenever ids are unique.
* The per-tick system passes iterate over a snapshot of the id list taken at
  the start of the pass and read every node field from the current store,
  exactly as the source loops do (the loops hold live object references, and
  no pass adds or removes nodes).
* The climate driver (climate.ts) computes its outputs with `Math.sin`; it is
  abstracted here by allowing an arbitrary new climate record whose fields lie
  in the ranges the driver guarantees (`ClimateOK`): sun intensity is clamped
  below by MIN_SUN_INTENSITY = 0 and its three branches are bounded by 1,
  temperature is 20 ± 10, soil water is clamped to [0,1].
* Random rolls (`Math.random()`) only influence the rain state (absorbed into
  the climate abstraction) and the spawning of visualization particles, which
  never feed back into node state; the particle subsystem is modelled
  separately with the spawn decisions as explicit parameters.
* The auto-grow heuristic is disabled at startup (`autoGrowEnabled = false`)
  and `updateAutoGrow` is then a no-op, so a tick is
  Climate → Hydraulics → Metabolism → tick-increment.
-/

inductive NodeType where
  | SEED
  | ROOT
  | TRUNK
  | BRANCH
  | LEAF
deriving DecidableEq, Repr

structure Vec2 where
  x : ℚ
  y : ℚ
deriving DecidableEq, Repr

structure PlantNode where
  id : Nat
  type : NodeType
  position : Vec2
  parentId : Option Nat
  childrenIds : List Nat
  radius : ℚ
  structuralHealth : ℚ
  waterPressure : ℚ
  sugarConcentration : ℚ
  sugarStore : ℚ
  isActive : Bool
  stressLevel : ℚ
deriving DecidableEq, Repr

/-- The climate fields read by hydraulics and metabolism, plus the tick
counter advanced by `incrementTick`. -/
structure Climate where
  sunIntensity : ℚ
  temperature : ℚ
  soilWater : ℚ
  tick : Nat
deriving DecidableEq, Repr

structure GameResources where
  sugar : ℚ
  water : ℚ
  minerals : ℚ
deriving DecidableEq, Repr

structure Store where
  nodes : List PlantNode
  seedId : Nat
  nextId : Nat
  resources : GameResources
  climate : Climate
  selectedNodeId : Option Nat
  isPaused : Bool
  speedMultiplier : ℚ
deriving DecidableEq, Repr

/-! Constants from config.ts (only the ones the simulation core reads). -/

def TICKS_PER_SECOND : ℚ := 20
def INITIAL_SUGAR : ℚ := 100
def INITIAL_WATER : ℚ := 30
def INITIAL_MINERALS : ℚ := 20
def COST_LEAF : ℚ := 10
def COST_BRANCH : ℚ := 15
def COST_ROOT : ℚ := 12
def COST_TRUNK : ℚ := 20
def SEED_RADIUS : ℚ := 3/100
def LEAF_RADIUS : ℚ := 15/1000
def BRANCH_RADIUS : ℚ := 2/100
def ROOT_RADIUS : ℚ := 18/1000
def TRUNK_RADIUS : ℚ := 4/100
def TRANSPIRATION_RATE : ℚ := 3/100
def ROOT_UPTAKE_RATE : ℚ := 12/100
def WATER_FLOW_RATE : ℚ := 4/10
def FLOW_THRESHOLD : ℚ := 3/1000
def SUGAR_DIFFUSION_RATE : ℚ := 2/10
def NODE_RESPIRATION_COST : ℚ := 2/1000
def PHOTOSYNTHESIS_RATE : ℚ := 5/10
def WATER_PER_SUGAR : ℚ := 3/10
def MIN_WATER_FOR_PHOTOSYNTHESIS : ℚ := 15/100
def STARVATION_STRESS_RATE : ℚ := 5/1000
def DEHYDRATION_STRESS_RATE : ℚ := 5/1000
def HEALTH_RECOVERY_RATE : ℚ := 2/100
def STRESS_DEATH_THRESHOLD : ℚ := 1
def TILE_SIZE : ℚ := 64
def PIXELS_PER_METER : ℚ := 256
def PARTICLE_SPEED : ℚ := 12/10

/-! The state store (state.ts). -/

def Store.find? (s : Store) (nodeId : Nat) : Option PlantNode :=
  s.nodes.find? (fun n => n.id == nodeId)

/-- updateNode(id, partial): field-level merge applied to the node carrying
the id (no-op when the id is absent).  Call sites pass the concrete field
updates of the corresponding `updateNode` call in the source. -/
def Store.updateNode (s : Store) (nodeId : Nat) (f : PlantNode → PlantNode) : Store :=
  { s with nodes := s.nodes.map (fun n => if n.id == nodeId then f n else n) }

/-- modifyResources({ water: d }). -/
def Store.modifyWater (s : Store) (d : ℚ) : Store :=
  { s with resources := { s.resources with water := max 0 (s.resources.water + d) } }

/-- modifyResources({ sugar: d }). -/
def Store.modifySugar (s : Store) (d : ℚ) : Store :=
  { s with resources := { s.resources with sugar := max 0 (s.resources.sugar + d) } }

def getNodeCost : NodeType → ℚ
  | .LEAF => COST_LEAF
  | .BRANCH => COST_BRANCH
  | .ROOT => COST_ROOT
  | .TRUNK => COST_TRUNK
  | .SEED => 0

def getDefaultRadius : NodeType → ℚ
  | .LEAF => LEAF_RADIUS
  | .BRANCH => BRANCH_RADIUS
  | .ROOT => ROOT_RADIUS
  | .TRUNK => TRUNK_RADIUS
  | .SEED => SEED_RADIUS

/-- addNode(parentId, type, position).  The optional `radius` parameter of the
source is omitted: no caller in the repository supplies it, so every created
node gets the default radius of its type. -/
def addNode (s : Store) (parentId : Nat) (type : NodeType) (position : Vec2) :
    Store × Option PlantNode :=
  match s.find? parentId with
  | none => (s, none)
  | some parent =>
    let cost := getNodeCost type
    if s.resources.sugar < cost then (s, none)
    else
      let nodeId := s.nextId
      let node : PlantNode :=
        { id := nodeId
          type := type
          position := position
          parentId := some parentId
          childrenIds := []
          radius := getDefaultRadius type
          structuralHealth := 1
          waterPressure := max (3/10) (parent.waterPressure * (95/100))
          sugarConcentration := max (2/10) (parent.sugarConcentration * (9/10))
          sugarStore := 0
          isActive := true
          stressLevel := 0 }
      let s1 := { s with nextId := s.nextId + 1, nodes := s.nodes ++ [node] }
      let s2 := s1.updateNode parentId
        (fun p => { p with childrenIds := p.childrenIds ++ [nodeId] })
      let s3 := { s2 with resources :=
        { s2.resources with sugar := s2.resources.sugar - cost } }
      (s3, some node)

/-- The recursion inside removeNode (`removeRecursive`): delete the node's
children depth-first, then the node itself.  The source recursion terminates
because the child relation is acyclic; here the recursion carries fuel, and
removeNode passes the store size, which suffices on every well-formed store. -/
def removeRec (fuel : Nat) (nodes : List PlantNode) (nodeId : Nat) : List PlantNode :=
  match fuel with
  | 0 => nodes
  | fuel + 1 =>
    match nodes.find? (fun n => n.id == nodeId) with
    | none => nodes
    | some n =>
      let nodes1 := n.childrenIds.foldl (fun acc c => removeRec fuel acc c) nodes
      nodes1.filter (fun m => m.id != nodeId)

/-- removeNode(id): refuses the seed, otherwise detaches the node from its
parent's child list and deletes the whole subtree. -/
def removeNode (s : Store) (nodeId : Nat) : Store × Bool :=
  match s.find? nodeId with
  | none => (s, false)
  | some node =>
    if node.type == NodeType.SEED then (s, false)
    else
      let s1 :=
        match node.parentId with
        | some pid => s.updateNode pid
            (fun p => { p with childrenIds := p.childrenIds.filter (fun i => i != nodeId) })
        | none => s
      ({ s1 with nodes := removeRec s1.nodes.length s1.nodes nodeId }, true)

/-- One grid tile in meters: TILE_SIZE / PIXELS_PER_METER. -/
def tileInMeters : ℚ := TILE_SIZE / PIXELS_PER_METER

/-- Shift a position one grid tile along `direction` (used by extendNode). -/
def shiftPos (p : Vec2) (direction : Vec2) : Vec2 :=
  { x := p.x + direction.x * tileInMeters
    y := p.y + direction.y * tileInMeters }

/-- The per-child update of extendNode: reparent onto the new segment and push
the child one tile further along the direction. -/
def extendChildUpdate (newNodeId : Nat) (direction : Vec2) (c : PlantNode) : PlantNode :=
  { c with parentId := some newNodeId, position := shiftPos c.position direction }

/-- The update of the extended node itself: its only child is now the new
segment. -/
def extendSetChildren (newNodeId : Nat) (n : PlantNode) : PlantNode :=
  { n with childrenIds := [newNodeId] }

/-- The new segment created by extendNode: same type as the original, takes
over all of its children. -/
def extendNewNode (node : PlantNode) (nodeId newNodeId : Nat) (direction : Vec2) :
    PlantNode :=
  { id := newNodeId
    type := node.type
    position := shiftPos node.position direction
    parentId := some nodeId
    childrenIds := node.childrenIds
    radius := node.radius * (95/100)
    structuralHealth := 1
    waterPressure := node.waterPressure * (98/100)
    sugarConcentration := node.sugarConcentration * (98/100)
    sugarStore := 0
    isActive := true
    stressLevel := 0 }

/-- extendNode(id, direction): insert a new segment of the same type between
the node and all of its current children. -/
def extendNode (s : Store) (nodeId : Nat) (direction : Vec2) :
    Store × Option PlantNode :=
  match s.find? nodeId with
  | none => (s, none)
  | some node =>
    if node.type ≠ NodeType.TRUNK ∧ node.type ≠ NodeType.BRANCH ∧
        node.type ≠ NodeType.ROOT then (s, none)
    else
      let cost := getNodeCost node.type
      if s.resources.sugar < cost then (s, none)
      else
        let newNodeId := s.nextId
        let newNode := extendNewNode node nodeId newNodeId direction
        let s1 := node.childrenIds.foldl
          (fun acc cid => acc.updateNode cid (extendChildUpdate newNodeId direction)) s
        let s2 := s1.updateNode nodeId (extendSetChildren newNodeId)
        let s3 := { s2 with
          nodes := s2.nodes ++ [newNode]
          nextId := s.nextId + 1
          resources := { s2.resources with sugar := s2.resources.sugar - cost } }
        (s3, some newNode)

/-- setSpeedMultiplier(multiplier). -/
def setSpeedMultiplier (s : Store) (multiplier : ℚ) : Store :=
  { s with speedMultiplier := max (1/10) (min 10 multiplier) }

/-- incrementTick(). -/
def incrementTick (s : Store) : Store :=
  { s with climate := { s.climate with tick := s.climate.tick + 1 } }

/-- createInitialState(): a single active SEED node with id 1. -/
def initialStore : Store :=
  { nodes := [
      { id := 1
        type := NodeType.SEED
        position := { x := 0, y := 0 }
        parentId := none
        childrenIds := []
        radius := SEED_RADIUS
        structuralHealth := 1
        waterPressure := 5/10
        sugarConcentration := 8/10
        sugarStore := INITIAL_SUGAR
        isActive := true
        stressLevel := 0 }]
    seedId := 1
    nextId := 2
    resources := { sugar := INITIAL_SUGAR, water := INITIAL_WATER, minerals := INITIAL_MINERALS }
    climate := { sunIntensity := 5/10, temperature := 20, soilWater := 9/10, tick := 0 }
    selectedNodeId := none
    isPaused := false
    speedMultiplier := 1 }

/-- Claim C10: setSpeedMultiplier stores exactly max(0.1, min(10, m)), so the
stored multiplier always lies in [0.1, 10] and can never be zero or
negative. -/
theorem claim_C10_speedMultiplier_clamped (s : Store) (m : ℚ) :
    (setSpeedMultiplier s m).speedMultiplier = max (1/10) (min 10 m) ∧
    1/10 ≤ (setSpeedMultiplier s m).speedMultiplier ∧
    (setSpeedMultiplier s m).speedMultiplier ≤ 10 := by
  refine ⟨rfl, le_max_left _ _, ?_⟩
  simp only [setSpeedMultiplier]
  exact max_le (by norm_num) (min_le_left _ _)

/-! Lookup helper lemmas for the list-of-nodes model. -/

theorem find?_cons_pos (p : PlantNode → Bool) (a : PlantNode) (l : List PlantNode)
    (h : p a = true) : (a :: l).find? p = some a := by
  simp [List.find?, h]

theorem find?_cons_neg (p : PlantNode → Bool) (a : PlantNode) (l : List PlantNode)
    (h : p a = false) : (a :: l).find? p = l.find? p := by
  simp [List.find?, h]

theorem find?_map_ite_self (l : List PlantNode) (i : Nat) (f : PlantNode → PlantNode)
    (hf : ∀ n, (f n).id = n.id) :
    (l.map (fun n => if n.id == i then f n else n)).find? (fun n => n.id == i) =
      (l.find? (fun n => n.id == i)).map f := by
  induction l with
  | nil => rfl
  | cons a l ih =>
    rw [List.map_cons]
    by_cases h : a.id = i
    · have h1 : (a.id == i) = true := by simpa using h
      rw [if_pos h1, find?_cons_pos (fun n => n.id == i) _ _ (by simpa [hf] using h),
        find?_cons_pos (fun n => n.id == i) _ _ h1, Option.map_some']
    · have h1 : (a.id == i) = false := by simpa using h
      rw [if_neg (by simp [h]), find?_cons_neg (fun n => n.id == i) _ _ h1,
        find?_cons_neg (fun n => n.id == i) _ _ h1, ih]

theorem find?_map_ite_other (l : List PlantNode) (i j : Nat) (f : PlantNode → PlantNode)
    (hf : ∀ n, (f n).id = n.id) (hij : i ≠ j) :
    (l.map (fun n => if n.id == i then f n else n)).find? (fun n => n.id == j) =
      l.find? (fun n => n.id == j) := by
  induction l with
  | nil => rfl
  | cons a l ih =>
    rw [List.map_cons]
    by_cases h : a.id = i
    · have h1 : (a.id == i) = true := by simpa using h
      have h2 : (a.id == j) = false := by simp [h, hij]
      rw [if_pos h1, find?_cons_neg (fun n => n.id == j) _ _ (by simp [hf, h, hij]),
        find?_cons_neg (fun n => n.id == j) _ _ h2, ih]
    · have h1 : (a.id == i) = false := by simpa using h
      rw [if_neg (by simp [h])]
      by_cases hj : a.id = j
      · have h2 : (a.id == j) = true := by simpa using hj
        rw [find?_cons_pos (fun n => n.id == j) _ _ h2,
          find?_cons_pos (fun n => n.id == j) _ _ h2]
      · have h2 : (a.id == j) = false := by simpa using hj
        rw [find?_cons_neg (fun n => n.id == j) _ _ h2,
          find?_cons_neg (fun n => n.id == j) _ _ h2, ih]

theorem find?_append_left {l l' : List PlantNode} {p : PlantNode → Bool} {a : PlantNode}
    (h : l.find? p = some a) : (l ++ l').find? p = some a := by
  induction l with
  | nil => simp [List.find?] at h
  | cons b l ih =>
    rw [List.cons_append]
    by_cases hb : p b = true
    · rw [find?_cons_pos p b l hb] at h
      rw [find?_cons_pos p b (l ++ l') hb]
      exact h
    · have hb' : p b = false := by simpa using hb
      rw [find?_cons_neg p b l hb'] at h
      rw [find?_cons_neg p b (l ++ l') hb']
      exact ih h

theorem find?_updateNode_self (s : Store) (i : Nat) (f : PlantNode → PlantNode)
    (hf : ∀ n, (f n).id = n.id) :
    (s.updateNode i f).find? i = (s.find? i).map f :=
  find?_map_ite_self s.nodes i f hf

theorem find?_updateNode_other (s : Store) (i j : Nat) (f : PlantNode → PlantNode)
    (hf : ∀ n, (f n).id = n.id) (hij : i ≠ j) :
    (s.updateNode i f).find? j = s.find? j :=
  find?_map_ite_other s.nodes i j f hf hij

/-- Claim C2: addSegment fails (returning no segment, store untouched) when the
parent is absent or sugar is below the type's cost, and on success debits
exactly the cost and adds exactly one segment. -/
theorem claim_C2_addSegment_cost (s : Store) (pid : Nat) (t : NodeType) (pos : Vec2) :
    (s.find? pid = none → addNode s pid t pos = (s, none)) ∧
    (∀ parent, s.find? pid = some parent → s.resources.sugar < getNodeCost t →
      addNode s pid t pos = (s, none)) ∧
    (∀ parent, s.find? pid = some parent → getNodeCost t ≤ s.resources.sugar →
      (addNode s pid t pos).2.isSome = true ∧
      (addNode s pid t pos).1.resources.sugar = s.resources.sugar - getNodeCost t ∧
      (addNode s pid t pos).1.nodes.length = s.nodes.length + 1) := by
  refine ⟨?_, ?_, ?_⟩
  · intro h
    simp only [addNode, h]
  · intro parent h hlt
    simp only [addNode, h, if_pos hlt]
  · intro parent h hle
    have hnot : ¬ s.resources.sugar < getNodeCost t := not_lt.mpr hle
    simp only [addNode, h, if_neg hnot, Store.updateNode, Option.isSome_some,
      List.length_map, List.length_append, List.length_cons, List.length_nil]
    exact ⟨trivial, trivial, trivial⟩

/-- Claim C7: every rejected structural mutation (addSegment with a missing
parent or short currency; extendSegment on a missing target, a non-extendable
type, or short currency) returns no segment and leaves the store completely
unchanged. -/
theorem claim_C7_rejected_mutations_atomic (s : Store) (pid tid : Nat)
    (t : NodeType) (pos dir : Vec2) :
    (s.find? pid = none → addNode s pid t pos = (s, none)) ∧
    (∀ parent, s.find? pid = some parent → s.resources.sugar < getNodeCost t →
      addNode s pid t pos = (s, none)) ∧
    (s.find? tid = none → extendNode s tid dir = (s, none)) ∧
    (∀ node, s.find? tid = some node →
      node.type = NodeType.SEED ∨ node.type = NodeType.LEAF →
      extendNode s tid dir = (s, none)) ∧
    (∀ node, s.find? tid = some node →
      node.type = NodeType.TRUNK ∨ node.type = NodeType.BRANCH ∨ node.type = NodeType.ROOT →
      s.resources.sugar < getNodeCost node.type →
      extendNode s tid dir = (s, none)) := by
  refine ⟨?_, ?_, ?_, ?_, ?_⟩
  · intro h
    simp only [addNode, h]
  · intro parent h hlt
    simp only [addNode, h, if_pos hlt]
  · intro h
    simp only [extendNode, h]
  · intro node h hty
    have hguard : node.type ≠ NodeType.TRUNK ∧ node.type ≠ NodeType.BRANCH ∧
        node.type ≠ NodeType.ROOT := by
      rcases hty with hty | hty <;> rw [hty] <;> exact ⟨by decide, by decide, by decide⟩
    simp only [extendNode, h, if_pos hguard]
  · intro node h hty hlt
    have hguard : ¬ (node.type ≠ NodeType.TRUNK ∧ node.type ≠ NodeType.BRANCH ∧
        node.type ≠ NodeType.ROOT) := by
      rcases hty with hty | hty | hty <;> rw [hty] <;> simp
    simp only [extendNode, h, if_neg hguard, if_pos hlt]

/-- Claim C3: extendSegment on a trunk/branch/root segment with child list
[c1, c2] and sufficient currency inserts a new segment of the same type whose
children are exactly [c1, c2]; the original keeps exactly one child (the new
segment) and both c1 and c2 are reparented onto the new segment. -/
theorem claim_C3_extendSegment_reparents (s : Store) (x c1 c2 : Nat) (dir : Vec2)
    (node n1 n2 : PlantNode)
    (hx : s.find? x = some node)
    (ht : node.type = NodeType.TRUNK ∨ node.type = NodeType.BRANCH ∨
      node.type = NodeType.ROOT)
    (hch : node.childrenIds = [c1, c2])
    (hsugar : getNodeCost node.type ≤ s.resources.sugar)
    (h1 : s.find? c1 = some n1) (h2 : s.find? c2 = some n2)
    (hcc : c1 ≠ c2) (hc1x : c1 ≠ x) (hc2x : c2 ≠ x) :
    ∃ newNode,
      (extendNode s x dir).2 = some newNode ∧
      newNode.type = node.type ∧
      newNode.childrenIds = [c1, c2] ∧
      (∃ m, (extendNode s x dir).1.find? x = some m ∧ m.childrenIds = [newNode.id]) ∧
      (∃ m1, (extendNode s x dir).1.find? c1 = some m1 ∧
        m1.parentId = some newNode.id) ∧
      (∃ m2, (extendNode s x dir).1.find? c2 = some m2 ∧
        m2.parentId = some newNode.id) := by
  have hguard : ¬ (node.type ≠ NodeType.TRUNK ∧ node.type ≠ NodeType.BRANCH ∧
      node.type ≠ NodeType.ROOT) := by
    rcases ht with hty | hty | hty <;> rw [hty] <;> simp
  have hnot : ¬ s.resources.sugar < getNodeCost node.type := not_lt.mpr hsugar
  have hfx : (((s.updateNode c1 (extendChildUpdate s.nextId dir)).updateNode c2
      (extendChildUpdate s.nextId dir)).updateNode x
        (extendSetChildren s.nextId)).find? x =
      some (extendSetChildren s.nextId node) := by
    rw [find?_updateNode_self _ _ (extendSetChildren s.nextId) (fun n => rfl),
        find?_updateNode_other _ _ _ (extendChildUpdate s.nextId dir) (fun n => rfl) hc2x,
        find?_updateNode_other _ _ _ (extendChildUpdate s.nextId dir) (fun n => rfl) hc1x,
        hx]
    rfl
  have hfc1 : (((s.updateNode c1 (extendChildUpdate s.nextId dir)).updateNode c2
      (extendChildUpdate s.nextId dir)).updateNode x
        (extendSetChildren s.nextId)).find? c1 =
      some (extendChildUpdate s.nextId dir n1) := by
    rw [find?_updateNode_other _ _ _ (extendSetChildren s.nextId) (fun n => rfl)
          (Ne.symm hc1x),
        find?_updateNode_other _ _ _ (extendChildUpdate s.nextId dir) (fun n => rfl)
          (Ne.symm hcc),
        find?_updateNode_self _ _ (extendChildUpdate s.nextId dir) (fun n => rfl), h1]
    rfl
  have hfc2 : (((s.updateNode c1 (extendChildUpdate s.nextId dir)).updateNode c2
      (extendChildUpdate s.nextId dir)).updateNode x
        (extendSetChildren s.nextId)).find? c2 =
      some (extendChildUpdate s.nextId dir n2) := by
    rw [find?_updateNode_other _ _ _ (extendSetChildren s.nextId) (fun n => rfl)
          (Ne.symm hc2x),
        find?_updateNode_self _ _ (extendChildUpdate s.nextId dir) (fun n => rfl),
        find?_updateNode_other _ _ _ (extendChildUpdate s.nextId dir) (fun n => rfl) hcc,
        h2]
    rfl
  have hx' : s.nodes.find? (fun n => n.id == x) = some node := hx
  refine ⟨extendNewNode node x s.nextId dir, ?_, rfl, hch, ?_, ?_, ?_⟩
  · simp only [extendNode, Store.find?, hx', if_neg hguard, if_neg hnot]
  · refine ⟨extendSetChildren s.nextId node, ?_, rfl⟩
    simp only [extendNode, Store.find?, hx', if_neg hguard, if_neg hnot, hch,
      List.foldl_cons, List.foldl_nil]
    exact find?_append_left hfx
  · refine ⟨extendChildUpdate s.nextId dir n1, ?_, rfl⟩
    simp only [extendNode, Store.find?, hx', if_neg hguard, if_neg hnot, hch,
      List.foldl_cons, List.foldl_nil]
    exact find?_append_left hfc1
  · refine ⟨extendChildUpdate s.nextId dir n2, ?_, rfl⟩
    simp only [extendNode, Store.find?, hx', if_neg hguard, if_neg hnot, hch,
      List.foldl_cons, List.foldl_nil]
    exact find?_append_left hfc2

/-! Concrete stores used by witnesses: a seed with a trunk that has two leaf
children, and a sugar-poor variant of it. -/

def wSeed : PlantNode :=
  { id := 1
    type := NodeType.SEED
    position := { x := 0, y := 0 }
    parentId := none
    childrenIds := [2]
    radius := SEED_RADIUS
    structuralHealth := 1
    waterPressure := 5/10
    sugarConcentration := 8/10
    sugarStore := 100
    isActive := true
    stressLevel := 0 }

def wTrunk : PlantNode :=
  { id := 2
    type := NodeType.TRUNK
    position := { x := 0, y := -(1/4) }
    parentId := some 1
    childrenIds := [10, 11]
    radius := TRUNK_RADIUS
    structuralHealth := 1
    waterPressure := 5/10
    sugarConcentration := 6/10
    sugarStore := 0
    isActive := true
    stressLevel := 0 }

def wLeafA : PlantNode :=
  { id := 10
    type := NodeType.LEAF
    position := { x := 0, y := -(1/2) }
    parentId := some 2
    childrenIds := []
    radius := LEAF_RADIUS
    structuralHealth := 1
    waterPressure := 4/10
    sugarConcentration := 7/10
    sugarStore := 0
    isActive := true
    stressLevel := 0 }

def wLeafB : PlantNode :=
  { id := 11
    type := NodeType.LEAF
    position := { x := 1/4, y := -(1/2) }
    parentId := some 2
    childrenIds := []
    radius := LEAF_RADIUS
    structuralHealth := 1
    waterPressure := 4/10
    sugarConcentration := 7/10
    sugarStore := 0
    isActive := true
    stressLevel := 0 }

def wStore : Store :=
  { nodes := [wSeed, wTrunk, wLeafA, wLeafB]
    seedId := 1
    nextId := 12
    resources := { sugar := 100, water := 30, minerals := 20 }
    climate := { sunIntensity := 5/10, temperature := 20, soilWater := 9/10, tick := 0 }
    selectedNodeId := none
    isPaused := false
    speedMultiplier := 1 }

def wStorePoor : Store :=
  { wStore with resources := { sugar := 1, water := 30, minerals := 20 } }

theorem claim_C2_addSegment_cost_witness :
    (addNode initialStore 99 NodeType.TRUNK { x := 0, y := 0 } = (initialStore, none)) ∧
    ((addNode initialStore 1 NodeType.TRUNK { x := 0, y := -(1/4) }).2.isSome = true ∧
      (addNode initialStore 1 NodeType.TRUNK { x := 0, y := -(1/4) }).1.resources.sugar =
        initialStore.resources.sugar - getNodeCost NodeType.TRUNK ∧
      (addNode initialStore 1 NodeType.TRUNK { x := 0, y := -(1/4) }).1.nodes.length =
        initialStore.nodes.length + 1) :=
  ⟨(claim_C2_addSegment_cost initialStore 99 NodeType.TRUNK { x := 0, y := 0 }).1 rfl,
    (claim_C2_addSegment_cost initialStore 1 NodeType.TRUNK
      { x := 0, y := -(1/4) }).2.2 _ rfl (by decide)⟩

theorem claim_C7_rejected_mutations_atomic_witness :
    (addNode wStorePoor 99 NodeType.TRUNK { x := 0, y := 0 } = (wStorePoor, none)) ∧
    (addNode wStorePoor 1 NodeType.TRUNK { x := 0, y := 0 } = (wStorePoor, none)) ∧
    (extendNode wStorePoor 99 { x := 0, y := -1 } = (wStorePoor, none)) ∧
    (extendNode wStorePoor 1 { x := 0, y := -1 } = (wStorePoor, none)) ∧
    (extendNode wStorePoor 2 { x := 0, y := -1 } = (wStorePoor, none)) :=
  ⟨(claim_C7_rejected_mutations_atomic wStorePoor 99 99 NodeType.TRUNK
      { x := 0, y := 0 } { x := 0, y := -1 }).1 rfl,
    (claim_C7_rejected_mutations_atomic wStorePoor 1 99 NodeType.TRUNK
      { x := 0, y := 0 } { x := 0, y := -1 }).2.1 _ rfl (by decide),
    (claim_C7_rejected_mutations_atomic wStorePoor 99 99 NodeType.TRUNK
      { x := 0, y := 0 } { x := 0, y := -1 }).2.2.1 rfl,
    (claim_C7_rejected_mutations_atomic wStorePoor 99 1 NodeType.TRUNK
      { x := 0, y := 0 } { x := 0, y := -1 }).2.2.2.1 _ rfl (Or.inl rfl),
    (claim_C7_rejected_mutations_atomic wStorePoor 99 2 NodeType.TRUNK
      { x := 0, y := 0 } { x := 0, y := -1 }).2.2.2.2 _ rfl (Or.inl rfl) (by decide)⟩

theorem claim_C3_extendSegment_reparents_witness :
    ∃ newNode,
      (extendNode wStore 2 { x := 0, y := -1 }).2 = some newNode ∧
      newNode.type = NodeType.TRUNK ∧
      newNode.childrenIds = [10, 11] ∧
      (∃ m, (extendNode wStore 2 { x := 0, y := -1 }).1.find? 2 = some m ∧
        m.childrenIds = [newNode.id]) ∧
      (∃ m1, (extendNode wStore 2 { x := 0, y := -1 }).1.find? 10 = some m1 ∧
        m1.parentId = some newNode.id) ∧
      (∃ m2, (extendNode wStore 2 { x := 0, y := -1 }).1.find? 11 = some m2 ∧
        m2.parentId = some newNode.id) :=
  claim_C3_extendSegment_reparents wStore 2 10 11 { x := 0, y := -1 } wTrunk wLeafA wLeafB
    rfl (Or.inl rfl) rfl (by decide) rfl rfl (by decide) (by decide) (by decide)

/-! The visualization-particle subsystem of hydraulics.ts: a budgeted pool of
flow markers.  Node existence checks are abstracted by a predicate `ex`
(the callers pass membership in the current node table), and the random
spawn decisions of the fluid systems are the choice of which spawn calls
occur, so a reachable particle state is any sequence of spawns and updates. -/

inductive FlowKind where
  | xylem
  | phloem
deriving DecidableEq, Repr

structure FlowParticle where
  id : Nat
  fromNodeId : Nat
  toNodeId : Nat
  progress : ℚ
  type : FlowKind
  speed : ℚ
deriving DecidableEq, Repr

def MAX_TOTAL_PARTICLES : Nat := 150
def MAX_PARTICLES_PER_CONNECTION : Nat := 2

/-- The particle pool with the per-connection count cache
(`connectionParticleCounts`, a map with default 0 modelled as a function). -/
structure ParticleState where
  particles : List FlowParticle
  counts : Nat × Nat → Nat
  nextParticleId : Nat

def particleInitialState : ParticleState :=
  { particles := [], counts := fun _ => 0, nextParticleId := 1 }

/-- clearParticles(). -/
def clearParticles (ps : ParticleState) : ParticleState :=
  { ps with particles := [], counts := fun _ => 0 }

/-- spawnFlowParticle(fromNodeId, toNodeId, type, speed). -/
def spawnFlowParticle (ps : ParticleState) (fromNodeId toNodeId : Nat)
    (type : FlowKind) (speed : ℚ) : ParticleState :=
  if MAX_TOTAL_PARTICLES ≤ ps.particles.length then ps
  else
    let connectionCount := ps.counts (fromNodeId, toNodeId)
    if MAX_PARTICLES_PER_CONNECTION ≤ connectionCount then ps
    else
      { particles := ps.particles ++ [{
          id := ps.nextParticleId
          fromNodeId := fromNodeId
          toNodeId := toNodeId
          progress := 0
          type := type
          speed := min 3 (max (1/2) speed * PARTICLE_SPEED) }]
        counts := fun k =>
          if k = (fromNodeId, toNodeId) then connectionCount + 1 else ps.counts k
        nextParticleId := ps.nextParticleId + 1 }

/-- decrementConnectionCount(fromNodeId, toNodeId): deletes the key at count
≤ 1 (a deleted key reads back as 0), otherwise decrements. -/
def decrementConnectionCount (counts : Nat × Nat → Nat) (fromNodeId toNodeId : Nat) :
    (Nat × Nat) → Nat :=
  fun k =>
    if k = (fromNodeId, toNodeId) then
      if counts (fromNodeId, toNodeId) ≤ 1 then 0 else counts (fromNodeId, toNodeId) - 1
    else counts k

/-- One step of the filter inside updateParticles: drop the particle (and
decrement its connection count) when an endpoint is gone or progress reaches
1 after advancing, keep the advanced particle otherwise. -/
def updateParticleStep (ex : Nat → Bool) (tickDelta : ℚ)
    (acc : List FlowParticle × ((Nat × Nat) → Nat)) (p : FlowParticle) :
    List FlowParticle × ((Nat × Nat) → Nat) :=
  if ex p.fromNodeId = false ∨ ex p.toNodeId = false then
    (acc.1, decrementConnectionCount acc.2 p.fromNodeId p.toNodeId)
  else
    let p' := { p with progress := p.progress + p.speed * tickDelta }
    if 1 ≤ p'.progress then
      (acc.1, decrementConnectionCount acc.2 p.fromNodeId p.toNodeId)
    else
      (acc.1 ++ [p'], acc.2)

/-- updateParticles(): advance every particle by speed × fixedTickSeconds and
drop completed or orphaned ones. -/
def updateParticles (ex : Nat → Bool) (ps : ParticleState) : ParticleState :=
  let tickDelta := 1 / TICKS_PER_SECOND
  let r := ps.particles.foldl (updateParticleStep ex tickDelta) ([], ps.counts)
  { ps with particles := r.1, counts := r.2 }

/-- Particle states reachable by any sequence of spawn calls and update ticks
(for any outcome of the random spawn rolls and any node-table evolution). -/
inductive ParticleReachable : ParticleState → Prop
  | init : ParticleReachable particleInitialState
  | clear (ps : ParticleState) : ParticleReachable ps →
      ParticleReachable (clearParticles ps)
  | spawn (ps : ParticleState) (f t : Nat) (k : FlowKind) (sp : ℚ) :
      ParticleReachable ps → ParticleReachable (spawnFlowParticle ps f t k sp)
  | update (ps : ParticleState) (ex : Nat → Bool) :
      ParticleReachable ps → ParticleReachable (updateParticles ex ps)

def keyOf (p : FlowParticle) : Nat × Nat := (p.fromNodeId, p.toNodeId)

/-- The inductive invariant of the particle pool: the count cache is exact,
the pool respects the global budget, and every connection respects the
per-connection budget. -/
def ParticleInv (ps : ParticleState) : Prop :=
  (∀ k, ps.counts k = (ps.particles.filter (fun p => keyOf p == k)).length) ∧
  ps.particles.length ≤ MAX_TOTAL_PARTICLES ∧
  (∀ k, ps.counts k ≤ MAX_PARTICLES_PER_CONNECTION)

theorem particleInv_init : ParticleInv particleInitialState := by
  refine ⟨fun k => rfl, by decide, fun k => Nat.zero_le _⟩

theorem particleInv_clear (ps : ParticleState) (_h : ParticleInv ps) :
    ParticleInv (clearParticles ps) := by
  refine ⟨fun k => rfl, by simp [clearParticles, MAX_TOTAL_PARTICLES], fun k => by
    simp [clearParticles, MAX_PARTICLES_PER_CONNECTION]⟩

theorem particleInv_spawn (ps : ParticleState) (f t : Nat) (kd : FlowKind) (sp : ℚ)
    (h : ParticleInv ps) : ParticleInv (spawnFlowParticle ps f t kd sp) := by
  obtain ⟨hc, hlen, hcap⟩ := h
  unfold spawnFlowParticle
  by_cases h1 : MAX_TOTAL_PARTICLES ≤ ps.particles.length
  · simpa [h1] using ⟨hc, hlen, hcap⟩
  · by_cases h2 : MAX_PARTICLES_PER_CONNECTION ≤ ps.counts (f, t)
    · simpa [h1, h2] using ⟨hc, hlen, hcap⟩
    · simp only [if_neg h1, if_neg h2]
      refine ⟨?_, ?_, ?_⟩
      · intro k
        by_cases hk : k = (f, t)
        · subst hk
          simp [List.filter_append, hc, keyOf]
        · have hk' : ¬ ((f, t) = k) := fun he => hk he.symm
          simp [List.filter_append, hc, keyOf, hk, hk']
      · simp only [List.length_append, List.length_cons, List.length_nil]
        omega
      · intro k
        by_cases hk : k = (f, t)
        · subst hk
          show (if ((f, t) : Nat × Nat) = (f, t) then ps.counts (f, t) + 1
            else ps.counts (f, t)) ≤ MAX_PARTICLES_PER_CONNECTION
          rw [if_pos rfl]
          omega
        · show (if k = (f, t) then ps.counts (f, t) + 1 else ps.counts k) ≤
            MAX_PARTICLES_PER_CONNECTION
          rw [if_neg hk]
          exact hcap k

theorem decrement_consistent (p : FlowParticle) (kept rest : List FlowParticle)
    (c : (Nat × Nat) → Nat)
    (hc : ∀ k, c k = ((kept ++ p :: rest).filter (fun q => keyOf q == k)).length) :
    ∀ k, decrementConnectionCount c p.fromNodeId p.toNodeId k =
      ((kept ++ rest).filter (fun q => keyOf q == k)).length := by
  intro k
  by_cases hk : k = (p.fromNodeId, p.toNodeId)
  · subst hk
    have hsplit : c (p.fromNodeId, p.toNodeId) =
        ((kept ++ rest).filter
          (fun q => keyOf q == (p.fromNodeId, p.toNodeId))).length + 1 := by
      rw [hc]
      simp [List.filter_append, List.filter_cons, keyOf]
      try omega
    unfold decrementConnectionCount
    rw [if_pos rfl]
    by_cases hone : c (p.fromNodeId, p.toNodeId) ≤ 1
    · rw [if_pos hone]; omega
    · rw [if_neg hone]; omega
  · have hk2 : ¬ ((p.fromNodeId, p.toNodeId) = k) := fun he => hk he.symm
    have hkb : (keyOf p == k) = false := by
      simp only [keyOf, beq_eq_false_iff_ne, ne_eq]
      exact hk2
    unfold decrementConnectionCount
    rw [if_neg hk, hc k]
    simp [List.filter_append, List.filter_cons, hkb]

theorem decrement_cap (c : (Nat × Nat) → Nat) (f t : Nat)
    (hcap : ∀ k, c k ≤ MAX_PARTICLES_PER_CONNECTION) :
    ∀ k, decrementConnectionCount c f t k ≤ MAX_PARTICLES_PER_CONNECTION := by
  intro k
  unfold decrementConnectionCount
  by_cases hk : k = (f, t)
  · rw [if_pos hk]
    by_cases hone : c (f, t) ≤ 1
    · rw [if_pos hone]; exact Nat.zero_le _
    · rw [if_neg hone]
      have := hcap (f, t)
      omega
  · rw [if_neg hk]; exact hcap k

theorem keep_consistent (p p' : FlowParticle) (hpk : keyOf p' = keyOf p)
    (kept rest : List FlowParticle) (c : (Nat × Nat) → Nat)
    (hc : ∀ k, c k = ((kept ++ p :: rest).filter (fun q => keyOf q == k)).length) :
    ∀ k, c k = (((kept ++ [p']) ++ rest).filter (fun q => keyOf q == k)).length := by
  intro k
  rw [hc k]
  by_cases hkk : (keyOf p == k) = true
  · simp [List.filter_append, List.filter_cons, hpk, hkk]
    try omega
  · have hkk2 : (keyOf p == k) = false := by
      cases hb : (keyOf p == k) with
      | true => exact absurd hb hkk
      | false => rfl
    simp [List.filter_append, List.filter_cons, hpk, hkk2]

theorem updateFold_inv (ex : Nat → Bool) (tickDelta : ℚ) :
    ∀ (rest kept : List FlowParticle) (c : (Nat × Nat) → Nat),
      (∀ k, c k = ((kept ++ rest).filter (fun p => keyOf p == k)).length) →
      (kept ++ rest).length ≤ MAX_TOTAL_PARTICLES →
      (∀ k, c k ≤ MAX_PARTICLES_PER_CONNECTION) →
      (∀ k, (rest.foldl (updateParticleStep ex tickDelta) (kept, c)).2 k =
        ((rest.foldl (updateParticleStep ex tickDelta) (kept, c)).1.filter
          (fun p => keyOf p == k)).length) ∧
      (rest.foldl (updateParticleStep ex tickDelta) (kept, c)).1.length ≤
        MAX_TOTAL_PARTICLES ∧
      (∀ k, (rest.foldl (updateParticleStep ex tickDelta) (kept, c)).2 k ≤
        MAX_PARTICLES_PER_CONNECTION) := by
  intro rest
  induction rest with
  | nil =>
    intro kept c hc hlen hcap
    rw [List.foldl_nil]
    refine ⟨fun k => ?_, by simpa using hlen, hcap⟩
    show c k = _
    rw [hc k, List.append_nil]
  | cons p rest ih =>
    intro kept c hc hlen hcap
    rw [List.foldl_cons]
    by_cases hdrop : ex p.fromNodeId = false ∨ ex p.toNodeId = false
    · have hstep : updateParticleStep ex tickDelta (kept, c) p =
          (kept, decrementConnectionCount c p.fromNodeId p.toNodeId) := by
        unfold updateParticleStep
        rw [if_pos hdrop]
      rw [hstep]
      refine ih kept _ (decrement_consistent p kept rest c hc) ?_
        (decrement_cap c _ _ hcap)
      have := hlen
      simp only [List.length_append, List.length_cons] at this ⊢
      omega
    · by_cases hdone : 1 ≤ p.progress + p.speed * tickDelta
      · have hstep : updateParticleStep ex tickDelta (kept, c) p =
            (kept, decrementConnectionCount c p.fromNodeId p.toNodeId) := by
          unfold updateParticleStep
          rw [if_neg hdrop, if_pos hdone]
        rw [hstep]
        refine ih kept _ (decrement_consistent p kept rest c hc) ?_
          (decrement_cap c _ _ hcap)
        have := hlen
        simp only [List.length_append, List.length_cons] at this ⊢
        omega
      · have hstep : updateParticleStep ex tickDelta (kept, c) p =
            (kept ++ [{ p with progress := p.progress + p.speed * tickDelta }], c) := by
          unfold updateParticleStep
          rw [if_neg hdrop, if_neg hdone]
        rw [hstep]
        refine ih _ _ (keep_consistent p
          { p with progress := p.progress + p.speed * tickDelta } rfl kept rest c hc)
          ?_ hcap
        have := hlen
        simp only [List.length_append, List.length_cons, List.length_nil] at this ⊢
        omega

theorem particleInv_update (ps : ParticleState) (ex : Nat → Bool)
    (h : ParticleInv ps) : ParticleInv (updateParticles ex ps) := by
  obtain ⟨hc, hlen, hcap⟩ := h
  have := updateFold_inv ex (1 / TICKS_PER_SECOND) ps.particles [] ps.counts
    (by simpa using hc) (by simpa using hlen) hcap
  exact ⟨this.1, this.2.1, this.2.2⟩

theorem particleInv_reachable (ps : ParticleState) (h : ParticleReachable ps) :
    ParticleInv ps := by
  induction h with
  | init => exact particleInv_init
  | clear ps _ ih => exact particleInv_clear ps ih
  | spawn ps f t k sp _ ih => exact particleInv_spawn ps f t k sp ih
  | update ps ex _ ih => exact particleInv_update ps ex ih

/-- Claim C4: under every sequence of spawn calls and particle-update ticks
(every outcome of the random rolls), the number of live flow markers never
exceeds the global cap 150, and no (source, destination) pair ever holds more
than the per-connection cap 2. -/
theorem claim_C4_particle_budgets (ps : ParticleState) (h : ParticleReachable ps) :
    ps.particles.length ≤ 150 ∧
    ∀ fromId toId : Nat,
      (ps.particles.filter
        (fun p => p.fromNodeId == fromId && p.toNodeId == toId)).length ≤ 2 := by
  obtain ⟨hc, hlen, hcap⟩ := particleInv_reachable ps h
  refine ⟨hlen, fun fromId toId => ?_⟩
  have hfe : (fun p : FlowParticle => p.fromNodeId == fromId && p.toNodeId == toId) =
      (fun p => keyOf p == (fromId, toId)) := by
    funext p
    rfl
  rw [hfe, ← hc (fromId, toId)]
  exact hcap (fromId, toId)

theorem claim_C4_particle_budgets_witness :
    particleInitialState.particles.length ≤ 150 ∧
    ∀ fromId toId : Nat,
      (particleInitialState.particles.filter
        (fun p => p.fromNodeId == fromId && p.toNodeId == toId)).length ≤ 2 :=
  claim_C4_particle_budgets particleInitialState ParticleReachable.init

/-! The hydraulics system (hydraulics.ts) and the metabolism system
(metabolism.ts).  Each pass iterates over the id list snapshot taken at the
start of the pass and reads all fields from the current store; particle
spawning has no effect on node state and is omitted here (it is modelled by
the particle subsystem above). -/

def nodeIds (s : Store) : List Nat := s.nodes.map (fun n => n.id)

/-- The transpiration factor: baseFactor + sunFactor * 0.8 with
sunFactor = sunIntensity * (1 + temperature / 40). -/
def transpFactor (c : Climate) : ℚ :=
  2/10 + (c.sunIntensity * (1 + c.temperature / 40)) * (8/10)

/-- Transpiration of one node (leaves and childless tips lose water, floored
at 0.12, only while above 0.15). -/
def transpStep (c : Climate) (s : Store) (id : Nat) : Store :=
  match s.find? id with
  | none => s
  | some node =>
    if node.isActive = false then s
    else if node.type = NodeType.LEAF ∨ node.childrenIds.length = 0 then
      let waterLoss := TRANSPIRATION_RATE * transpFactor c * node.radius
      if node.waterPressure > 15/100 then
        let actualLoss := min waterLoss (node.waterPressure - 12/100)
        let newPressure := max (12/100) (node.waterPressure - actualLoss)
        if actualLoss > 0 then
          s.updateNode id (fun n => { n with waterPressure := newPressure })
        else s
      else s
    else s

def processTranspiration (s : Store) : Store :=
  (nodeIds s).foldl (transpStep s.climate) s

/-- getSoilWaterAtDepth(depth) from climate.ts. -/
def getSoilWaterAtDepth (c : Climate) (depth : ℚ) : ℚ :=
  min 1 (c.soilWater + min 1 (depth / 2) * (3/10))

/-- Root uptake of one root node. -/
def uptakeStep (c : Climate) (s : Store) (id : Nat) : Store :=
  match s.find? id with
  | none => s
  | some root =>
    if root.isActive = false then s
    else
      let depth := |root.position.y|
      let soilWater := getSoilWaterAtDepth c depth
      if soilWater > 1/10 ∧ root.waterPressure < 95/100 then
        let uptake := ROOT_UPTAKE_RATE * root.radius *
          max (1/10) (soilWater - root.waterPressure)
        let newPressure := min 1 (root.waterPressure + uptake)
        if uptake > 1/1000 then
          (s.updateNode id (fun n => { n with waterPressure := newPressure })).modifyWater
            (uptake * 10)
        else s
      else s

def processRootUptake (s : Store) : Store :=
  ((s.nodes.filter (fun n => n.type == NodeType.ROOT)).map (fun n => n.id)).foldl
    (uptakeStep s.climate) s

/-- Xylem transfer across the edge from a node's parent into the node. -/
def xylemStep (s : Store) (id : Nat) : Store :=
  match s.find? id with
  | none => s
  | some node =>
    if node.isActive = false then s
    else
      match node.parentId with
      | none => s
      | some pid =>
        match s.find? pid with
        | none => s
        | some parent =>
          if parent.isActive = false then s
          else
            let pressureDiff := parent.waterPressure - node.waterPressure
            if pressureDiff > FLOW_THRESHOLD then
              let flowCapacity := min node.radius parent.radius
              let flowRate := WATER_FLOW_RATE * pressureDiff * flowCapacity
              let actualFlow := min flowRate (parent.waterPressure * (5/10))
              let s1 := s.updateNode pid (fun p =>
                { p with waterPressure := parent.waterPressure - actualFlow })
              s1.updateNode id (fun n =>
                { n with waterPressure := min 1 (node.waterPressure + actualFlow * (95/100)) })
            else s

def processXylemFlow (s : Store) : Store :=
  (nodeIds s).foldl xylemStep s

/-- Phloem diffusion across one parent→child edge (can run either way). -/
def phloemEdge (s : Store) (pid cid : Nat) : Store :=
  match s.find? pid with
  | none => s
  | some node =>
    match s.find? cid with
    | none => s
    | some child =>
      if child.isActive = false then s
      else
        let concDiff := node.sugarConcentration - child.sugarConcentration
        if |concDiff| > FLOW_THRESHOLD then
          let flowCapacity := min node.radius child.radius
          let flowRate := SUGAR_DIFFUSION_RATE * |concDiff| * flowCapacity
          let actualFlow := flowRate
          if concDiff > 0 then
            let s1 := s.updateNode pid (fun n =>
              { n with
                sugarConcentration := node.sugarConcentration - actualFlow * (5/10)
                sugarStore := max 0 (node.sugarStore - actualFlow) })
            s1.updateNode cid (fun n =>
              { n with
                sugarConcentration := min 1 (child.sugarConcentration + actualFlow * (45/100))
                sugarStore := child.sugarStore + actualFlow * (9/10) })
          else
            let s1 := s.updateNode cid (fun n =>
              { n with sugarConcentration := child.sugarConcentration - |actualFlow| * (5/10) })
            s1.updateNode pid (fun n =>
              { n with
                sugarConcentration := min 1 (node.sugarConcentration + |actualFlow| * (45/100)) })
        else s

/-- Phloem processing of one node: diffuse across every edge to its children
(the child list is read when the node is reached, as the source loop does). -/
def phloemStep (s : Store) (id : Nat) : Store :=
  match s.find? id with
  | none => s
  | some node =>
    if node.isActive = false then s
    else node.childrenIds.foldl (fun acc cid => phloemEdge acc id cid) s

def processPhloemFlow (s : Store) : Store :=
  (nodeIds s).foldl phloemStep s

/-- updateHydraulics(): transpiration, root uptake, xylem, phloem (the
particle-integration step lives in the particle subsystem). -/
def updateHydraulics (s : Store) : Store :=
  processPhloemFlow (processXylemFlow (processRootUptake (processTranspiration s)))

/-- Photosynthesis of one node (leaves and childless tips with enough water). -/
def photoStep (c : Climate) (s : Store) (id : Nat) : Store :=
  match s.find? id with
  | none => s
  | some node =>
    if node.isActive = false then s
    else if node.type ≠ NodeType.LEAF ∧ node.childrenIds.length > 0 then s
    else if node.waterPressure < MIN_WATER_FOR_PHOTOSYNTHESIS then s
    else
      let sunFactor := 15/100 + c.sunIntensity * (85/100)
      let waterFactor := min 1 (node.waterPressure / (5/10))
      let sizeFactor := node.radius * 10
      let sugarProduced := PHOTOSYNTHESIS_RATE * sunFactor * waterFactor * sizeFactor
      if sugarProduced > 0 then
        let waterCost := sugarProduced * WATER_PER_SUGAR
        let s1 := s.updateNode id (fun n =>
          { n with
            waterPressure := max 0 (node.waterPressure - waterCost * (1/10))
            sugarStore := node.sugarStore + sugarProduced
            sugarConcentration := min 1 (node.sugarConcentration + sugarProduced * (1/10)) })
        s1.modifySugar sugarProduced
      else s

def processPhotosynthesis (s : Store) : Store :=
  (nodeIds s).foldl (photoStep s.climate) s

/-- Respiration of one node: pay the maintenance cost from the local buffer,
or zero the buffer and add starvation stress. -/
def respStep (s : Store) (id : Nat) : Store :=
  match s.find? id with
  | none => s
  | some node =>
    if node.isActive = false then s
    else
      let respirationCost := NODE_RESPIRATION_COST * (1 + node.radius * 5)
      if node.sugarStore ≥ respirationCost then
        s.updateNode id (fun n =>
          { n with
            sugarStore := node.sugarStore - respirationCost
            sugarConcentration := max 0 (node.sugarConcentration - respirationCost * (5/100)) })
      else
        let deficit := respirationCost - node.sugarStore
        let s1 := s.updateNode id (fun n =>
          { n with
            sugarStore := 0
            sugarConcentration := max 0 (node.sugarConcentration - 1/100) })
        let stressIncrease := deficit * STARVATION_STRESS_RATE
        s1.updateNode id (fun n =>
          { n with stressLevel := min 1 (node.stressLevel + stressIncrease) })

def processRespiration (s : Store) : Store :=
  (nodeIds s).foldl respStep s

/-- The stress delta of the stress-and-health step as a function of the node's
current pressure and local sugar. -/
def stressDelta (node : PlantNode) : ℚ :=
  (if node.waterPressure < 8/100 then
    DEHYDRATION_STRESS_RATE * (8/100 - node.waterPressure) else 0) +
  (if node.waterPressure > 15/100 ∧ node.sugarStore > 2/100 then
    -HEALTH_RECOVERY_RATE
  else if node.waterPressure > 1/10 then
    -(HEALTH_RECOVERY_RATE * (5/10))
  else 0)

/-- Stress-and-health processing of one node, including the death branch. -/
def stressStep (s : Store) (id : Nat) : Store :=
  match s.find? id with
  | none => s
  | some node =>
    if node.isActive = false then s
    else
      let newStress := max 0 (min 1 (node.stressLevel + stressDelta node))
      let targetHealth := 1 - newStress * (8/10)
      let newHealth := node.structuralHealth +
        (targetHealth - node.structuralHealth) * (1/10)
      if newStress ≥ STRESS_DEATH_THRESHOLD then
        s.updateNode id (fun n =>
          { n with stressLevel := 1, structuralHealth := 0, isActive := false })
      else
        s.updateNode id (fun n =>
          { n with
            stressLevel := newStress
            structuralHealth := max 0 (min 1 newHealth) })

def processStressAndHealth (s : Store) : Store :=
  (nodeIds s).foldl stressStep s

/-- updateMetabolism(): photosynthesis, respiration, stress and health. -/
def updateMetabolism (s : Store) : Store :=
  processStressAndHealth (processRespiration (processPhotosynthesis s))

/-- One simulation tick (loop.ts `tick`): climate, hydraulics, metabolism,
tick counter.  The climate update itself is abstracted: `c` is the record the
climate driver wrote this tick (see `ClimateOK`), and auto-grow is disabled. -/
def tickSim (s : Store) (c : Climate) : Store :=
  incrementTick (updateMetabolism (updateHydraulics { s with climate := c }))

/-- The ranges climate.ts guarantees for the fields the other systems read:
sun intensity is clamped below by MIN_SUN_INTENSITY = 0 and each branch of
the piecewise sinusoid is at most 1; temperature is 20 ± 10; soil water is
clamped to [0, 1]. -/
def ClimateOK (c : Climate) : Prop :=
  0 ≤ c.sunIntensity ∧ c.sunIntensity ≤ 1 ∧
  10 ≤ c.temperature ∧ c.temperature ≤ 30 ∧
  0 ≤ c.soilWater ∧ c.soilWater ≤ 1

/-- One externally observable transition of the store: a structural mutation
call (addSegment with the default radius, removeSegment, extendSegment) or
one simulation tick with an admissible climate outcome. -/
inductive SimStep : Store → Store → Prop
  | add (s : Store) (pid : Nat) (t : NodeType) (pos : Vec2) :
      SimStep s (addNode s pid t pos).1
  | remove (s : Store) (id : Nat) : SimStep s (removeNode s id).1
  | extend (s : Store) (id : Nat) (dir : Vec2) : SimStep s (extendNode s id dir).1
  | tick (s : Store) (c : Climate) : ClimateOK c → c.tick = s.climate.tick →
      SimStep s (tickSim s c)

/-- The states reachable from the initial seed state by mutation calls and
ticks. -/
def Reachable (s : Store) : Prop :=
  Relation.ReflTransGen SimStep initialStore s

/-! The range invariant of claim C1: every segment keeps its scalar fields in
range in every reachable state.  `NodeOK` is the inductive strengthening
(radius is also bounded by 1, which every created radius satisfies and which
the phloem bound needs; the local sugar buffer stays nonnegative). -/

structure NodeOK (n : PlantNode) : Prop where
  wp0 : 0 ≤ n.waterPressure
  wp1 : n.waterPressure ≤ 1
  sc0 : 0 ≤ n.sugarConcentration
  sc1 : n.sugarConcentration ≤ 1
  sh0 : 0 ≤ n.structuralHealth
  sh1 : n.structuralHealth ≤ 1
  st0 : 0 ≤ n.stressLevel
  st1 : n.stressLevel ≤ 1
  rad0 : 0 < n.radius
  rad1 : n.radius ≤ 1
  ss0 : 0 ≤ n.sugarStore

def StoreOK (s : Store) : Prop := ∀ n ∈ s.nodes, NodeOK n

theorem mem_of_find? {s : Store} {i : Nat} {n : PlantNode} (h : s.find? i = some n) :
    n ∈ s.nodes := List.mem_of_find?_eq_some h

theorem storeOK_updateNode {s : Store} (i : Nat) (f : PlantNode → PlantNode)
    (h : StoreOK s) (hf : ∀ n ∈ s.nodes, NodeOK n → NodeOK (f n)) :
    StoreOK (s.updateNode i f) := by
  intro n hn
  simp only [Store.updateNode, List.mem_map] at hn
  obtain ⟨m, hm, hmn⟩ := hn
  by_cases hid : (m.id == i) = true
  · rw [if_pos hid] at hmn
    exact hmn ▸ hf m hm (h m hm)
  · rw [if_neg hid] at hmn
    exact hmn ▸ h m hm

theorem storeOK_foldl {α : Type} {step : Store → α → Store}
    (hstep : ∀ s id, StoreOK s → StoreOK (step s id)) :
    ∀ (ids : List α) (s : Store), StoreOK s → StoreOK (ids.foldl step s) := by
  intro ids
  induction ids with
  | nil => intro s h; simpa using h
  | cons i ids ih =>
    intro s h
    rw [List.foldl_cons]
    exact ih _ (hstep s i h)

theorem storeOK_modifyWater {s : Store} (d : ℚ) (h : StoreOK s) :
    StoreOK (s.modifyWater d) := fun n hn => h n hn

theorem storeOK_modifySugar {s : Store} (d : ℚ) (h : StoreOK s) :
    StoreOK (s.modifySugar d) := fun n hn => h n hn

theorem storeOK_transpStep (c : Climate) (s : Store) (id : Nat) (h : StoreOK s) :
    StoreOK (transpStep c s id) := by
  unfold transpStep
  cases hf : s.find? id with
  | none => exact h
  | some node =>
    dsimp only
    have hnode := h node (mem_of_find? hf)
    by_cases ha : node.isActive = false
    · rw [if_pos ha]; exact h
    rw [if_neg ha]
    by_cases htip : node.type = NodeType.LEAF ∨ node.childrenIds.length = 0
    · rw [if_pos htip]
      by_cases hp : node.waterPressure > 15/100
      · rw [if_pos hp]
        by_cases hloss : min (TRANSPIRATION_RATE * transpFactor c * node.radius)
            (node.waterPressure - 12/100) > 0
        · rw [if_pos hloss]
          apply storeOK_updateNode _ _ h
          intro n _ hn
          refine ⟨?_, ?_, hn.sc0, hn.sc1, hn.sh0, hn.sh1, hn.st0, hn.st1, hn.rad0,
            hn.rad1, hn.ss0⟩
          · exact le_trans (by norm_num) (le_max_left _ _)
          · exact max_le (by norm_num) (by linarith [hnode.wp1])
        · rw [if_neg hloss]; exact h
      · rw [if_neg hp]; exact h
    · rw [if_neg htip]; exact h

theorem storeOK_processTranspiration (s : Store) (h : StoreOK s) :
    StoreOK (processTranspiration s) :=
  storeOK_foldl (storeOK_transpStep s.climate) (nodeIds s) s h

theorem storeOK_uptakeStep (c : Climate) (s : Store) (id : Nat) (h : StoreOK s) :
    StoreOK (uptakeStep c s id) := by
  unfold uptakeStep
  cases hf : s.find? id with
  | none => exact h
  | some root =>
    dsimp only
    have hroot := h root (mem_of_find? hf)
    by_cases ha : root.isActive = false
    · rw [if_pos ha]; exact h
    rw [if_neg ha]
    by_cases hs : getSoilWaterAtDepth c |root.position.y| > 1/10 ∧
        root.waterPressure < 95/100
    · rw [if_pos hs]
      have hup : 0 ≤ ROOT_UPTAKE_RATE * root.radius *
          max (1/10) (getSoilWaterAtDepth c |root.position.y| - root.waterPressure) := by
        apply mul_nonneg (mul_nonneg (by norm_num [ROOT_UPTAKE_RATE]) hroot.rad0.le)
        exact le_trans (by norm_num) (le_max_left _ _)
      by_cases hgate : ROOT_UPTAKE_RATE * root.radius *
          max (1/10) (getSoilWaterAtDepth c |root.position.y| - root.waterPressure) >
            1/1000
      · rw [if_pos hgate]
        apply storeOK_modifyWater
        apply storeOK_updateNode _ _ h
        intro n _ hn
        refine ⟨?_, min_le_left _ _, hn.sc0, hn.sc1, hn.sh0, hn.sh1, hn.st0, hn.st1,
          hn.rad0, hn.rad1, hn.ss0⟩
        exact le_min (by norm_num) (by linarith [hroot.wp0])
      · rw [if_neg hgate]; exact h
    · rw [if_neg hs]; exact h

theorem storeOK_processRootUptake (s : Store) (h : StoreOK s) :
    StoreOK (processRootUptake s) :=
  storeOK_foldl (storeOK_uptakeStep s.climate) _ s h

theorem storeOK_xylemStep (s : Store) (id : Nat) (h : StoreOK s) :
    StoreOK (xylemStep s id) := by
  unfold xylemStep
  cases hf : s.find? id with
  | none => exact h
  | some node =>
    dsimp only
    have hnode := h node (mem_of_find? hf)
    by_cases ha : node.isActive = false
    · rw [if_pos ha]; exact h
    rw [if_neg ha]
    cases hpar : node.parentId with
    | none => exact h
    | some pid =>
      dsimp only
      cases hfp : s.find? pid with
      | none => dsimp only; exact h
      | some parent =>
        dsimp only
        have hparent := h parent (mem_of_find? hfp)
        by_cases hpa : parent.isActive = false
        · rw [if_pos hpa]; exact h
        rw [if_neg hpa]
        by_cases hd : parent.waterPressure - node.waterPressure > FLOW_THRESHOLD
        · rw [if_pos hd]
          have hcap0 : 0 ≤ min node.radius parent.radius :=
            le_min hnode.rad0.le hparent.rad0.le
          have hflow0 : 0 ≤ min
              (WATER_FLOW_RATE * (parent.waterPressure - node.waterPressure) *
                min node.radius parent.radius)
              (parent.waterPressure * (5/10)) := by
            apply le_min
            · apply mul_nonneg
              apply mul_nonneg (by norm_num [WATER_FLOW_RATE])
              · have : (0:ℚ) < 3/1000 := by norm_num
                simp only [FLOW_THRESHOLD] at hd
                linarith
              · exact hcap0
            · linarith [hparent.wp0]
          have hflowle : min
              (WATER_FLOW_RATE * (parent.waterPressure - node.waterPressure) *
                min node.radius parent.radius)
              (parent.waterPressure * (5/10)) ≤ parent.waterPressure * (5/10) :=
            min_le_right _ _
          apply storeOK_updateNode _ _
            (storeOK_updateNode _ _ h ?_) ?_
          · intro n _ hn
            refine ⟨?_, ?_, hn.sc0, hn.sc1, hn.sh0, hn.sh1, hn.st0, hn.st1, hn.rad0,
              hn.rad1, hn.ss0⟩
            · linarith [hparent.wp0]
            · linarith [hparent.wp1]
          · intro n _ hn
            refine ⟨?_, min_le_left _ _, hn.sc0, hn.sc1, hn.sh0, hn.sh1, hn.st0,
              hn.st1, hn.rad0, hn.rad1, hn.ss0⟩
            exact le_min (by norm_num) (by linarith [hnode.wp0])
        · rw [if_neg hd]; exact h

theorem storeOK_processXylemFlow (s : Store) (h : StoreOK s) :
    StoreOK (processXylemFlow s) :=
  storeOK_foldl storeOK_xylemStep (nodeIds s) s h

theorem storeOK_phloemEdge (s : Store) (pid cid : Nat) (h : StoreOK s) :
    StoreOK (phloemEdge s pid cid) := by
  unfold phloemEdge
  cases hf : s.find? pid with
  | none => exact h
  | some node =>
    dsimp only
    cases hfc : s.find? cid with
    | none => exact h
    | some child =>
      dsimp only
      have hnode := h node (mem_of_find? hf)
      have hchild := h child (mem_of_find? hfc)
      by_cases ha : child.isActive = false
      · rw [if_pos ha]; exact h
      rw [if_neg ha]
      by_cases habs : |node.sugarConcentration - child.sugarConcentration| >
          FLOW_THRESHOLD
      · rw [if_pos habs]
        have hm0 : 0 ≤ min node.radius child.radius :=
          le_min hnode.rad0.le hchild.rad0.le
        have hm1 : min node.radius child.radius ≤ 1 :=
          le_trans (min_le_left _ _) hnode.rad1
        have haf0 : 0 ≤ SUGAR_DIFFUSION_RATE *
            |node.sugarConcentration - child.sugarConcentration| *
            min node.radius child.radius :=
          mul_nonneg (mul_nonneg (by norm_num [SUGAR_DIFFUSION_RATE]) (abs_nonneg _))
            hm0
        by_cases hpos : node.sugarConcentration - child.sugarConcentration > 0
        · rw [if_pos hpos]
          have habsd : |node.sugarConcentration - child.sugarConcentration| =
              node.sugarConcentration - child.sugarConcentration := abs_of_pos hpos
          have key : SUGAR_DIFFUSION_RATE *
              |node.sugarConcentration - child.sugarConcentration| *
              min node.radius child.radius * (5/10) ≤
              node.sugarConcentration - child.sugarConcentration := by
            rw [habsd]
            simp only [SUGAR_DIFFUSION_RATE]
            nlinarith [mul_nonneg hpos.le
              (show (0:ℚ) ≤ 1 - min node.radius child.radius * (1/10) by linarith)]
          apply storeOK_updateNode _ _ (storeOK_updateNode _ _ h ?_) ?_
          · intro n _ hn
            refine ⟨hn.wp0, hn.wp1, ?_, ?_, hn.sh0, hn.sh1, hn.st0, hn.st1, hn.rad0,
              hn.rad1, ?_⟩
            · show (0:ℚ) ≤ node.sugarConcentration - _ * (5/10)
              linarith [hchild.sc0]
            · show node.sugarConcentration - _ * (5/10) ≤ 1
              nlinarith [hnode.sc1, haf0]
            · exact le_max_left _ _
          · intro n _ hn
            refine ⟨hn.wp0, hn.wp1, ?_, min_le_left _ _, hn.sh0, hn.sh1, hn.st0,
              hn.st1, hn.rad0, hn.rad1, ?_⟩
            · refine le_min (by norm_num) ?_
              have : (0:ℚ) ≤ SUGAR_DIFFUSION_RATE *
                  |node.sugarConcentration - child.sugarConcentration| *
                  min node.radius child.radius * (45/100) := by positivity
              linarith [hchild.sc0]
            · have : (0:ℚ) ≤ SUGAR_DIFFUSION_RATE *
                  |node.sugarConcentration - child.sugarConcentration| *
                  min node.radius child.radius * (9/10) := by positivity
              show (0:ℚ) ≤ child.sugarStore + _
              linarith [hchild.ss0]
        · rw [if_neg hpos]
          have hd0 : node.sugarConcentration - child.sugarConcentration < 0 := by
            rcases lt_trichotomy (node.sugarConcentration - child.sugarConcentration) 0
              with hlt | heq | hgt
            · exact hlt
            · rw [heq] at habs
              simp [FLOW_THRESHOLD] at habs
              linarith
            · exact absurd hgt hpos
          have habsd : |node.sugarConcentration - child.sugarConcentration| =
              -(node.sugarConcentration - child.sugarConcentration) := abs_of_neg hd0
          have key : SUGAR_DIFFUSION_RATE *
              |node.sugarConcentration - child.sugarConcentration| *
              min node.radius child.radius * (5/10) ≤
              child.sugarConcentration - node.sugarConcentration := by
            rw [habsd]
            simp only [SUGAR_DIFFUSION_RATE]
            nlinarith [mul_nonneg (by linarith :
                (0:ℚ) ≤ child.sugarConcentration - node.sugarConcentration)
              (show (0:ℚ) ≤ 1 - min node.radius child.radius * (1/10) by linarith)]
          have habsflow : |SUGAR_DIFFUSION_RATE *
              |node.sugarConcentration - child.sugarConcentration| *
              min node.radius child.radius| = SUGAR_DIFFUSION_RATE *
              |node.sugarConcentration - child.sugarConcentration| *
              min node.radius child.radius := abs_of_nonneg haf0
          apply storeOK_updateNode _ _ (storeOK_updateNode _ _ h ?_) ?_
          · intro n _ hn
            refine ⟨hn.wp0, hn.wp1, ?_, ?_, hn.sh0, hn.sh1, hn.st0, hn.st1, hn.rad0,
              hn.rad1, hn.ss0⟩
            · show (0:ℚ) ≤ child.sugarConcentration - |_| * (5/10)
              rw [habsflow]
              linarith [hnode.sc0]
            · show child.sugarConcentration - |_| * (5/10) ≤ 1
              rw [habsflow]
              nlinarith [hchild.sc1, haf0]
          · intro n _ hn
            refine ⟨hn.wp0, hn.wp1, ?_, min_le_left _ _, hn.sh0, hn.sh1, hn.st0,
              hn.st1, hn.rad0, hn.rad1, hn.ss0⟩
            refine le_min (by norm_num) ?_
            rw [habsflow]
            have : (0:ℚ) ≤ SUGAR_DIFFUSION_RATE *
                |node.sugarConcentration - child.sugarConcentration| *
                min node.radius child.radius * (45/100) := by positivity
            linarith [hnode.sc0]
      · rw [if_neg habs]; exact h

theorem storeOK_phloemStep (s : Store) (id : Nat) (h : StoreOK s) :
    StoreOK (phloemStep s id) := by
  unfold phloemStep
  cases hf : s.find? id with
  | none => exact h
  | some node =>
    dsimp only
    by_cases ha : node.isActive = false
    · rw [if_pos ha]; exact h
    rw [if_neg ha]
    exact storeOK_foldl (fun s' cid h' => storeOK_phloemEdge s' id cid h')
      node.childrenIds s h

theorem storeOK_processPhloemFlow (s : Store) (h : StoreOK s) :
    StoreOK (processPhloemFlow s) :=
  storeOK_foldl storeOK_phloemStep (nodeIds s) s h

theorem storeOK_updateHydraulics (s : Store) (h : StoreOK s) :
    StoreOK (updateHydraulics s) :=
  storeOK_processPhloemFlow _ (storeOK_processXylemFlow _
    (storeOK_processRootUptake _ (storeOK_processTranspiration _ h)))

theorem storeOK_photoStep (c : Climate) (s : Store) (id : Nat) (h : StoreOK s) :
    StoreOK (photoStep c s id) := by
  unfold photoStep
  cases hf : s.find? id with
  | none => exact h
  | some node =>
    dsimp only
    have hnode := h node (mem_of_find? hf)
    by_cases ha : node.isActive = false
    · rw [if_pos ha]; exact h
    rw [if_neg ha]
    by_cases hleaf : node.type ≠ NodeType.LEAF ∧ node.childrenIds.length > 0
    · rw [if_pos hleaf]; exact h
    rw [if_neg hleaf]
    by_cases hwp : node.waterPressure < MIN_WATER_FOR_PHOTOSYNTHESIS
    · rw [if_pos hwp]; exact h
    rw [if_neg hwp]
    by_cases hprod : PHOTOSYNTHESIS_RATE * (15/100 + c.sunIntensity * (85/100)) *
        min 1 (node.waterPressure / (5/10)) * (node.radius * 10) > 0
    · rw [if_pos hprod]
      apply storeOK_modifySugar
      apply storeOK_updateNode _ _ h
      intro n _ hn
      refine ⟨le_max_left _ _, ?_, ?_, min_le_left _ _, hn.sh0, hn.sh1, hn.st0,
        hn.st1, hn.rad0, hn.rad1, ?_⟩
      · refine max_le (by norm_num) ?_
        have : (0:ℚ) ≤ PHOTOSYNTHESIS_RATE * (15/100 + c.sunIntensity * (85/100)) *
            min 1 (node.waterPressure / (5/10)) * (node.radius * 10) *
            WATER_PER_SUGAR * (1/10) := by
          simp only [WATER_PER_SUGAR]
          nlinarith [hprod.le]
        linarith [hnode.wp1]
      · refine le_min (by norm_num) ?_
        have : (0:ℚ) ≤ PHOTOSYNTHESIS_RATE * (15/100 + c.sunIntensity * (85/100)) *
            min 1 (node.waterPressure / (5/10)) * (node.radius * 10) * (1/10) := by
          nlinarith [hprod.le]
        linarith [hnode.sc0]
      · show (0:ℚ) ≤ node.sugarStore + _
        linarith [hnode.ss0, hprod.le]
    · rw [if_neg hprod]; exact h

theorem storeOK_processPhotosynthesis (s : Store) (h : StoreOK s) :
    StoreOK (processPhotosynthesis s) :=
  storeOK_foldl (storeOK_photoStep s.climate) (nodeIds s) s h

theorem storeOK_respStep (s : Store) (id : Nat) (h : StoreOK s) :
    StoreOK (respStep s id) := by
  unfold respStep
  cases hf : s.find? id with
  | none => exact h
  | some node =>
    dsimp only
    have hnode := h node (mem_of_find? hf)
    have hcost : (0:ℚ) < NODE_RESPIRATION_COST * (1 + node.radius * 5) := by
      simp only [NODE_RESPIRATION_COST]
      nlinarith [hnode.rad0]
    by_cases ha : node.isActive = false
    · rw [if_pos ha]; exact h
    rw [if_neg ha]
    by_cases hfed : node.sugarStore ≥ NODE_RESPIRATION_COST * (1 + node.radius * 5)
    · rw [if_pos hfed]
      apply storeOK_updateNode _ _ h
      intro n _ hn
      refine ⟨hn.wp0, hn.wp1, le_max_left _ _, ?_, hn.sh0, hn.sh1, hn.st0, hn.st1,
        hn.rad0, hn.rad1, ?_⟩
      · refine max_le (by norm_num) ?_
        have : (0:ℚ) ≤ NODE_RESPIRATION_COST * (1 + node.radius * 5) * (5/100) := by
          nlinarith [hcost]
        linarith [hnode.sc1]
      · show (0:ℚ) ≤ node.sugarStore - _
        linarith
    · rw [if_neg hfed]
      apply storeOK_updateNode _ _ (storeOK_updateNode _ _ h ?_) ?_
      · intro n _ hn
        exact ⟨hn.wp0, hn.wp1, le_max_left _ _,
          max_le (by norm_num) (by linarith [hnode.sc1]), hn.sh0, hn.sh1, hn.st0,
          hn.st1, hn.rad0, hn.rad1, le_refl 0⟩
      · intro n _ hn
        refine ⟨hn.wp0, hn.wp1, hn.sc0, hn.sc1, hn.sh0, hn.sh1, ?_, min_le_left _ _,
          hn.rad0, hn.rad1, hn.ss0⟩
        refine le_min (by norm_num) ?_
        have : (0:ℚ) ≤ (NODE_RESPIRATION_COST * (1 + node.radius * 5) -
            node.sugarStore) * STARVATION_STRESS_RATE := by
          have hdef : (0:ℚ) < NODE_RESPIRATION_COST * (1 + node.radius * 5) -
              node.sugarStore := by linarith [not_le.mp hfed]
          simp only [STARVATION_STRESS_RATE]
          nlinarith [hdef]
        linarith [hnode.st0]

theorem storeOK_processRespiration (s : Store) (h : StoreOK s) :
    StoreOK (processRespiration s) :=
  storeOK_foldl storeOK_respStep (nodeIds s) s h

theorem storeOK_stressStep (s : Store) (id : Nat) (h : StoreOK s) :
    StoreOK (stressStep s id) := by
  unfold stressStep
  cases hf : s.find? id with
  | none => exact h
  | some node =>
    dsimp only
    by_cases ha : node.isActive = false
    · rw [if_pos ha]; exact h
    rw [if_neg ha]
    by_cases hdeath : max 0 (min 1 (node.stressLevel + stressDelta node)) ≥
        STRESS_DEATH_THRESHOLD
    · rw [if_pos hdeath]
      apply storeOK_updateNode _ _ h
      intro n _ hn
      exact ⟨hn.wp0, hn.wp1, hn.sc0, hn.sc1, le_refl 0, by norm_num, by norm_num,
        le_refl 1, hn.rad0, hn.rad1, hn.ss0⟩
    · rw [if_neg hdeath]
      apply storeOK_updateNode _ _ h
      intro n _ hn
      refine ⟨hn.wp0, hn.wp1, hn.sc0, hn.sc1, le_max_left _ _, ?_, le_max_left _ _,
        ?_, hn.rad0, hn.rad1, hn.ss0⟩
      · exact max_le (by norm_num) (min_le_left _ _)
      · exact max_le (by norm_num) (min_le_left _ _)

set_option maxHeartbeats 1000000 in
theorem storeOK_processStressAndHealth (s : Store) (h : StoreOK s) :
    StoreOK (processStressAndHealth s) :=
  storeOK_foldl storeOK_stressStep (nodeIds s) s h

theorem storeOK_updateMetabolism (s : Store) (h : StoreOK s) :
    StoreOK (updateMetabolism s) :=
  storeOK_processStressAndHealth _ (storeOK_processRespiration _
    (storeOK_processPhotosynthesis _ h))

theorem storeOK_incrementTick (s : Store) (h : StoreOK s) : StoreOK (incrementTick s) :=
  fun n hn => h n hn

theorem storeOK_tickSim (s : Store) (c : Climate) (h : StoreOK s) :
    StoreOK (tickSim s c) := by
  have h1 : StoreOK { s with climate := c } := fun n hn => h n hn
  exact storeOK_incrementTick _
    (storeOK_updateMetabolism _ (storeOK_updateHydraulics _ h1))

theorem nodesOK_append {l1 l2 : List PlantNode} (h1 : ∀ n ∈ l1, NodeOK n)
    (h2 : ∀ n ∈ l2, NodeOK n) : ∀ n ∈ l1 ++ l2, NodeOK n := by
  intro n hn
  rcases List.mem_append.mp hn with hm | hm
  · exact h1 n hm
  · exact h2 n hm

theorem nodesOK_map_ite {l : List PlantNode} {i : Nat} {f : PlantNode → PlantNode}
    (h : ∀ n ∈ l, NodeOK n) (hf : ∀ n, NodeOK n → NodeOK (f n)) :
    ∀ n ∈ l.map (fun n => if n.id == i then f n else n), NodeOK n := by
  intro n hn
  obtain ⟨m, hm, hmn⟩ := List.mem_map.mp hn
  by_cases hid : (m.id == i) = true
  · rw [if_pos hid] at hmn
    exact hmn ▸ hf m (h m hm)
  · rw [if_neg hid] at hmn
    exact hmn ▸ h m hm

theorem storeOK_addNode (s : Store) (pid : Nat) (t : NodeType) (pos : Vec2)
    (h : StoreOK s) : StoreOK (addNode s pid t pos).1 := by
  unfold addNode
  cases hf : s.find? pid with
  | none => exact h
  | some parent =>
    dsimp only
    have hparent := h parent (mem_of_find? hf)
    by_cases hlt : s.resources.sugar < getNodeCost t
    · rw [if_pos hlt]; exact h
    rw [if_neg hlt]
    refine fun n hn => nodesOK_map_ite (nodesOK_append h ?_) ?_ n hn
    · intro n hn
      rw [List.mem_singleton] at hn
      subst hn
      refine ⟨le_trans (by norm_num) (le_max_left _ _),
        max_le (by norm_num) (by nlinarith [hparent.wp1, hparent.wp0]),
        le_trans (by norm_num) (le_max_left _ _),
        max_le (by norm_num) (by nlinarith [hparent.sc1, hparent.sc0]),
        by norm_num, by norm_num, by norm_num, by norm_num, ?_, ?_, by norm_num⟩
      · cases t <;> norm_num [getDefaultRadius, LEAF_RADIUS, BRANCH_RADIUS,
          ROOT_RADIUS, TRUNK_RADIUS, SEED_RADIUS]
      · cases t <;> norm_num [getDefaultRadius, LEAF_RADIUS, BRANCH_RADIUS,
          ROOT_RADIUS, TRUNK_RADIUS, SEED_RADIUS]
    · intro n hn
      exact ⟨hn.wp0, hn.wp1, hn.sc0, hn.sc1, hn.sh0, hn.sh1, hn.st0, hn.st1,
        hn.rad0, hn.rad1, hn.ss0⟩

theorem storeOK_extendNode (s : Store) (id : Nat) (dir : Vec2) (h : StoreOK s) :
    StoreOK (extendNode s id dir).1 := by
  unfold extendNode
  cases hf : s.find? id with
  | none => exact h
  | some node =>
    dsimp only
    have hnode := h node (mem_of_find? hf)
    by_cases hty : node.type ≠ NodeType.TRUNK ∧ node.type ≠ NodeType.BRANCH ∧
        node.type ≠ NodeType.ROOT
    · rw [if_pos hty]; exact h
    rw [if_neg hty]
    by_cases hlt : s.resources.sugar < getNodeCost node.type
    · rw [if_pos hlt]; exact h
    rw [if_neg hlt]
    have h1 : StoreOK (node.childrenIds.foldl
        (fun acc cid => acc.updateNode cid (extendChildUpdate s.nextId dir)) s) := by
      apply storeOK_foldl _ node.childrenIds s h
      intro s' cid h'
      apply storeOK_updateNode _ _ h'
      intro n _ hn
      exact ⟨hn.wp0, hn.wp1, hn.sc0, hn.sc1, hn.sh0, hn.sh1, hn.st0, hn.st1,
        hn.rad0, hn.rad1, hn.ss0⟩
    have h2 : StoreOK ((node.childrenIds.foldl
        (fun acc cid => acc.updateNode cid (extendChildUpdate s.nextId dir))
          s).updateNode id (extendSetChildren s.nextId)) := by
      apply storeOK_updateNode _ _ h1
      intro n _ hn
      exact ⟨hn.wp0, hn.wp1, hn.sc0, hn.sc1, hn.sh0, hn.sh1, hn.st0, hn.st1,
        hn.rad0, hn.rad1, hn.ss0⟩
    refine fun n hn => nodesOK_append h2 ?_ n hn
    intro n hn
    rw [List.mem_singleton] at hn
    subst hn
    exact ⟨mul_nonneg hnode.wp0 (by norm_num),
      (by nlinarith [hnode.wp1, hnode.wp0] : node.waterPressure * (98/100) ≤ 1),
      mul_nonneg hnode.sc0 (by norm_num),
      (by nlinarith [hnode.sc1, hnode.sc0] : node.sugarConcentration * (98/100) ≤ 1),
      (by norm_num : (0:ℚ) ≤ 1), le_refl 1, le_refl 0, (by norm_num : (0:ℚ) ≤ 1),
      mul_pos hnode.rad0 (by norm_num),
      (by nlinarith [hnode.rad1, hnode.rad0.le] : node.radius * (95/100) ≤ 1),
      le_refl 0⟩

theorem foldl_removeRec_subset (fuel : Nat)
    (ih : ∀ nodes id, ∀ n ∈ removeRec fuel nodes id, n ∈ nodes) :
    ∀ (l : List Nat) (nodes : List PlantNode),
      ∀ n ∈ l.foldl (fun acc c => removeRec fuel acc c) nodes, n ∈ nodes := by
  intro l
  induction l with
  | nil => intro nodes n hn; simpa using hn
  | cons c l ihl =>
    intro nodes n hn
    rw [List.foldl_cons] at hn
    exact ih nodes c n (ihl (removeRec fuel nodes c) n hn)

theorem removeRec_subset : ∀ (fuel : Nat) (nodes : List PlantNode) (id : Nat),
    ∀ n ∈ removeRec fuel nodes id, n ∈ nodes := by
  intro fuel
  induction fuel with
  | zero =>
    intro nodes id n hn
    simpa [removeRec] using hn
  | succ fuel ih =>
    intro nodes id n hn
    unfold removeRec at hn
    cases hf : nodes.find? (fun m => m.id == id) with
    | none => rw [hf] at hn; exact hn
    | some m =>
      rw [hf] at hn
      dsimp only at hn
      have hn2 := List.mem_of_mem_filter hn
      exact foldl_removeRec_subset fuel ih m.childrenIds nodes n hn2

theorem storeOK_removeNode (s : Store) (id : Nat) (h : StoreOK s) :
    StoreOK (removeNode s id).1 := by
  unfold removeNode
  cases hf : s.find? id with
  | none => exact h
  | some node =>
    dsimp only
    by_cases hseed : (node.type == NodeType.SEED) = true
    · rw [if_pos hseed]; exact h
    rw [if_neg hseed]
    cases hpar : node.parentId with
    | none =>
      dsimp only
      intro n hn
      exact h n (removeRec_subset _ _ _ n hn)
    | some pid =>
      dsimp only
      have h1 : StoreOK (s.updateNode pid (fun p =>
          { p with childrenIds := p.childrenIds.filter (fun i => i != id) })) := by
        apply storeOK_updateNode _ _ h
        intro n _ hn
        exact ⟨hn.wp0, hn.wp1, hn.sc0, hn.sc1, hn.sh0, hn.sh1, hn.st0, hn.st1,
          hn.rad0, hn.rad1, hn.ss0⟩
      intro n hn
      exact h1 n (removeRec_subset _ _ _ n hn)

theorem storeOK_initial : StoreOK initialStore := by
  intro n hn
  simp only [initialStore, List.mem_singleton] at hn
  subst hn
  exact ⟨by norm_num, by norm_num, by norm_num, by norm_num, by norm_num, by norm_num,
    by norm_num, by norm_num, by norm_num [SEED_RADIUS], by norm_num [SEED_RADIUS],
    by norm_num [INITIAL_SUGAR]⟩

theorem storeOK_simStep {s s' : Store} (hs : SimStep s s') (h : StoreOK s) :
    StoreOK s' := by
  cases hs with
  | add pid t pos => exact storeOK_addNode s pid t pos h
  | remove id => exact storeOK_removeNode s id h
  | extend id dir => exact storeOK_extendNode s id dir h
  | tick c hc htk => exact storeOK_tickSim s c h

theorem reachable_storeOK (s : Store) (h : Reachable s) : StoreOK s := by
  induction h with
  | refl => exact storeOK_initial
  | tail _ hstep ih => exact storeOK_simStep hstep ih

/-- Claim C1: in every reachable state of the simulation (the initial seed
state followed by any sequence of structural mutation calls and ticks), every
segment satisfies 0 ≤ waterPressure ≤ 1, 0 ≤ sugarConcentration ≤ 1,
0 ≤ structuralHealth ≤ 1, 0 ≤ stressLevel ≤ 1, and radius > 0. -/
theorem claim_C1_field_ranges (s : Store) (h : Reachable s) :
    ∀ n ∈ s.nodes,
      (0 ≤ n.waterPressure ∧ n.waterPressure ≤ 1) ∧
      (0 ≤ n.sugarConcentration ∧ n.sugarConcentration ≤ 1) ∧
      (0 ≤ n.structuralHealth ∧ n.structuralHealth ≤ 1) ∧
      (0 ≤ n.stressLevel ∧ n.stressLevel ≤ 1) ∧
      0 < n.radius := by
  intro n hn
  have hOK := reachable_storeOK s h n hn
  exact ⟨⟨hOK.wp0, hOK.wp1⟩, ⟨hOK.sc0, hOK.sc1⟩, ⟨hOK.sh0, hOK.sh1⟩,
    ⟨hOK.st0, hOK.st1⟩, hOK.rad0⟩

theorem claim_C1_field_ranges_witness :
    (tickSim (addNode initialStore 1 NodeType.TRUNK
        { x := 0, y := -(1/4) }).1
        { sunIntensity := 1/2, temperature := 20, soilWater := 9/10,
          tick := 0 }).nodes.Forall (fun n =>
      (0 ≤ n.waterPressure ∧ n.waterPressure ≤ 1) ∧
      (0 ≤ n.sugarConcentration ∧ n.sugarConcentration ≤ 1) ∧
      (0 ≤ n.structuralHealth ∧ n.structuralHealth ≤ 1) ∧
      (0 ≤ n.stressLevel ∧ n.stressLevel ≤ 1) ∧
      0 < n.radius) :=
  List.forall_iff_forall_mem.mpr
    (claim_C1_field_ranges _
      (Relation.ReflTransGen.tail
        (Relation.ReflTransGen.tail Relation.ReflTransGen.refl
          (SimStep.add initialStore 1 NodeType.TRUNK { x := 0, y := -(1/4) }))
        (SimStep.tick _ _ ⟨by norm_num, by norm_num, by norm_num, by norm_num,
          by norm_num, by norm_num⟩ rfl)))

/-! Identity bookkeeping: every simulation pass leaves the id column and the
id counter unchanged, and the structural mutations keep ids unique and below
the counter. -/

def SameIds (s s' : Store) : Prop :=
  s'.nodes.map (fun n => n.id) = s.nodes.map (fun n => n.id) ∧ s'.nextId = s.nextId

theorem sameIds_refl (s : Store) : SameIds s s := ⟨rfl, rfl⟩

theorem sameIds_trans {s1 s2 s3 : Store} (h1 : SameIds s1 s2) (h2 : SameIds s2 s3) :
    SameIds s1 s3 := ⟨h2.1.trans h1.1, h2.2.trans h1.2⟩

theorem sameIds_updateNode (s : Store) (i : Nat) (f : PlantNode → PlantNode)
    (hf : ∀ n, (f n).id = n.id) : SameIds s (s.updateNode i f) := by
  refine ⟨?_, rfl⟩
  simp only [Store.updateNode, List.map_map]
  apply List.map_congr_left
  intro n _
  by_cases hid : (n.id == i) = true
  · simp [Function.comp, hid, hf]
  · simp [Function.comp, hid]

theorem sameIds_modifyWater (s : Store) (d : ℚ) : SameIds s (s.modifyWater d) :=
  ⟨rfl, rfl⟩

theorem sameIds_modifySugar (s : Store) (d : ℚ) : SameIds s (s.modifySugar d) :=
  ⟨rfl, rfl⟩

theorem sameIds_foldl {α : Type} {step : Store → α → Store}
    (hstep : ∀ s a, SameIds s (step s a)) :
    ∀ (ids : List α) (s : Store), SameIds s (ids.foldl step s) := by
  intro ids
  induction ids with
  | nil => intro s; exact sameIds_refl s
  | cons i ids ih =>
    intro s
    rw [List.foldl_cons]
    exact sameIds_trans (hstep s i) (ih (step s i))

theorem sameIds_transpStep (c : Climate) (s : Store) (id : Nat) :
    SameIds s (transpStep c s id) := by
  unfold transpStep
  dsimp only
  split
  · exact sameIds_refl s
  · split
    · exact sameIds_refl s
    split
    · split
      · split
        · refine sameIds_updateNode _ _ _ ?_ <;> exact fun n => rfl
        · exact sameIds_refl s
      · exact sameIds_refl s
    · exact sameIds_refl s

theorem sameIds_uptakeStep (c : Climate) (s : Store) (id : Nat) :
    SameIds s (uptakeStep c s id) := by
  unfold uptakeStep
  dsimp only
  split
  · exact sameIds_refl s
  · split
    · exact sameIds_refl s
    split
    · split
      · refine sameIds_trans (sameIds_updateNode _ _ _ ?_) (sameIds_modifyWater _ _) <;>
          exact fun n => rfl
      · exact sameIds_refl s
    · exact sameIds_refl s

theorem sameIds_xylemStep (s : Store) (id : Nat) : SameIds s (xylemStep s id) := by
  unfold xylemStep
  dsimp only
  split
  · exact sameIds_refl s
  · split
    · exact sameIds_refl s
    split
    · exact sameIds_refl s
    · split
      · exact sameIds_refl s
      · split
        · exact sameIds_refl s
        split
        · refine sameIds_trans (sameIds_updateNode _ _ _ ?_)
            (sameIds_updateNode _ _ _ ?_) <;> exact fun n => rfl
        · exact sameIds_refl s

theorem sameIds_phloemEdge (s : Store) (pid cid : Nat) :
    SameIds s (phloemEdge s pid cid) := by
  unfold phloemEdge
  dsimp only
  split
  · exact sameIds_refl s
  · split
    · exact sameIds_refl s
    · split
      · exact sameIds_refl s
      split
      · split
        · refine sameIds_trans (sameIds_updateNode _ _ _ ?_)
            (sameIds_updateNode _ _ _ ?_) <;> exact fun n => rfl
        · refine sameIds_trans (sameIds_updateNode _ _ _ ?_)
            (sameIds_updateNode _ _ _ ?_) <;> exact fun n => rfl
      · exact sameIds_refl s

theorem sameIds_phloemStep (s : Store) (id : Nat) : SameIds s (phloemStep s id) := by
  unfold phloemStep
  split
  · exact sameIds_refl s
  · split
    · exact sameIds_refl s
    · exact sameIds_foldl (fun s' cid => sameIds_phloemEdge s' id cid) _ s

theorem sameIds_photoStep (c : Climate) (s : Store) (id : Nat) :
    SameIds s (photoStep c s id) := by
  unfold photoStep
  dsimp only
  split
  · exact sameIds_refl s
  · split
    · exact sameIds_refl s
    split
    · exact sameIds_refl s
    split
    · exact sameIds_refl s
    split
    · refine sameIds_trans (sameIds_updateNode _ _ _ ?_) (sameIds_modifySugar _ _) <;>
          exact fun n => rfl
    · exact sameIds_refl s

theorem sameIds_respStep (s : Store) (id : Nat) : SameIds s (respStep s id) := by
  unfold respStep
  dsimp only
  split
  · exact sameIds_refl s
  · split
    · exact sameIds_refl s
    split
    · refine sameIds_updateNode _ _ _ ?_ <;> exact fun n => rfl
    · refine sameIds_trans (sameIds_updateNode _ _ _ ?_)
            (sameIds_updateNode _ _ _ ?_) <;> exact fun n => rfl

theorem sameIds_stressStep (s : Store) (id : Nat) : SameIds s (stressStep s id) := by
  unfold stressStep
  dsimp only
  split
  · exact sameIds_refl s
  · split
    · exact sameIds_refl s
    split
    · refine sameIds_updateNode _ _ _ ?_ <;> exact fun n => rfl
    · refine sameIds_updateNode _ _ _ ?_ <;> exact fun n => rfl

theorem sameIds_processTranspiration (s : Store) : SameIds s (processTranspiration s) :=
  sameIds_foldl (sameIds_transpStep s.climate) (nodeIds s) s

theorem sameIds_processRootUptake (s : Store) : SameIds s (processRootUptake s) :=
  sameIds_foldl (sameIds_uptakeStep s.climate) _ s

theorem sameIds_processXylemFlow (s : Store) : SameIds s (processXylemFlow s) :=
  sameIds_foldl sameIds_xylemStep (nodeIds s) s

theorem sameIds_processPhloemFlow (s : Store) : SameIds s (processPhloemFlow s) :=
  sameIds_foldl sameIds_phloemStep (nodeIds s) s

theorem sameIds_processPhotosynthesis (s : Store) :
    SameIds s (processPhotosynthesis s) :=
  sameIds_foldl (sameIds_photoStep s.climate) (nodeIds s) s

theorem sameIds_processRespiration (s : Store) : SameIds s (processRespiration s) :=
  sameIds_foldl sameIds_respStep (nodeIds s) s

theorem sameIds_processStressAndHealth (s : Store) :
    SameIds s (processStressAndHealth s) :=
  sameIds_foldl sameIds_stressStep (nodeIds s) s

set_option maxHeartbeats 2000000 in
theorem sameIds_tickSim (s : Store) (c : Climate) : SameIds s (tickSim s c) := by
  unfold tickSim updateMetabolism updateHydraulics incrementTick
  refine sameIds_trans (⟨rfl, rfl⟩ : SameIds s { s with climate := c }) ?_
  refine sameIds_trans (sameIds_processTranspiration _) ?_
  refine sameIds_trans (sameIds_processRootUptake _) ?_
  refine sameIds_trans (sameIds_processXylemFlow _) ?_
  refine sameIds_trans (sameIds_processPhloemFlow _) ?_
  refine sameIds_trans (sameIds_processPhotosynthesis _) ?_
  refine sameIds_trans (sameIds_processRespiration _) ?_
  refine sameIds_trans (sameIds_processStressAndHealth _) ?_
  exact ⟨rfl, rfl⟩

def IdsOK (s : Store) : Prop :=
  (s.nodes.map (fun n => n.id)).Nodup ∧ ∀ n ∈ s.nodes, n.id < s.nextId

theorem idsOK_of_sameIds {s s' : Store} (hsame : SameIds s s') (h : IdsOK s) :
    IdsOK s' := by
  obtain ⟨hnd, hlt⟩ := h
  refine ⟨hsame.1 ▸ hnd, ?_⟩
  intro n hn
  have hmem : n.id ∈ s'.nodes.map (fun n => n.id) := List.mem_map_of_mem _ hn
  rw [hsame.1] at hmem
  obtain ⟨m, hm, hmn⟩ := List.mem_map.mp hmem
  rw [hsame.2, ← hmn]
  exact hlt m hm

theorem map_id_map_ite (l : List PlantNode) (i : Nat) (f : PlantNode → PlantNode)
    (hf : ∀ n, (f n).id = n.id) :
    (l.map (fun n => if n.id == i then f n else n)).map (fun n => n.id) =
      l.map (fun n => n.id) := by
  rw [List.map_map]
  apply List.map_congr_left
  intro n _
  by_cases hid : (n.id == i) = true
  · simp [Function.comp, hid, hf]
  · simp [Function.comp, hid]

theorem nodup_ids_append_fresh {s : Store} (hnd : (s.nodes.map (fun n => n.id)).Nodup)
    (hbound : ∀ n ∈ s.nodes, n.id < s.nextId) :
    (s.nodes.map (fun n => n.id) ++ [s.nextId]).Nodup := by
  refine List.Nodup.append hnd (List.nodup_singleton _) ?_
  intro a ha hb
  rw [List.mem_singleton] at hb
  subst hb
  obtain ⟨m, hm, hmn⟩ := List.mem_map.mp ha
  exact absurd (hmn ▸ hbound m hm) (lt_irrefl _)

theorem idsOK_addNode (s : Store) (pid : Nat) (t : NodeType) (pos : Vec2)
    (h : IdsOK s) : IdsOK (addNode s pid t pos).1 := by
  unfold addNode
  cases hf : s.find? pid with
  | none => exact h
  | some parent =>
    dsimp only
    by_cases hlt : s.resources.sugar < getNodeCost t
    · rw [if_pos hlt]; exact h
    rw [if_neg hlt]
    obtain ⟨hnd, hbound⟩ := h
    constructor
    · show ((((s.nodes ++ [_])).map _).map _).Nodup
      rw [map_id_map_ite _ _
        (fun p => { p with childrenIds := p.childrenIds ++ [s.nextId] })
        (fun n => rfl), List.map_append]
      exact nodup_ids_append_fresh hnd hbound
    · intro n hn
      show n.id < s.nextId + 1
      obtain ⟨m, hm, hmn⟩ := List.mem_map.mp hn
      have hid : n.id = m.id := by
        by_cases hmi : (m.id == pid) = true
        · rw [if_pos hmi] at hmn; rw [← hmn]
        · rw [if_neg hmi] at hmn; rw [← hmn]
      rcases List.mem_append.mp hm with hmem | hmem
      · exact hid ▸ Nat.lt_succ_of_lt (hbound m hmem)
      · rw [List.mem_singleton] at hmem
        subst hmem
        rw [hid]
        exact Nat.lt_succ_self _

theorem idsOK_extendNode (s : Store) (id : Nat) (dir : Vec2) (h : IdsOK s) :
    IdsOK (extendNode s id dir).1 := by
  unfold extendNode
  cases hf : s.find? id with
  | none => exact h
  | some node =>
    dsimp only
    by_cases hty : node.type ≠ NodeType.TRUNK ∧ node.type ≠ NodeType.BRANCH ∧
        node.type ≠ NodeType.ROOT
    · rw [if_pos hty]; exact h
    rw [if_neg hty]
    by_cases hlt : s.resources.sugar < getNodeCost node.type
    · rw [if_pos hlt]; exact h
    rw [if_neg hlt]
    have hs2 : SameIds s ((node.childrenIds.foldl
        (fun acc cid => acc.updateNode cid (extendChildUpdate s.nextId dir))
          s).updateNode id (extendSetChildren s.nextId)) := by
      refine sameIds_trans (@sameIds_foldl Nat
        (fun acc cid => acc.updateNode cid (extendChildUpdate s.nextId dir)) ?_
        node.childrenIds s)
        (sameIds_updateNode _ _ (extendSetChildren s.nextId) (fun n => rfl))
      intro s' cid
      exact sameIds_updateNode _ _ (extendChildUpdate s.nextId dir) (fun n => rfl)
    obtain ⟨hnd, hbound⟩ := h
    constructor
    · show ((_ ++ [_]).map _).Nodup
      rw [List.map_append, hs2.1]
      exact nodup_ids_append_fresh hnd hbound
    · intro n hn
      show n.id < s.nextId + 1
      rcases List.mem_append.mp hn with hmem | hmem
      · have : n.id ∈ s.nodes.map (fun n => n.id) := by
          rw [← hs2.1]
          exact List.mem_map_of_mem _ hmem
        obtain ⟨m, hm, hmn⟩ := List.mem_map.mp this
        exact hmn ▸ Nat.lt_succ_of_lt (hbound m hm)
      · rw [List.mem_singleton] at hmem
        subst hmem
        exact Nat.lt_succ_self _

theorem foldl_removeRec_sublist (fuel : Nat)
    (ih : ∀ nodes id, (removeRec fuel nodes id).Sublist nodes) :
    ∀ (l : List Nat) (nodes : List PlantNode),
      (l.foldl (fun acc c => removeRec fuel acc c) nodes).Sublist nodes := by
  intro l
  induction l with
  | nil => intro nodes; simp
  | cons c l ihl =>
    intro nodes
    rw [List.foldl_cons]
    exact (ihl (removeRec fuel nodes c)).trans (ih nodes c)

theorem removeRec_sublist : ∀ (fuel : Nat) (nodes : List PlantNode) (id : Nat),
    (removeRec fuel nodes id).Sublist nodes := by
  intro fuel
  induction fuel with
  | zero => intro nodes id; simp [removeRec]
  | succ fuel ih =>
    intro nodes id
    unfold removeRec
    cases hf : nodes.find? (fun m => m.id == id) with
    | none => exact List.Sublist.refl nodes
    | some m =>
      dsimp only
      exact (List.filter_sublist _).trans
        (foldl_removeRec_sublist fuel ih m.childrenIds nodes)

theorem idsOK_removeNode (s : Store) (id : Nat) (h : IdsOK s) :
    IdsOK (removeNode s id).1 := by
  unfold removeNode
  cases hf : s.find? id with
  | none => exact h
  | some node =>
    dsimp only
    by_cases hseed : (node.type == NodeType.SEED) = true
    · rw [if_pos hseed]; exact h
    rw [if_neg hseed]
    cases hpar : node.parentId with
    | none =>
      dsimp only
      obtain ⟨hnd, hbound⟩ := h
      have hsub := removeRec_sublist s.nodes.length s.nodes id
      exact ⟨(hsub.map (fun n => n.id)).nodup hnd,
        fun n hn => hbound n (hsub.subset hn)⟩
    | some pid =>
      dsimp only
      have hs1 : SameIds s (s.updateNode pid (fun p =>
          { p with childrenIds := p.childrenIds.filter (fun i => i != id) })) := by
        refine sameIds_updateNode _ _ _ ?_
        exact fun n => rfl
      have h1 : IdsOK (s.updateNode pid (fun p =>
          { p with childrenIds := p.childrenIds.filter (fun i => i != id) })) :=
        idsOK_of_sameIds hs1 h
      obtain ⟨hnd, hbound⟩ := h1
      have hsub := removeRec_sublist (s.updateNode pid (fun p =>
          { p with childrenIds := p.childrenIds.filter (fun i => i != id) })).nodes.length
        (s.updateNode pid (fun p =>
          { p with childrenIds := p.childrenIds.filter (fun i => i != id) })).nodes id
      exact ⟨(hsub.map (fun n => n.id)).nodup hnd,
        fun n hn => hbound n (hsub.subset hn)⟩

theorem idsOK_tickSim (s : Store) (c : Climate) (h : IdsOK s) :
    IdsOK (tickSim s c) :=
  idsOK_of_sameIds (sameIds_tickSim s c) h

theorem idsOK_initial : IdsOK initialStore := by
  constructor
  · simp [initialStore]
  · intro n hn
    simp only [initialStore, List.mem_singleton] at hn
    subst hn
    norm_num [initialStore]

theorem idsOK_simStep {s s' : Store} (hs : SimStep s s') (h : IdsOK s) : IdsOK s' := by
  cases hs with
  | add pid t pos => exact idsOK_addNode s pid t pos h
  | remove id => exact idsOK_removeNode s id h
  | extend id dir => exact idsOK_extendNode s id dir h
  | tick c hc htk => exact idsOK_tickSim s c h

theorem reachable_idsOK (s : Store) (h : Reachable s) : IdsOK s := by
  induction h with
  | refl => exact idsOK_initial
  | tail _ hstep ih => exact idsOK_simStep hstep ih

/-! The terminal-state invariant of claim C6: an inactive segment always has
structural health 0 and stress 1, and nothing ever changes these fields or
reactivates it. -/

def DeadFields (n : PlantNode) : Prop :=
  n.isActive = false → n.structuralHealth = 0 ∧ n.stressLevel = 1

def DeadOK (s : Store) : Prop := ∀ n ∈ s.nodes, DeadFields n

theorem invariant_foldl {α : Type} {P : Store → Prop} {step : Store → α → Store}
    (hstep : ∀ s a, P s → P (step s a)) :
    ∀ (ids : List α) (s : Store), P s → P (ids.foldl step s) := by
  intro ids
  induction ids with
  | nil => intro s h; simpa using h
  | cons i ids ih =>
    intro s h
    rw [List.foldl_cons]
    exact ih _ (hstep s i h)

theorem deadOK_updateNode_pres (s : Store) (i : Nat) (f : PlantNode → PlantNode)
    (hf : ∀ n, DeadFields n → DeadFields (f n)) (h : DeadOK s) :
    DeadOK (s.updateNode i f) := by
  intro n hn
  simp only [Store.updateNode, List.mem_map] at hn
  obtain ⟨m, hm, hmn⟩ := hn
  by_cases hid : (m.id == i) = true
  · rw [if_pos hid] at hmn; exact hmn ▸ hf m (h m hm)
  · rw [if_neg hid] at hmn; exact hmn ▸ h m hm

theorem eq_of_find?_nodup {s : Store} {i : Nat} {node m : PlantNode}
    (hnd : (s.nodes.map (fun n => n.id)).Nodup)
    (hfind : s.find? i = some node) (hm : m ∈ s.nodes) (hid : (m.id == i) = true) :
    m = node := by
  have hnode := mem_of_find? hfind
  have hfind2 : s.nodes.find? (fun n => n.id == i) = some node := hfind
  have hnid := List.find?_some hfind2
  have h1 : m.id = i := by simpa using hid
  have h2 : node.id = i := by simpa using hnid
  exact List.inj_on_of_nodup_map hnd hm hnode (by rw [h1, h2])

theorem deadOK_updateNode_of_active (s : Store) (i : Nat) (f : PlantNode → PlantNode)
    {node : PlantNode}
    (hnd : (s.nodes.map (fun n => n.id)).Nodup)
    (hfind : s.find? i = some node) (hact : ¬ node.isActive = false)
    (hfa : ∀ n, (f n).isActive = n.isActive)
    (h : DeadOK s) : DeadOK (s.updateNode i f) := by
  intro n hn
  simp only [Store.updateNode, List.mem_map] at hn
  obtain ⟨m, hm, hmn⟩ := hn
  by_cases hid : (m.id == i) = true
  · rw [if_pos hid] at hmn
    subst hmn
    intro hna
    rw [hfa m] at hna
    rw [eq_of_find?_nodup hnd hfind hm hid] at hna
    exact absurd hna hact
  · rw [if_neg hid] at hmn
    exact hmn ▸ h m hm

theorem deadOK_transpStep (c : Climate) (s : Store) (id : Nat) (h : DeadOK s) :
    DeadOK (transpStep c s id) := by
  unfold transpStep
  dsimp only
  split
  · exact h
  · split
    · exact h
    split
    · split
      · split
        · exact deadOK_updateNode_pres _ _ _ (fun n hd => hd) h
        · exact h
      · exact h
    · exact h

theorem deadOK_uptakeStep (c : Climate) (s : Store) (id : Nat) (h : DeadOK s) :
    DeadOK (uptakeStep c s id) := by
  unfold uptakeStep
  dsimp only
  split
  · exact h
  · split
    · exact h
    split
    · split
      · exact deadOK_updateNode_pres _ _ _ (fun n hd => hd) h
      · exact h
    · exact h

theorem deadOK_xylemStep (s : Store) (id : Nat) (h : DeadOK s) :
    DeadOK (xylemStep s id) := by
  unfold xylemStep
  dsimp only
  split
  · exact h
  · split
    · exact h
    split
    · exact h
    · split
      · exact h
      · split
        · exact h
        split
        · exact deadOK_updateNode_pres _ _ _ (fun n hd => hd)
            (deadOK_updateNode_pres _ _ _ (fun n hd => hd) h)
        · exact h

theorem deadOK_phloemEdge (s : Store) (pid cid : Nat) (h : DeadOK s) :
    DeadOK (phloemEdge s pid cid) := by
  unfold phloemEdge
  dsimp only
  split
  · exact h
  · split
    · exact h
    · split
      · exact h
      split
      · split
        · exact deadOK_updateNode_pres _ _ _ (fun n hd => hd)
            (deadOK_updateNode_pres _ _ _ (fun n hd => hd) h)
        · exact deadOK_updateNode_pres _ _ _ (fun n hd => hd)
            (deadOK_updateNode_pres _ _ _ (fun n hd => hd) h)
      · exact h

theorem deadOK_phloemStep (s : Store) (id : Nat) (h : DeadOK s) :
    DeadOK (phloemStep s id) := by
  unfold phloemStep
  split
  · exact h
  · split
    · exact h
    · exact invariant_foldl (fun s' cid h' => deadOK_phloemEdge s' id cid h')
        _ s h

theorem deadOK_photoStep (c : Climate) (s : Store) (id : Nat) (h : DeadOK s) :
    DeadOK (photoStep c s id) := by
  unfold photoStep
  dsimp only
  split
  · exact h
  · split
    · exact h
    split
    · exact h
    split
    · exact h
    split
    · exact deadOK_updateNode_pres _ _ _ (fun n hd => hd) h
    · exact h

theorem deadOK_respStep (s : Store) (id : Nat)
    (hnd : (s.nodes.map (fun n => n.id)).Nodup) (h : DeadOK s) :
    DeadOK (respStep s id) := by
  unfold respStep
  dsimp only
  cases hfind : s.find? id with
  | none => exact h
  | some node =>
    dsimp only
    by_cases ha : node.isActive = false
    · rw [if_pos ha]; exact h
    rw [if_neg ha]
    by_cases hfed : node.sugarStore ≥ NODE_RESPIRATION_COST * (1 + node.radius * 5)
    · rw [if_pos hfed]
      exact deadOK_updateNode_pres _ _ _ (fun n hd => hd) h
    · rw [if_neg hfed]
      have h1 := deadOK_updateNode_pres s id (fun n =>
          { n with
            sugarStore := 0
            sugarConcentration := max 0 (node.sugarConcentration - 1/100) })
        (fun n hd => hd) h
      have hnd1 : ((s.updateNode id (fun n =>
          { n with
            sugarStore := 0
            sugarConcentration := max 0 (node.sugarConcentration - 1/100) })).nodes.map
            (fun n => n.id)).Nodup := by
        rw [(sameIds_updateNode s id (fun n =>
          { n with
            sugarStore := 0
            sugarConcentration := max 0 (node.sugarConcentration - 1/100) })
          (fun n => rfl)).1]
        exact hnd
      have hfind1 : (s.updateNode id (fun n =>
          { n with
            sugarStore := 0
            sugarConcentration := max 0 (node.sugarConcentration - 1/100) })).find? id =
          some { node with
            sugarStore := 0
            sugarConcentration := max 0 (node.sugarConcentration - 1/100) } := by
        rw [find?_updateNode_self s id (fun n =>
          { n with
            sugarStore := 0
            sugarConcentration := max 0 (node.sugarConcentration - 1/100) })
          (fun n => rfl), hfind]
        rfl
      exact deadOK_updateNode_of_active _ _ _ hnd1 hfind1
        (by simpa using ha) (fun n => rfl) h1

theorem deadOK_stressStep (s : Store) (id : Nat)
    (hnd : (s.nodes.map (fun n => n.id)).Nodup) (h : DeadOK s) :
    DeadOK (stressStep s id) := by
  unfold stressStep
  dsimp only
  cases hfind : s.find? id with
  | none => exact h
  | some node =>
    dsimp only
    by_cases ha : node.isActive = false
    · rw [if_pos ha]; exact h
    rw [if_neg ha]
    by_cases hdeath : max 0 (min 1 (node.stressLevel + stressDelta node)) ≥
        STRESS_DEATH_THRESHOLD
    · rw [if_pos hdeath]
      exact deadOK_updateNode_pres _ _ _ (fun n _ _ => ⟨rfl, rfl⟩) h
    · rw [if_neg hdeath]
      exact deadOK_updateNode_of_active _ _ _ hnd hfind ha (fun n => rfl) h

theorem deadOK_foldl {α : Type} {step : Store → α → Store}
    (hsame : ∀ s a, SameIds s (step s a))
    (hstep : ∀ s a, (s.nodes.map (fun n => n.id)).Nodup → DeadOK s → DeadOK (step s a)) :
    ∀ (ids : List α) (s : Store), (s.nodes.map (fun n => n.id)).Nodup → DeadOK s →
      DeadOK (ids.foldl step s) := by
  intro ids
  induction ids with
  | nil => intro s _ h; simpa using h
  | cons i ids ih =>
    intro s hnd h
    rw [List.foldl_cons]
    exact ih (step s i) ((hsame s i).1 ▸ hnd) (hstep s i hnd h)

set_option maxHeartbeats 2000000 in
theorem deadOK_tickSim (s : Store) (c : Climate)
    (hnd : (s.nodes.map (fun n => n.id)).Nodup) (h : DeadOK s) :
    DeadOK (tickSim s c) := by
  unfold tickSim updateMetabolism incrementTick
  have h0 : DeadOK { s with climate := c } := fun n hn => h n hn
  have hnd0 : (({ s with climate := c } : Store).nodes.map (fun n => n.id)).Nodup := hnd
  have h1 : DeadOK (processTranspiration { s with climate := c }) :=
    invariant_foldl (fun s' a h' => deadOK_transpStep _ s' a h') _ _ h0
  have h2 : DeadOK (processRootUptake (processTranspiration { s with climate := c })) :=
    invariant_foldl (fun s' a h' => deadOK_uptakeStep _ s' a h') _ _ h1
  have h3 : DeadOK (processXylemFlow (processRootUptake (processTranspiration
      { s with climate := c }))) :=
    invariant_foldl (fun s' a h' => deadOK_xylemStep s' a h') _ _ h2
  have h4 : DeadOK (updateHydraulics { s with climate := c }) :=
    invariant_foldl (fun s' a h' => deadOK_phloemStep s' a h') _ _ h3
  have h5 : DeadOK (processPhotosynthesis (updateHydraulics { s with climate := c })) :=
    invariant_foldl (fun s' a h' => deadOK_photoStep _ s' a h') _ _ h4
  have hnd5 : ((processPhotosynthesis (updateHydraulics
      { s with climate := c })).nodes.map (fun n => n.id)).Nodup := by
    unfold updateHydraulics
    rw [(sameIds_processPhotosynthesis _).1, (sameIds_processPhloemFlow _).1,
      (sameIds_processXylemFlow _).1, (sameIds_processRootUptake _).1,
      (sameIds_processTranspiration _).1]
    exact hnd0
  have h6 : DeadOK (processRespiration (processPhotosynthesis (updateHydraulics
      { s with climate := c }))) :=
    deadOK_foldl sameIds_respStep (fun s' a hnd' h' => deadOK_respStep s' a hnd' h')
      _ _ hnd5 h5
  have hnd6 : ((processRespiration (processPhotosynthesis (updateHydraulics
      { s with climate := c }))).nodes.map (fun n => n.id)).Nodup := by
    rw [(sameIds_processRespiration _).1]
    exact hnd5
  have h7 : DeadOK (processStressAndHealth (processRespiration (processPhotosynthesis
      (updateHydraulics { s with climate := c })))) :=
    deadOK_foldl sameIds_stressStep (fun s' a hnd' h' => deadOK_stressStep s' a hnd' h')
      _ _ hnd6 h6
  exact fun n hn => h7 n hn

theorem nodesP_append {P : PlantNode → Prop} {l1 l2 : List PlantNode}
    (h1 : ∀ n ∈ l1, P n) (h2 : ∀ n ∈ l2, P n) : ∀ n ∈ l1 ++ l2, P n := by
  intro n hn
  rcases List.mem_append.mp hn with hm | hm
  · exact h1 n hm
  · exact h2 n hm

theorem nodesP_map_ite {P : PlantNode → Prop} {l : List PlantNode} {i : Nat}
    {f : PlantNode → PlantNode} (h : ∀ n ∈ l, P n) (hf : ∀ n, P n → P (f n)) :
    ∀ n ∈ l.map (fun n => if n.id == i then f n else n), P n := by
  intro n hn
  obtain ⟨m, hm, hmn⟩ := List.mem_map.mp hn
  by_cases hid : (m.id == i) = true
  · rw [if_pos hid] at hmn; exact hmn ▸ hf m (h m hm)
  · rw [if_neg hid] at hmn; exact hmn ▸ h m hm

theorem deadOK_addNode (s : Store) (pid : Nat) (t : NodeType) (pos : Vec2)
    (h : DeadOK s) : DeadOK (addNode s pid t pos).1 := by
  unfold addNode
  cases hf : s.find? pid with
  | none => exact h
  | some parent =>
    dsimp only
    by_cases hlt : s.resources.sugar < getNodeCost t
    · rw [if_pos hlt]; exact h
    rw [if_neg hlt]
    refine fun n hn => nodesP_map_ite (nodesP_append h ?_) ?_ n hn
    · intro n hn
      rw [List.mem_singleton] at hn
      subst hn
      intro hna
      exact absurd hna (show ¬ (true = false) by decide)
    · exact fun n hd => hd

theorem deadOK_extendNode (s : Store) (id : Nat) (dir : Vec2) (h : DeadOK s) :
    DeadOK (extendNode s id dir).1 := by
  unfold extendNode
  cases hf : s.find? id with
  | none => exact h
  | some node =>
    dsimp only
    by_cases hty : node.type ≠ NodeType.TRUNK ∧ node.type ≠ NodeType.BRANCH ∧
        node.type ≠ NodeType.ROOT
    · rw [if_pos hty]; exact h
    rw [if_neg hty]
    by_cases hlt : s.resources.sugar < getNodeCost node.type
    · rw [if_pos hlt]; exact h
    rw [if_neg hlt]
    have h1 : DeadOK (node.childrenIds.foldl
        (fun acc cid => acc.updateNode cid (extendChildUpdate s.nextId dir)) s) := by
      apply invariant_foldl _ node.childrenIds s h
      intro s' cid h'
      exact deadOK_updateNode_pres _ _ _ (fun n hd => hd) h'
    have h2 : DeadOK ((node.childrenIds.foldl
        (fun acc cid => acc.updateNode cid (extendChildUpdate s.nextId dir))
          s).updateNode id (extendSetChildren s.nextId)) :=
      deadOK_updateNode_pres _ _ _ (fun n hd => hd) h1
    refine fun n hn => nodesP_append h2 ?_ n hn
    intro n hn
    rw [List.mem_singleton] at hn
    subst hn
    intro hna
    exact absurd hna (show ¬ (true = false) by decide)

theorem deadOK_removeNode (s : Store) (id : Nat) (h : DeadOK s) :
    DeadOK (removeNode s id).1 := by
  unfold removeNode
  cases hf : s.find? id with
  | none => exact h
  | some node =>
    dsimp only
    by_cases hseed : (node.type == NodeType.SEED) = true
    · rw [if_pos hseed]; exact h
    rw [if_neg hseed]
    cases hpar : node.parentId with
    | none =>
      dsimp only
      intro n hn
      exact h n (removeRec_subset _ _ _ n hn)
    | some pid =>
      dsimp only
      have h1 : DeadOK (s.updateNode pid (fun p =>
          { p with childrenIds := p.childrenIds.filter (fun i => i != id) })) :=
        deadOK_updateNode_pres _ _ _ (fun n hd => hd) h
      intro n hn
      exact h1 n (removeRec_subset _ _ _ n hn)

theorem deadOK_initial : DeadOK initialStore := by
  intro n hn
  simp only [initialStore, List.mem_singleton] at hn
  subst hn
  intro hna
  exact absurd hna (show ¬ (true = false) by decide)

theorem deadOK_simStep {s s' : Store} (hids : IdsOK s) (hs : SimStep s s')
    (h : DeadOK s) : DeadOK s' := by
  cases hs with
  | add pid t pos => exact deadOK_addNode s pid t pos h
  | remove id => exact deadOK_removeNode s id h
  | extend id dir => exact deadOK_extendNode s id dir h
  | tick c hc htk => exact deadOK_tickSim s c hids.1 h

theorem reachable_deadOK (s : Store) (h : Reachable s) : DeadOK s := by
  induction h with
  | refl => exact deadOK_initial
  | tail hab hstep ih => exact deadOK_simStep (reachable_idsOK _ hab) hstep ih

/-! A dead segment's table entry is passed through every tick completely
unchanged: each pass either targets a different id or is stopped by its
activity guard. -/

theorem find?_updateNode_frozen {s : Store} {i j : Nat} {f : PlantNode → PlantNode}
    {r : Option PlantNode} (hij : i ≠ j) (h : s.find? j = r)
    (hf : ∀ n, (f n).id = n.id) : (s.updateNode i f).find? j = r := by
  rw [find?_updateNode_other s i j f hf hij]
  exact h

theorem frozen_transpStep (c : Climate) (s : Store) (t x : Nat) {n : PlantNode}
    (hfind : s.find? x = some n) (hdead : n.isActive = false) :
    (transpStep c s t).find? x = some n := by
  by_cases ht : t = x
  · subst ht
    unfold transpStep
    rw [hfind]
    dsimp only
    rw [if_pos hdead]
    exact hfind
  · unfold transpStep
    dsimp only
    split
    · exact hfind
    · split
      · exact hfind
      split
      · split
        · split
          · refine find?_updateNode_frozen ht hfind ?_
            exact fun m => rfl
          · exact hfind
        · exact hfind
      · exact hfind

theorem frozen_uptakeStep (c : Climate) (s : Store) (t x : Nat) {n : PlantNode}
    (hfind : s.find? x = some n) (hdead : n.isActive = false) :
    (uptakeStep c s t).find? x = some n := by
  by_cases ht : t = x
  · subst ht
    unfold uptakeStep
    rw [hfind]
    dsimp only
    rw [if_pos hdead]
    exact hfind
  · unfold uptakeStep
    dsimp only
    split
    · exact hfind
    · split
      · exact hfind
      split
      · split
        · show ((Store.updateNode _ _ _).modifyWater _).find? x = some n
          refine find?_updateNode_frozen ht hfind ?_
          exact fun m => rfl
        · exact hfind
      · exact hfind

theorem frozen_xylemStep (s : Store) (t x : Nat) {n : PlantNode}
    (hfind : s.find? x = some n) (hdead : n.isActive = false) :
    (xylemStep s t).find? x = some n := by
  by_cases ht : t = x
  · subst ht
    unfold xylemStep
    rw [hfind]
    dsimp only
    rw [if_pos hdead]
    exact hfind
  · unfold xylemStep
    dsimp only
    cases hft : s.find? t with
    | none => exact hfind
    | some node =>
      dsimp only
      by_cases ha : node.isActive = false
      · rw [if_pos ha]; exact hfind
      rw [if_neg ha]
      cases hpar : node.parentId with
      | none => exact hfind
      | some pid =>
        dsimp only
        cases hfp : s.find? pid with
        | none => dsimp only; exact hfind
        | some parent =>
          dsimp only
          by_cases hpa : parent.isActive = false
          · rw [if_pos hpa]; exact hfind
          rw [if_neg hpa]
          by_cases hpx : pid = x
          · subst hpx
            rw [hfind] at hfp
            injection hfp with he
            subst he
            exact absurd hdead hpa
          · split
            · refine find?_updateNode_frozen ht
                (find?_updateNode_frozen hpx hfind ?_) ?_
              · exact fun m => rfl
              · exact fun m => rfl
            · exact hfind

theorem frozen_phloemEdge (s : Store) (pid cid x : Nat) {n : PlantNode}
    (hpx : pid ≠ x) (hfind : s.find? x = some n) (hdead : n.isActive = false) :
    (phloemEdge s pid cid).find? x = some n := by
  unfold phloemEdge
  cases hfp : s.find? pid with
  | none => exact hfind
  | some node =>
    dsimp only
    cases hfc : s.find? cid with
    | none => exact hfind
    | some child =>
      dsimp only
      by_cases hcx : cid = x
      · subst hcx
        rw [hfind] at hfc
        injection hfc with he
        subst he
        rw [if_pos hdead]
        exact hfind
      · by_cases ha : child.isActive = false
        · rw [if_pos ha]; exact hfind
        rw [if_neg ha]
        split
        · split
          · refine find?_updateNode_frozen hcx
              (find?_updateNode_frozen hpx hfind ?_) ?_
            · exact fun m => rfl
            · exact fun m => rfl
          · refine find?_updateNode_frozen hpx
              (find?_updateNode_frozen hcx hfind ?_) ?_
            · exact fun m => rfl
            · exact fun m => rfl
        · exact hfind

theorem frozen_phloemStep (s : Store) (t x : Nat) {n : PlantNode}
    (hfind : s.find? x = some n) (hdead : n.isActive = false) :
    (phloemStep s t).find? x = some n := by
  by_cases ht : t = x
  · subst ht
    unfold phloemStep
    rw [hfind]
    dsimp only
    rw [if_pos hdead]
    exact hfind
  · unfold phloemStep
    cases hft : s.find? t with
    | none => exact hfind
    | some node =>
      dsimp only
      by_cases ha : node.isActive = false
      · rw [if_pos ha]; exact hfind
      rw [if_neg ha]
      have hfold : ∀ (l : List Nat) (acc : Store), acc.find? x = some n →
          (l.foldl (fun a cid => phloemEdge a t cid) acc).find? x = some n := by
        intro l
        induction l with
        | nil => intro acc hacc; simpa using hacc
        | cons cid l ih =>
          intro acc hacc
          rw [List.foldl_cons]
          exact ih _ (frozen_phloemEdge acc t cid x ht hacc hdead)
      exact hfold node.childrenIds s hfind

theorem frozen_photoStep (c : Climate) (s : Store) (t x : Nat) {n : PlantNode}
    (hfind : s.find? x = some n) (hdead : n.isActive = false) :
    (photoStep c s t).find? x = some n := by
  by_cases ht : t = x
  · subst ht
    unfold photoStep
    rw [hfind]
    dsimp only
    rw [if_pos hdead]
    exact hfind
  · unfold photoStep
    dsimp only
    split
    · exact hfind
    · split
      · exact hfind
      split
      · exact hfind
      split
      · exact hfind
      split
      · show ((Store.updateNode _ _ _).modifySugar _).find? x = some n
        refine find?_updateNode_frozen ht hfind ?_
        exact fun m => rfl
      · exact hfind

theorem frozen_respStep (s : Store) (t x : Nat) {n : PlantNode}
    (hfind : s.find? x = some n) (hdead : n.isActive = false) :
    (respStep s t).find? x = some n := by
  by_cases ht : t = x
  · subst ht
    unfold respStep
    rw [hfind]
    dsimp only
    rw [if_pos hdead]
    exact hfind
  · unfold respStep
    dsimp only
    split
    · exact hfind
    · split
      · exact hfind
      split
      · refine find?_updateNode_frozen ht hfind ?_
        exact fun m => rfl
      · refine find?_updateNode_frozen ht
          (find?_updateNode_frozen ht hfind ?_) ?_
        · exact fun m => rfl
        · exact fun m => rfl

theorem frozen_stressStep (s : Store) (t x : Nat) {n : PlantNode}
    (hfind : s.find? x = some n) (hdead : n.isActive = false) :
    (stressStep s t).find? x = some n := by
  by_cases ht : t = x
  · subst ht
    unfold stressStep
    rw [hfind]
    dsimp only
    rw [if_pos hdead]
    exact hfind
  · unfold stressStep
    dsimp only
    split
    · exact hfind
    · split
      · exact hfind
      split
      · refine find?_updateNode_frozen ht hfind ?_
        exact fun m => rfl
      · refine find?_updateNode_frozen ht hfind ?_
        exact fun m => rfl

theorem frozen_foldl {α : Type} {x : Nat} {n : PlantNode}
    {step : Store → α → Store}
    (hstep : ∀ s a, s.find? x = some n → (step s a).find? x = some n) :
    ∀ (ids : List α) (s : Store), s.find? x = some n →
      (ids.foldl step s).find? x = some n := by
  intro ids
  induction ids with
  | nil => intro s h; simpa using h
  | cons i ids ih =>
    intro s h
    rw [List.foldl_cons]
    exact ih _ (hstep s i h)

theorem find?_incrementTick (s : Store) (i : Nat) :
    (incrementTick s).find? i = s.find? i := rfl

set_option maxHeartbeats 2000000 in
theorem frozen_tickSim (s : Store) (c : Climate) (x : Nat) {n : PlantNode}
    (hfind : s.find? x = some n) (hdead : n.isActive = false) :
    (tickSim s c).find? x = some n := by
  unfold tickSim
  rw [find?_incrementTick]
  unfold updateMetabolism updateHydraulics
  unfold processStressAndHealth
  refine frozen_foldl ?_ _ _ ?_
  · exact fun s' a h' => frozen_stressStep s' a x h' hdead
  unfold processRespiration
  refine frozen_foldl ?_ _ _ ?_
  · exact fun s' a h' => frozen_respStep s' a x h' hdead
  unfold processPhotosynthesis
  refine frozen_foldl ?_ _ _ ?_
  · exact fun s' a h' => frozen_photoStep _ s' a x h' hdead
  unfold processPhloemFlow
  refine frozen_foldl ?_ _ _ ?_
  · exact fun s' a h' => frozen_phloemStep s' a x h' hdead
  unfold processXylemFlow
  refine frozen_foldl ?_ _ _ ?_
  · exact fun s' a h' => frozen_xylemStep s' a x h' hdead
  unfold processRootUptake
  refine frozen_foldl ?_ _ _ ?_
  · exact fun s' a h' => frozen_uptakeStep _ s' a x h' hdead
  unfold processTranspiration
  refine frozen_foldl ?_ _ _ ?_
  · exact fun s' a h' => frozen_transpStep _ s' a x h' hdead
  exact hfind

/-! Structural mutation calls never touch a node's isActive, structuralHealth
or stressLevel fields: addNode only grows the parent's child list, extendNode
only reparents and shifts children, removeNode only deletes entries. -/

theorem find?_updateNode_cases (s : Store) (i x : Nat) (f : PlantNode → PlantNode)
    (hfid : ∀ n, (f n).id = n.id) {n : PlantNode} (hfind : s.find? x = some n) :
    (s.updateNode i f).find? x = some n ∨ (s.updateNode i f).find? x = some (f n) := by
  by_cases hix : i = x
  · subst hix
    right
    rw [find?_updateNode_self s i f hfid, hfind]
    rfl
  · left
    rw [find?_updateNode_other s i x f hfid hix]
    exact hfind

theorem frozen_addNode (s : Store) (pid : Nat) (t : NodeType) (pos : Vec2) (x : Nat)
    {n : PlantNode} (hfind : s.find? x = some n) :
    ∃ n', (addNode s pid t pos).1.find? x = some n' ∧
      n'.isActive = n.isActive ∧ n'.structuralHealth = n.structuralHealth ∧
      n'.stressLevel = n.stressLevel := by
  unfold addNode
  cases hp : s.find? pid with
  | none => exact ⟨n, hfind, rfl, rfl, rfl⟩
  | some parent =>
    dsimp only
    by_cases hc : s.resources.sugar < getNodeCost t
    · rw [if_pos hc]
      exact ⟨n, hfind, rfl, rfl, rfl⟩
    · rw [if_neg hc]
      dsimp only
      have h1 : (({ s with
                    nextId := s.nextId + 1,
                    nodes := s.nodes ++ [{ id := s.nextId, type := t, position := pos,
                                           parentId := some pid, childrenIds := [],
                                           radius := getDefaultRadius t,
                                           structuralHealth := 1,
                                           waterPressure :=
                                             max (3/10) (parent.waterPressure * (95/100)),
                                           sugarConcentration :=
                                             max (2/10) (parent.sugarConcentration * (9/10)),
                                           sugarStore := 0, isActive := true,
                                           stressLevel := 0 }] } : Store)).find? x
          = some n := find?_append_left hfind
      rcases find?_updateNode_cases _ pid x
          (fun p => { p with childrenIds := p.childrenIds ++ [s.nextId] })
          (fun m => rfl) h1 with h | h
      · exact ⟨n, h, rfl, rfl, rfl⟩
      · exact ⟨_, h, rfl, rfl, rfl⟩

theorem frozen_extendNode (s : Store) (id : Nat) (dir : Vec2) (x : Nat)
    {n : PlantNode} (hfind : s.find? x = some n) :
    ∃ n', (extendNode s id dir).1.find? x = some n' ∧
      n'.isActive = n.isActive ∧ n'.structuralHealth = n.structuralHealth ∧
      n'.stressLevel = n.stressLevel := by
  unfold extendNode
  cases hf : s.find? id with
  | none => exact ⟨n, hfind, rfl, rfl, rfl⟩
  | some node =>
    dsimp only
    split
    · exact ⟨n, hfind, rfl, rfl, rfl⟩
    split
    · exact ⟨n, hfind, rfl, rfl, rfl⟩
    have hstep : ∀ (st : Store) (cid : Nat),
        (∃ n', st.find? x = some n' ∧ n'.isActive = n.isActive ∧
          n'.structuralHealth = n.structuralHealth ∧ n'.stressLevel = n.stressLevel) →
        (∃ n', (st.updateNode cid (extendChildUpdate s.nextId dir)).find? x = some n' ∧
          n'.isActive = n.isActive ∧ n'.structuralHealth = n.structuralHealth ∧
          n'.stressLevel = n.stressLevel) := by
      rintro st cid ⟨n', h1, h2, h3, h4⟩
      rcases find?_updateNode_cases st cid x (extendChildUpdate s.nextId dir)
          (fun m => rfl) h1 with h | h
      · exact ⟨n', h, h2, h3, h4⟩
      · exact ⟨_, h, h2, h3, h4⟩
    have hP := invariant_foldl hstep node.childrenIds s ⟨n, hfind, rfl, rfl, rfl⟩
    obtain ⟨n', h1, h2, h3, h4⟩ := hP
    rcases find?_updateNode_cases _ id x (extendSetChildren s.nextId)
        (fun m => rfl) h1 with h | h
    · exact ⟨n', find?_append_left h, h2, h3, h4⟩
    · exact ⟨_, find?_append_left h, h2, h3, h4⟩

theorem remove_find?_aux {s1 : Store} {x : Nat} (id : Nat) {n n1 : PlantNode}
    (hnd1 : (s1.nodes.map (fun m => m.id)).Nodup)
    (h1 : s1.find? x = some n1)
    (hfields : n1.isActive = n.isActive ∧ n1.structuralHealth = n.structuralHealth ∧
      n1.stressLevel = n.stressLevel) :
    ({ s1 with nodes := removeRec s1.nodes.length s1.nodes id } : Store).find? x
        = none ∨
      ∃ n', ({ s1 with nodes := removeRec s1.nodes.length s1.nodes id } : Store).find? x
          = some n' ∧
        n'.isActive = n.isActive ∧ n'.structuralHealth = n.structuralHealth ∧
        n'.stressLevel = n.stressLevel := by
  cases hres : (removeRec s1.nodes.length s1.nodes id).find? (fun m => m.id == x) with
  | none => exact Or.inl hres
  | some m =>
    right
    have hm : m ∈ removeRec s1.nodes.length s1.nodes id := List.mem_of_find?_eq_some hres
    have hmem : m ∈ s1.nodes := (removeRec_sublist _ _ _).subset hm
    have hres2 : (removeRec s1.nodes.length s1.nodes id).find?
        (fun m => m.id == x) = some m := hres
    have hid := List.find?_some hres2
    have hmn : m = n1 := eq_of_find?_nodup hnd1 h1 hmem hid
    exact ⟨m, hres, hmn ▸ hfields.1, hmn ▸ hfields.2.1, hmn ▸ hfields.2.2⟩

theorem frozen_removeNode (s : Store) (id : Nat) (x : Nat) {n : PlantNode}
    (hnd : (s.nodes.map (fun m => m.id)).Nodup) (hfind : s.find? x = some n) :
    (removeNode s id).1.find? x = none ∨
      ∃ n', (removeNode s id).1.find? x = some n' ∧
        n'.isActive = n.isActive ∧ n'.structuralHealth = n.structuralHealth ∧
        n'.stressLevel = n.stressLevel := by
  unfold removeNode
  cases hf : s.find? id with
  | none => exact Or.inr ⟨n, hfind, rfl, rfl, rfl⟩
  | some node =>
    dsimp only
    split
    · exact Or.inr ⟨n, hfind, rfl, rfl, rfl⟩
    cases hpar : node.parentId with
    | some pid =>
      dsimp only
      have hnd1 : ((Store.updateNode s pid
          (fun p => { p with
            childrenIds := p.childrenIds.filter (fun i => i != id) })).nodes.map
          (fun m => m.id)).Nodup := by
        rw [show (Store.updateNode s pid
            (fun p => { p with
              childrenIds := p.childrenIds.filter (fun i => i != id) })).nodes.map
            (fun m => m.id) = s.nodes.map (fun m => m.id) from
          map_id_map_ite s.nodes pid _ (fun m => rfl)]
        exact hnd
      rcases find?_updateNode_cases s pid x
          (fun p => { p with childrenIds := p.childrenIds.filter (fun i => i != id) })
          (fun m => rfl) hfind with h1 | h1
      · exact remove_find?_aux id hnd1 h1 ⟨rfl, rfl, rfl⟩
      · exact remove_find?_aux id hnd1 h1 ⟨rfl, rfl, rfl⟩
    | none =>
      dsimp only
      exact remove_find?_aux id hnd hfind ⟨rfl, rfl, rfl⟩

/-- The death branch of the stress-and-health step: an active node whose
clamped new stress reaches the threshold is written back with stress 1,
structural health 0 and isActive false, in that same step. -/
theorem stressStep_death (s : Store) (id : Nat) (node : PlantNode)
    (hfind : s.find? id = some node) (hact : node.isActive = true)
    (hth : max 0 (min 1 (node.stressLevel + stressDelta node)) ≥
      STRESS_DEATH_THRESHOLD) :
    (stressStep s id).find? id =
      some { node with stressLevel := 1, structuralHealth := 0,
                       isActive := false } := by
  unfold stressStep
  rw [hfind]
  dsimp only
  rw [if_neg (by simp [hact])]
  rw [if_pos hth]
  rw [find?_updateNode_self s id
    (fun n => { n with stressLevel := 1, structuralHealth := 0, isActive := false })
    (fun m => rfl), hfind]
  rfl

def wDyingNode : PlantNode :=
  { id := 2, type := NodeType.TRUNK, position := { x := 0, y := -1/4 },
    parentId := some 1, childrenIds := [], radius := 4/100,
    structuralHealth := 1/2, waterPressure := 0, sugarConcentration := 0,
    sugarStore := 0, isActive := true, stressLevel := 1 }

def wDyingStore : Store :=
  { nodes := [wDyingNode], seedId := 1, nextId := 3,
    resources := { sugar := 100, water := 30, minerals := 20 },
    climate := { sunIntensity := 1/2, temperature := 20, soilWater := 1/2, tick := 0 },
    selectedNodeId := none, isPaused := false, speedMultiplier := 1 }

/-- Claim C6: when a segment's stress reaches the death threshold during the
stress-and-health step, it is set in that same step to structural health 0,
stress 1 and inactive; in every reachable state every inactive segment has
structural health 0 and stress 1; and no mutation call or tick taken from a
reachable state reactivates a dead segment or changes these fields — the
segment's entry either disappears entirely (subtree removal) or remains
inactive with structural health 0 and stress 1. -/
theorem claim_C6_death_terminal :
    (∀ (s : Store) (id : Nat) (node : PlantNode),
        s.find? id = some node → node.isActive = true →
        max 0 (min 1 (node.stressLevel + stressDelta node)) ≥
          STRESS_DEATH_THRESHOLD →
        (stressStep s id).find? id =
          some { node with stressLevel := 1, structuralHealth := 0,
                           isActive := false }) ∧
    (∀ s : Store, Reachable s → ∀ n ∈ s.nodes, n.isActive = false →
        n.structuralHealth = 0 ∧ n.stressLevel = 1) ∧
    (∀ (s s' : Store) (x : Nat) (n : PlantNode), Reachable s → SimStep s s' →
        s.find? x = some n → n.isActive = false →
        s'.find? x = none ∨ ∃ n', s'.find? x = some n' ∧
          n'.isActive = false ∧ n'.structuralHealth = 0 ∧ n'.stressLevel = 1) := by
  refine ⟨stressStep_death, ?_, ?_⟩
  · intro s hs n hn hna
    exact reachable_deadOK s hs n hn hna
  · intro s s' x n hreach hstep hfind hdead
    have hdf := reachable_deadOK s hreach n (mem_of_find? hfind) hdead
    cases hstep with
    | add pid t pos =>
      obtain ⟨n', h1, h2, h3, h4⟩ := frozen_addNode s pid t pos x hfind
      exact Or.inr ⟨n', h1, h2.trans hdead, h3.trans hdf.1, h4.trans hdf.2⟩
    | extend id dir =>
      obtain ⟨n', h1, h2, h3, h4⟩ := frozen_extendNode s id dir x hfind
      exact Or.inr ⟨n', h1, h2.trans hdead, h3.trans hdf.1, h4.trans hdf.2⟩
    | remove id =>
      have hnd := (reachable_idsOK s hreach).1
      rcases frozen_removeNode s id x hnd hfind with h | ⟨n', h1, h2, h3, h4⟩
      · exact Or.inl h
      · exact Or.inr ⟨n', h1, h2.trans hdead, h3.trans hdf.1, h4.trans hdf.2⟩
    | tick c hok htk =>
      exact Or.inr ⟨n, frozen_tickSim s c x hfind hdead, hdead, hdf.1, hdf.2⟩

/-- Concrete instance of claim C6's death branch: a maximally stressed dry
node of the one-node store dies in the stress step of the tick it peaks. -/
theorem claim_C6_death_terminal_witness :
    (stressStep wDyingStore 2).find? 2 =
      some { wDyingNode with stressLevel := 1, structuralHealth := 0,
                             isActive := false } :=
  claim_C6_death_terminal.1 wDyingStore 2 wDyingNode rfl rfl (by
    norm_num [stressDelta, wDyingNode, DEHYDRATION_STRESS_RATE,
      HEALTH_RECOVERY_RATE, STRESS_DEATH_THRESHOLD])

/-! A two-segment plant that starves forever without dying: both segments sit
at water pressure 13/100 — below every transpiration, photosynthesis and flow
guard, but above the 1/10 partial-recovery guard of the stress step — with
empty sugar buffers and equal concentrations.  Every tick the starvation
stress gained in respiration is wiped out again by partial recovery. -/

def CXseed : PlantNode :=
  { id := 1, type := NodeType.SEED, position := { x := 0, y := 0 },
    parentId := none, childrenIds := [2], radius := 3/100,
    structuralHealth := 1, waterPressure := 13/100, sugarConcentration := 0,
    sugarStore := 0, isActive := true, stressLevel := 0 }

def CXtrunk : PlantNode :=
  { id := 2, type := NodeType.TRUNK, position := { x := 0, y := -1/4 },
    parentId := some 1, childrenIds := [], radius := 2/100,
    structuralHealth := 1, waterPressure := 13/100, sugarConcentration := 0,
    sugarStore := 0, isActive := true, stressLevel := 0 }

def CXstore (cl : Climate) : Store :=
  { nodes := [CXseed, CXtrunk], seedId := 1, nextId := 3,
    resources := { sugar := 0, water := 0, minerals := 0 },
    climate := cl, selectedNodeId := none, isPaused := false,
    speedMultiplier := 1 }

def CXclimate (k : Nat) : Climate :=
  { sunIntensity := 1/2, temperature := 20, soilWater := 1/2, tick := k }

def CXseedR : PlantNode := { CXseed with stressLevel := 23/2000000 }

def CXtrunkR : PlantNode := { CXtrunk with stressLevel := 11/1000000 }

def CXstoreR (c : Climate) : Store := { CXstore c with nodes := [CXseedR, CXtrunkR] }

theorem CX_find1 (c : Climate) : (CXstore c).find? 1 = some CXseed := rfl

theorem CX_find2 (c : Climate) : (CXstore c).find? 2 = some CXtrunk := rfl

theorem CX_transp1 (c : Climate) : transpStep c (CXstore c) 1 = CXstore c := by
  unfold transpStep
  rw [CX_find1]
  dsimp only
  rw [if_neg (by decide : ¬ (CXseed.isActive = false)),
    if_neg (by decide : ¬ (CXseed.type = NodeType.LEAF ∨ CXseed.childrenIds.length = 0))]

theorem CX_transp2 (c : Climate) : transpStep c (CXstore c) 2 = CXstore c := by
  unfold transpStep
  rw [CX_find2]
  dsimp only
  rw [if_neg (by decide : ¬ (CXtrunk.isActive = false)),
    if_pos (by decide : CXtrunk.type = NodeType.LEAF ∨ CXtrunk.childrenIds.length = 0),
    if_neg (by norm_num [CXtrunk] : ¬ (CXtrunk.waterPressure > 15/100))]

theorem CX_transpPass (c : Climate) : processTranspiration (CXstore c) = CXstore c := by
  show List.foldl (transpStep c) (CXstore c) [1, 2] = CXstore c
  rw [List.foldl_cons, CX_transp1, List.foldl_cons, CX_transp2, List.foldl_nil]

theorem CX_uptakePass (c : Climate) : processRootUptake (CXstore c) = CXstore c := by
  show List.foldl (uptakeStep c) (CXstore c) [] = CXstore c
  rw [List.foldl_nil]

theorem CX_xylem1 (c : Climate) : xylemStep (CXstore c) 1 = CXstore c := by
  unfold xylemStep
  rw [CX_find1]
  dsimp only
  rw [if_neg (by decide : ¬ (CXseed.isActive = false))]
  rfl

theorem CX_xylem2 (c : Climate) : xylemStep (CXstore c) 2 = CXstore c := by
  unfold xylemStep
  rw [CX_find2]
  dsimp only
  rw [if_neg (by decide : ¬ (CXtrunk.isActive = false))]
  rw [show CXtrunk.parentId = some 1 from rfl]
  dsimp only
  rw [CX_find1]
  dsimp only
  rw [if_neg (by decide : ¬ (CXseed.isActive = false)),
    if_neg (by norm_num [CXseed, CXtrunk, FLOW_THRESHOLD] :
      ¬ (CXseed.waterPressure - CXtrunk.waterPressure > FLOW_THRESHOLD))]

theorem CX_xylemPass (c : Climate) : processXylemFlow (CXstore c) = CXstore c := by
  show List.foldl xylemStep (CXstore c) [1, 2] = CXstore c
  rw [List.foldl_cons, CX_xylem1, List.foldl_cons, CX_xylem2, List.foldl_nil]

theorem CX_phloemEdge12 (c : Climate) : phloemEdge (CXstore c) 1 2 = CXstore c := by
  unfold phloemEdge
  rw [CX_find1]
  dsimp only
  rw [CX_find2]
  dsimp only
  rw [if_neg (by decide : ¬ (CXtrunk.isActive = false)),
    if_neg (by norm_num [CXseed, CXtrunk, FLOW_THRESHOLD] :
      ¬ (|CXseed.sugarConcentration - CXtrunk.sugarConcentration| > FLOW_THRESHOLD))]

theorem CX_phloem1 (c : Climate) : phloemStep (CXstore c) 1 = CXstore c := by
  unfold phloemStep
  rw [CX_find1]
  dsimp only
  rw [if_neg (by decide : ¬ (CXseed.isActive = false))]
  rw [show CXseed.childrenIds = [2] from rfl]
  rw [List.foldl_cons, CX_phloemEdge12, List.foldl_nil]

theorem CX_phloem2 (c : Climate) : phloemStep (CXstore c) 2 = CXstore c := by
  unfold phloemStep
  rw [CX_find2]
  dsimp only
  rw [if_neg (by decide : ¬ (CXtrunk.isActive = false))]
  rw [show CXtrunk.childrenIds = ([] : List Nat) from rfl]
  rw [List.foldl_nil]

theorem CX_phloemPass (c : Climate) : processPhloemFlow (CXstore c) = CXstore c := by
  show List.foldl phloemStep (CXstore c) [1, 2] = CXstore c
  rw [List.foldl_cons, CX_phloem1, List.foldl_cons, CX_phloem2, List.foldl_nil]

theorem CX_photo1 (c : Climate) : photoStep c (CXstore c) 1 = CXstore c := by
  unfold photoStep
  rw [CX_find1]
  dsimp only
  rw [if_neg (by decide : ¬ (CXseed.isActive = false)),
    if_pos (by decide : CXseed.type ≠ NodeType.LEAF ∧ CXseed.childrenIds.length > 0)]

theorem CX_photo2 (c : Climate) : photoStep c (CXstore c) 2 = CXstore c := by
  unfold photoStep
  rw [CX_find2]
  dsimp only
  rw [if_neg (by decide : ¬ (CXtrunk.isActive = false)),
    if_neg (by decide : ¬ (CXtrunk.type ≠ NodeType.LEAF ∧ CXtrunk.childrenIds.length > 0)),
    if_pos (by norm_num [CXtrunk, MIN_WATER_FOR_PHOTOSYNTHESIS] :
      CXtrunk.waterPressure < MIN_WATER_FOR_PHOTOSYNTHESIS)]

theorem CX_photoPass (c : Climate) : processPhotosynthesis (CXstore c) = CXstore c := by
  show List.foldl (photoStep c) (CXstore c) [1, 2] = CXstore c
  rw [List.foldl_cons, CX_photo1, List.foldl_cons, CX_photo2, List.foldl_nil]

theorem CX_resp1 (c : Climate) :
    respStep (CXstore c) 1 = { CXstore c with nodes := [CXseedR, CXtrunk] } := by
  unfold respStep
  rw [CX_find1]
  dsimp only
  rw [if_neg (by decide : ¬ (CXseed.isActive = false)),
    if_neg (by norm_num [CXseed, NODE_RESPIRATION_COST] :
      ¬ (CXseed.sugarStore ≥ NODE_RESPIRATION_COST * (1 + CXseed.radius * 5)))]
  norm_num [Store.updateNode, CXstore, CXseed, CXtrunk, CXseedR,
    NODE_RESPIRATION_COST, STARVATION_STRESS_RATE, max_def, min_def]

theorem CX_resp2 (c : Climate) :
    respStep ({ CXstore c with nodes := [CXseedR, CXtrunk] }) 2 = CXstoreR c := by
  unfold respStep
  rw [show ({ CXstore c with nodes := [CXseedR, CXtrunk] } : Store).find? 2 =
    some CXtrunk from rfl]
  dsimp only
  rw [if_neg (by decide : ¬ (CXtrunk.isActive = false)),
    if_neg (by norm_num [CXtrunk, NODE_RESPIRATION_COST] :
      ¬ (CXtrunk.sugarStore ≥ NODE_RESPIRATION_COST * (1 + CXtrunk.radius * 5)))]
  norm_num [Store.updateNode, CXstore, CXstoreR, CXseed, CXtrunk, CXseedR, CXtrunkR,
    NODE_RESPIRATION_COST, STARVATION_STRESS_RATE, max_def, min_def]

theorem CX_respPass (c : Climate) : processRespiration (CXstore c) = CXstoreR c := by
  show List.foldl respStep (CXstore c) [1, 2] = CXstoreR c
  rw [List.foldl_cons, CX_resp1, List.foldl_cons, CX_resp2, List.foldl_nil]

theorem CX_stress1 (c : Climate) :
    stressStep (CXstoreR c) 1 = { CXstoreR c with nodes := [CXseed, CXtrunkR] } := by
  unfold stressStep
  rw [show (CXstoreR c).find? 1 = some CXseedR from rfl]
  dsimp only
  rw [if_neg (by decide : ¬ (CXseedR.isActive = false)),
    if_neg (by norm_num [CXseedR, CXseed, stressDelta, DEHYDRATION_STRESS_RATE,
      HEALTH_RECOVERY_RATE, STRESS_DEATH_THRESHOLD, max_def, min_def] :
      ¬ (max 0 (min 1 (CXseedR.stressLevel + stressDelta CXseedR)) ≥
        STRESS_DEATH_THRESHOLD))]
  norm_num [Store.updateNode, CXstore, CXstoreR, CXseed, CXtrunk, CXseedR, CXtrunkR,
    stressDelta, DEHYDRATION_STRESS_RATE, HEALTH_RECOVERY_RATE, max_def, min_def]

theorem CX_stress2 (c : Climate) :
    stressStep ({ CXstoreR c with nodes := [CXseed, CXtrunkR] }) 2 = CXstore c := by
  unfold stressStep
  rw [show ({ CXstoreR c with nodes := [CXseed, CXtrunkR] } : Store).find? 2 =
    some CXtrunkR from rfl]
  dsimp only
  rw [if_neg (by decide : ¬ (CXtrunkR.isActive = false)),
    if_neg (by norm_num [CXtrunkR, CXtrunk, stressDelta, DEHYDRATION_STRESS_RATE,
      HEALTH_RECOVERY_RATE, STRESS_DEATH_THRESHOLD, max_def, min_def] :
      ¬ (max 0 (min 1 (CXtrunkR.stressLevel + stressDelta CXtrunkR)) ≥
        STRESS_DEATH_THRESHOLD))]
  norm_num [Store.updateNode, CXstore, CXstoreR, CXseed, CXtrunk, CXseedR, CXtrunkR,
    stressDelta, DEHYDRATION_STRESS_RATE, HEALTH_RECOVERY_RATE, max_def, min_def]

theorem CX_stressPass (c : Climate) : processStressAndHealth (CXstoreR c) = CXstore c := by
  show List.foldl stressStep (CXstoreR c) [1, 2] = CXstore c
  rw [List.foldl_cons, CX_stress1, List.foldl_cons, CX_stress2, List.foldl_nil]

theorem tickSim_CXstore (cl c : Climate) :
    tickSim (CXstore cl) c = CXstore { c with tick := c.tick + 1 } := by
  unfold tickSim updateMetabolism updateHydraulics
  rw [show ({ CXstore cl with climate := c } : Store) = CXstore c from rfl]
  rw [CX_transpPass, CX_uptakePass, CX_xylemPass, CX_phloemPass, CX_photoPass,
    CX_respPass, CX_stressPass]
  rfl

/-- Claim C5 counterexample: an infinite admissible tick trajectory on which
segment 2's local sugar buffer is 0 at every tick, yet the segment keeps
stress 0 and stays active forever.  Starvation stress alone does not reach
the death threshold, because with water pressure above 1/10 the partial
recovery branch of the stress step outweighs the starvation stress rate. -/
theorem claim_C5_counterexample :
    ∃ traj : Nat → Store,
      (∀ k, SimStep (traj k) (traj (k + 1))) ∧
      (∀ k, ∃ n, (traj k).find? 2 = some n ∧ n.sugarStore = 0 ∧
        n.isActive = true ∧ n.stressLevel = 0) := by
  refine ⟨fun k => CXstore (CXclimate k), fun k => ?_,
    fun k => ⟨CXtrunk, rfl, rfl, rfl, rfl⟩⟩
  have h := SimStep.tick (CXstore (CXclimate k)) (CXclimate k)
    (by norm_num [ClimateOK, CXclimate]) rfl
  rw [tickSim_CXstore] at h
  exact h

/-! The store state entering the respiration pass of a tick: climate written,
hydraulics and photosynthesis done.  None of these passes writes isActive,
stressLevel or structuralHealth, so those fields carry over from the start of
the tick to this point unchanged. -/

def midResp (s : Store) (c : Climate) : Store :=
  processPhotosynthesis (updateHydraulics { s with climate := c })

def KeepsFields (n : PlantNode) (x : Nat) (s : Store) : Prop :=
  ∃ n', s.find? x = some n' ∧ n'.isActive = n.isActive ∧
    n'.stressLevel = n.stressLevel ∧ n'.structuralHealth = n.structuralHealth

theorem ash_updateNode {s : Store} {x : Nat} {n : PlantNode} (i : Nat)
    (f : PlantNode → PlantNode) (hfid : ∀ m, (f m).id = m.id)
    (hfa : ∀ m, (f m).isActive = m.isActive)
    (hfs : ∀ m, (f m).stressLevel = m.stressLevel)
    (hfh : ∀ m, (f m).structuralHealth = m.structuralHealth)
    (h : KeepsFields n x s) : KeepsFields n x (s.updateNode i f) := by
  obtain ⟨n', h1, h2, h3, h4⟩ := h
  rcases find?_updateNode_cases s i x f hfid h1 with h | h
  · exact ⟨n', h, h2, h3, h4⟩
  · exact ⟨f n', h, (hfa n').trans h2, (hfs n').trans h3, (hfh n').trans h4⟩

theorem keeps_modifyWater {n : PlantNode} {x : Nat} {s : Store} (d : ℚ)
    (h : KeepsFields n x s) : KeepsFields n x (s.modifyWater d) := h

theorem keeps_modifySugar {n : PlantNode} {x : Nat} {s : Store} (d : ℚ)
    (h : KeepsFields n x s) : KeepsFields n x (s.modifySugar d) := h

theorem keeps_transpStep (c : Climate) (s : Store) (t : Nat) {x : Nat}
    {n : PlantNode} (h : KeepsFields n x s) : KeepsFields n x (transpStep c s t) := by
  unfold transpStep
  cases hft : s.find? t with
  | none => exact h
  | some node =>
    dsimp only
    split
    · exact h
    · split
      · split
        · split
          · refine ash_updateNode t _ ?_ ?_ ?_ ?_ h <;> exact fun m => rfl
          · exact h
        · exact h
      · exact h

theorem keeps_uptakeStep (c : Climate) (s : Store) (t : Nat) {x : Nat}
    {n : PlantNode} (h : KeepsFields n x s) : KeepsFields n x (uptakeStep c s t) := by
  unfold uptakeStep
  cases hft : s.find? t with
  | none => exact h
  | some node =>
    dsimp only
    split
    · exact h
    · split
      · split
        · show KeepsFields n x ((Store.updateNode _ _ _).modifyWater _)
          refine keeps_modifyWater _ (ash_updateNode t _ ?_ ?_ ?_ ?_ h) <;>
            exact fun m => rfl
        · exact h
      · exact h

theorem keeps_xylemStep (s : Store) (t : Nat) {x : Nat} {n : PlantNode}
    (h : KeepsFields n x s) : KeepsFields n x (xylemStep s t) := by
  unfold xylemStep
  cases hft : s.find? t with
  | none => exact h
  | some node =>
    dsimp only
    split
    · exact h
    · cases hpar : node.parentId with
      | none => exact h
      | some pid =>
        dsimp only
        cases hfp : s.find? pid with
        | none => exact h
        | some parent =>
          dsimp only
          split
          · exact h
          · split
            · refine ash_updateNode t _ ?_ ?_ ?_ ?_
                (ash_updateNode pid _ ?_ ?_ ?_ ?_ h) <;> exact fun m => rfl
            · exact h

theorem keeps_phloemEdge (s : Store) (pid cid : Nat) {x : Nat} {n : PlantNode}
    (h : KeepsFields n x s) : KeepsFields n x (phloemEdge s pid cid) := by
  unfold phloemEdge
  cases hfp : s.find? pid with
  | none => exact h
  | some node =>
    dsimp only
    cases hfc : s.find? cid with
    | none => exact h
    | some child =>
      dsimp only
      split
      · exact h
      · split
        · split
          · refine ash_updateNode cid _ ?_ ?_ ?_ ?_
              (ash_updateNode pid _ ?_ ?_ ?_ ?_ h) <;> exact fun m => rfl
          · refine ash_updateNode pid _ ?_ ?_ ?_ ?_
              (ash_updateNode cid _ ?_ ?_ ?_ ?_ h) <;> exact fun m => rfl
        · exact h

theorem keeps_phloemStep (s : Store) (t : Nat) {x : Nat} {n : PlantNode}
    (h : KeepsFields n x s) : KeepsFields n x (phloemStep s t) := by
  unfold phloemStep
  cases hft : s.find? t with
  | none => exact h
  | some node =>
    dsimp only
    split
    · exact h
    · exact invariant_foldl (fun acc cid hacc => keeps_phloemEdge acc t cid hacc)
        node.childrenIds s h

theorem keeps_photoStep (c : Climate) (s : Store) (t : Nat) {x : Nat}
    {n : PlantNode} (h : KeepsFields n x s) : KeepsFields n x (photoStep c s t) := by
  unfold photoStep
  cases hft : s.find? t with
  | none => exact h
  | some node =>
    dsimp only
    split
    · exact h
    · split
      · exact h
      · split
        · exact h
        · split
          · show KeepsFields n x ((Store.updateNode _ _ _).modifySugar _)
            refine keeps_modifySugar _ (ash_updateNode t _ ?_ ?_ ?_ ?_ h) <;>
              exact fun m => rfl
          · exact h

set_option maxHeartbeats 1000000 in
theorem keeps_midResp (s : Store) (c : Climate) {x : Nat} {n : PlantNode}
    (hfind : s.find? x = some n) : KeepsFields n x (midResp s c) := by
  unfold midResp updateHydraulics processPhotosynthesis
  refine invariant_foldl (fun s' a h' => keeps_photoStep _ s' a h') _ _ ?_
  unfold processPhloemFlow
  refine invariant_foldl (fun s' a h' => keeps_phloemStep s' a h') _ _ ?_
  unfold processXylemFlow
  refine invariant_foldl (fun s' a h' => keeps_xylemStep s' a h') _ _ ?_
  unfold processRootUptake
  refine invariant_foldl (fun s' a h' => keeps_uptakeStep _ s' a h') _ _ ?_
  unfold processTranspiration
  refine invariant_foldl (fun s' a h' => keeps_transpStep _ s' a h') _ _ ?_
  exact ⟨n, hfind, rfl, rfl, rfl⟩

/-! Respiration and stress steps aimed at a different id leave a node's table
entry untouched; aimed at the node itself they follow the starving branch
(when the buffer is below the respiration cost) and the alive or death branch
of the stress step. -/

theorem respStep_other (s : Store) (t x : Nat) (ht : t ≠ x) :
    (respStep s t).find? x = s.find? x := by
  unfold respStep
  cases hft : s.find? t with
  | none => rfl
  | some node =>
    dsimp only
    split
    · rfl
    · split
      · refine find?_updateNode_other _ _ _ _ ?_ ht
        exact fun m => rfl
      · refine Eq.trans (find?_updateNode_other _ _ _ _ ?_ ht) ?_
        · exact fun m => rfl
        · refine find?_updateNode_other _ _ _ _ ?_ ht
          exact fun m => rfl

theorem stressStep_other (s : Store) (t x : Nat) (ht : t ≠ x) :
    (stressStep s t).find? x = s.find? x := by
  unfold stressStep
  cases hft : s.find? t with
  | none => rfl
  | some node =>
    dsimp only
    split
    · rfl
    · split
      · refine find?_updateNode_other _ _ _ _ ?_ ht
        exact fun m => rfl
      · refine find?_updateNode_other _ _ _ _ ?_ ht
        exact fun m => rfl

theorem foldl_find?_other {x : Nat} {step : Store → Nat → Store}
    (hstep : ∀ s t, t ≠ x → (step s t).find? x = s.find? x) :
    ∀ (l : List Nat) (s : Store), x ∉ l →
      (List.foldl step s l).find? x = s.find? x := by
  intro l
  induction l with
  | nil => intro s _; rfl
  | cons t l ih =>
    intro s hx
    rw [List.foldl_cons, ih _ (fun hmem => hx (List.mem_cons_of_mem t hmem)),
      hstep s t (fun ht => hx (ht ▸ List.mem_cons_self t l))]

theorem nodup_split {l : List Nat} {x : Nat} (hnd : l.Nodup) (hx : x ∈ l) :
    ∃ l1 l2, l = l1 ++ x :: l2 ∧ x ∉ l1 ∧ x ∉ l2 := by
  obtain ⟨l1, l2, rfl⟩ := List.mem_iff_append.mp hx
  rw [List.nodup_append] at hnd
  refine ⟨l1, l2, rfl, ?_, ?_⟩
  · intro hmem
    exact hnd.2.2 hmem (List.mem_cons_self x l2)
  · exact (List.nodup_cons.mp hnd.2.1).1

theorem respStep_starving (s : Store) (x : Nat) {n : PlantNode}
    (hfind : s.find? x = some n) (hact : ¬ n.isActive = false)
    (hcost : ¬ n.sugarStore ≥ NODE_RESPIRATION_COST * (1 + n.radius * 5)) :
    (respStep s x).find? x = some
      { n with
        sugarStore := 0,
        sugarConcentration := max 0 (n.sugarConcentration - 1/100),
        stressLevel := min 1 (n.stressLevel +
          (NODE_RESPIRATION_COST * (1 + n.radius * 5) - n.sugarStore) *
            STARVATION_STRESS_RATE) } := by
  unfold respStep
  rw [hfind]
  dsimp only
  rw [if_neg hact, if_neg hcost]
  have h1 : (s.updateNode x (fun m =>
      { m with sugarStore := 0,
               sugarConcentration := max 0 (n.sugarConcentration - 1/100) })).find? x
      = some
        { n with sugarStore := 0,
                 sugarConcentration := max 0 (n.sugarConcentration - 1/100) } := by
    refine (find?_updateNode_self s x _ ?_).trans ?_
    · exact fun m => rfl
    · rw [hfind]
      rfl
  refine (find?_updateNode_self _ x _ ?_).trans ?_
  · exact fun m => rfl
  · rw [h1]
    rfl

theorem stressStep_alive (s : Store) (x : Nat) {n : PlantNode}
    (hfind : s.find? x = some n) (hact : ¬ n.isActive = false)
    (hlt : ¬ max 0 (min 1 (n.stressLevel + stressDelta n)) ≥
      STRESS_DEATH_THRESHOLD) :
    (stressStep s x).find? x = some
      { n with
        stressLevel := max 0 (min 1 (n.stressLevel + stressDelta n)),
        structuralHealth := max 0 (min 1 (n.structuralHealth +
          ((1 - max 0 (min 1 (n.stressLevel + stressDelta n)) * (8/10)) -
            n.structuralHealth) * (1/10))) } := by
  unfold stressStep
  rw [hfind]
  dsimp only
  rw [if_neg hact, if_neg hlt]
  refine (find?_updateNode_self s x _ ?_).trans ?_
  · exact fun m => rfl
  · rw [hfind]
    rfl

/-- One tick of a starving, low-pressure, active segment: it either dies in
the stress step of this very tick (stress 1, health 0, inactive), or survives
with its stress strictly increased by at least the minimum starvation
increment 1/100000 while staying below the death threshold. -/
theorem starvingTick (s : Store) (c : Climate) (x : Nat) {n : PlantNode}
    (hnd : ((midResp s c).nodes.map (fun m => m.id)).Nodup)
    (hfind : (midResp s c).find? x = some n)
    (hact : n.isActive = true) (hsug : n.sugarStore = 0)
    (hwp : n.waterPressure ≤ 1/10) (hrad : 0 ≤ n.radius)
    (hst : 0 ≤ n.stressLevel) :
    (∃ m, (tickSim s c).find? x = some m ∧ m.isActive = false ∧
      m.structuralHealth = 0 ∧ m.stressLevel = 1) ∨
    (∃ m, (tickSim s c).find? x = some m ∧ m.isActive = true ∧
      n.stressLevel + 1/100000 ≤ m.stressLevel ∧ m.stressLevel < 1) := by
  have htf : (tickSim s c).find? x =
      (processStressAndHealth (processRespiration (midResp s c))).find? x := by
    unfold tickSim updateMetabolism midResp
    rw [find?_incrementTick]
  have hactF : ¬ n.isActive = false := by
    rw [hact]
    decide
  have hcost : ¬ n.sugarStore ≥ NODE_RESPIRATION_COST * (1 + n.radius * 5) := by
    rw [hsug]
    simp only [NODE_RESPIRATION_COST]
    intro hge
    nlinarith [hrad]
  have hnx : n.id = x := by
    have h2 : (midResp s c).nodes.find? (fun m => m.id == x) = some n := hfind
    have h3 := List.find?_some h2
    simpa using h3
  have hxmem : x ∈ (midResp s c).nodes.map (fun m => m.id) :=
    hnx ▸ List.mem_map_of_mem _ (mem_of_find? hfind)
  obtain ⟨l1, l2, hsplit, hx1, hx2⟩ := nodup_split hnd hxmem
  have hresp : (processRespiration (midResp s c)).find? x = some
      { n with
        sugarStore := 0,
        sugarConcentration := max 0 (n.sugarConcentration - 1/100),
        stressLevel := min 1 (n.stressLevel +
          (NODE_RESPIRATION_COST * (1 + n.radius * 5) - n.sugarStore) *
            STARVATION_STRESS_RATE) } := by
    show (List.foldl respStep (midResp s c) (nodeIds (midResp s c))).find? x = _
    rw [show nodeIds (midResp s c) = l1 ++ x :: l2 from hsplit, List.foldl_append,
      List.foldl_cons]
    exact (foldl_find?_other (fun s' t ht => respStep_other s' t x ht) l2 _
        hx2).trans
      (respStep_starving _ x
        ((foldl_find?_other (fun s' t ht => respStep_other s' t x ht) l1 _
          hx1).trans hfind) hactF hcost)
  obtain ⟨n1, hresp1, hn1a, hn1wp, hn1sug, hn1st, hn1h⟩ : ∃ n1,
      (processRespiration (midResp s c)).find? x = some n1 ∧
      n1.isActive = true ∧ n1.waterPressure = n.waterPressure ∧
      n1.sugarStore = 0 ∧
      n1.stressLevel = min 1 (n.stressLevel +
        (NODE_RESPIRATION_COST * (1 + n.radius * 5) - n.sugarStore) *
          STARVATION_STRESS_RATE) ∧
      n1.structuralHealth = n.structuralHealth :=
    ⟨_, hresp, hact, rfl, rfl, rfl, rfl⟩
  have hw1 : n1.waterPressure ≤ 1/10 := hn1wp ▸ hwp
  have hδ : 0 ≤ stressDelta n1 := by
    unfold stressDelta
    rw [if_neg (show ¬ (n1.waterPressure > 15/100 ∧ n1.sugarStore > 2/100) from
        fun h => absurd h.1 (by linarith)),
      if_neg (show ¬ n1.waterPressure > 1/10 from by linarith)]
    by_cases h8 : n1.waterPressure < 8/100
    · rw [if_pos h8]
      simp only [DEHYDRATION_STRESS_RATE]
      nlinarith
    · rw [if_neg h8]
      norm_num
  have hinc : 1/100000 ≤ (NODE_RESPIRATION_COST * (1 + n.radius * 5) -
      n.sugarStore) * STARVATION_STRESS_RATE := by
    rw [hsug]
    simp only [NODE_RESPIRATION_COST, STARVATION_STRESS_RATE]
    nlinarith [hrad]
  have hn1aF : ¬ n1.isActive = false := by
    rw [hn1a]
    decide
  have hids2 : nodeIds (processRespiration (midResp s c)) = l1 ++ x :: l2 :=
    (sameIds_processRespiration (midResp s c)).1.trans hsplit
  have hpre : (List.foldl stressStep (processRespiration (midResp s c)) l1).find? x
      = some n1 :=
    (foldl_find?_other (fun s' t ht => stressStep_other s' t x ht) l1 _ hx1).trans
      hresp1
  by_cases hdie : max 0 (min 1 (n1.stressLevel + stressDelta n1)) ≥
      STRESS_DEATH_THRESHOLD
  · left
    have hd := stressStep_death _ x n1 hpre hn1a hdie
    have hfin : (processStressAndHealth (processRespiration (midResp s c))).find? x
        = some { n1 with stressLevel := 1, structuralHealth := 0,
                         isActive := false } := by
      show (List.foldl stressStep _ (nodeIds (processRespiration (midResp s c)))).find? x = _
      rw [hids2, List.foldl_append, List.foldl_cons]
      exact frozen_foldl (fun s' a h' => frozen_stressStep s' a x h' rfl) l2 _ hd
    exact ⟨_, htf.trans hfin, rfl, rfl, rfl⟩
  · right
    have ha := stressStep_alive _ x hpre hn1aF hdie
    have hfin : (processStressAndHealth (processRespiration (midResp s c))).find? x
        = some
        { n1 with
          stressLevel := max 0 (min 1 (n1.stressLevel + stressDelta n1)),
          structuralHealth := max 0 (min 1 (n1.structuralHealth +
            ((1 - max 0 (min 1 (n1.stressLevel + stressDelta n1)) * (8/10)) -
              n1.structuralHealth) * (1/10))) } := by
      show (List.foldl stressStep _ (nodeIds (processRespiration (midResp s c)))).find? x = _
      rw [hids2, List.foldl_append, List.foldl_cons]
      exact (foldl_find?_other (fun s' t ht => stressStep_other s' t x ht) l2 _
        hx2).trans ha
    simp only [STRESS_DEATH_THRESHOLD] at hdie
    have hns1 : max 0 (min 1 (n1.stressLevel + stressDelta n1)) < 1 :=
      lt_of_not_ge hdie
    have hbound : n.stressLevel + 1/100000 ≤
        max 0 (min 1 (n1.stressLevel + stressDelta n1)) := by
      by_cases h1 : n.stressLevel +
          (NODE_RESPIRATION_COST * (1 + n.radius * 5) - n.sugarStore) *
            STARVATION_STRESS_RATE ≤ 1
      · have hσ1 : n1.stressLevel = n.stressLevel +
            (NODE_RESPIRATION_COST * (1 + n.radius * 5) - n.sugarStore) *
              STARVATION_STRESS_RATE := by
          rw [hn1st, min_eq_right h1]
        by_cases h2 : n1.stressLevel + stressDelta n1 ≤ 1
        · rw [min_eq_right h2, max_eq_right (by linarith)]
          linarith
        · rw [min_eq_left (by linarith)] at hns1
          rw [max_eq_right (by norm_num : (0:ℚ) ≤ 1)] at hns1
          norm_num at hns1
      · have hσ1 : n1.stressLevel = 1 := by
          rw [hn1st, min_eq_left (by linarith)]
        rw [min_eq_left (by linarith)] at hns1
        rw [max_eq_right (by norm_num : (0:ℚ) ≤ 1)] at hns1
        norm_num at hns1
    exact ⟨_, htf.trans hfin, hn1a, hbound, hns1⟩

/-- Claim C5, amended: the claim as stated fails (see the counterexample: the
partial pressure-recovery branch at waterPressure > 1/10 outweighs starvation
stress).  It holds once the segment is additionally held at low water
pressure: along any tick trajectory on which segment x is present with unique
ids at the respiration point of every tick, starts active there, and — while
active — always has an empty sugar buffer and water pressure at most 1/10,
the segment's stress reaches the death threshold within 100001 ticks and the
segment is thereafter permanently inactive with structural health 0 and
stress 1. -/
theorem claim_C5_starvation_death_amended
    (s : Nat → Store) (c : Nat → Climate) (x : Nat)
    (hstep : ∀ k, s (k + 1) = tickSim (s k) (c k))
    (hnd : ∀ k, ((midResp (s k) (c k)).nodes.map (fun m => m.id)).Nodup)
    (hstarve : ∀ k, ∃ n, (midResp (s k) (c k)).find? x = some n ∧
      (n.isActive = true → n.sugarStore = 0 ∧ n.waterPressure ≤ 1/10 ∧
        0 ≤ n.radius))
    (hact0 : ∃ n, (midResp (s 0) (c 0)).find? x = some n ∧ n.isActive = true ∧
      0 ≤ n.stressLevel) :
    ∀ j, 100001 ≤ j → ∃ m, (s j).find? x = some m ∧ m.isActive = false ∧
      m.structuralHealth = 0 ∧ m.stressLevel = 1 := by
  have hmain : ∀ k,
      (∃ m, (s k).find? x = some m ∧ m.isActive = false ∧
        m.structuralHealth = 0 ∧ m.stressLevel = 1) ∨
      (∃ n, (midResp (s k) (c k)).find? x = some n ∧ n.isActive = true ∧
        (k : ℚ)/100000 ≤ n.stressLevel ∧ (1 ≤ k → n.stressLevel < 1)) := by
    intro k
    induction k with
    | zero =>
      right
      obtain ⟨n, hfind, hactn, hstn⟩ := hact0
      exact ⟨n, hfind, hactn, by simpa using hstn, by omega⟩
    | succ k ih =>
      rcases ih with ⟨m, hfind, hdead, hh, hs⟩ | ⟨n, hfind, hactn, hlow, hup⟩
      · left
        refine ⟨m, ?_, hdead, hh, hs⟩
        rw [hstep k]
        exact frozen_tickSim (s k) (c k) x hfind hdead
      · obtain ⟨n', hfind', hcond⟩ := hstarve k
        have hnn : n' = n := by
          have := hfind'.symm.trans hfind
          exact Option.some.inj this
        subst hnn
        obtain ⟨hsug, hwp, hrad⟩ := hcond hactn
        have hst : 0 ≤ n'.stressLevel := by
          have h0 : (0:ℚ) ≤ (k : ℚ)/100000 := by positivity
          linarith
        rcases starvingTick (s k) (c k) x (hnd k) hfind' hactn hsug hwp hrad hst
          with ⟨m, hm, hma, hmh, hms⟩ | ⟨m, hm, hma, hmlow, hmup⟩
        · left
          exact ⟨m, by rw [hstep k]; exact hm, hma, hmh, hms⟩
        · right
          have hmfind : (s (k+1)).find? x = some m := by rw [hstep k]; exact hm
          obtain ⟨n2, h2find, h2a, h2s, h2h⟩ := keeps_midResp (s (k+1)) (c (k+1))
            hmfind
          refine ⟨n2, h2find, h2a.trans hma, ?_, fun _ => ?_⟩
          · rw [h2s]
            have : ((k:ℚ)+1)/100000 = (k:ℚ)/100000 + 1/100000 := by ring
            push_cast
            rw [this]
            linarith
          · rw [h2s]
            exact hmup
  have hdead1 : ∃ m, (s 100001).find? x = some m ∧ m.isActive = false ∧
      m.structuralHealth = 0 ∧ m.stressLevel = 1 := by
    rcases hmain 100001 with h | ⟨n, _, _, hlow, hup⟩
    · exact h
    · exfalso
      have h1 : (100001 : ℚ)/100000 ≤ n.stressLevel := by
        have := hlow
        norm_num at this ⊢
        linarith
      have h2 : n.stressLevel < 1 := hup (by norm_num)
      linarith
  intro j hj
  induction j with
  | zero => omega
  | succ j ihj =>
    by_cases hj1 : 100001 ≤ j
    · obtain ⟨m, hfind, hdead, hh, hs⟩ := ihj hj1
      refine ⟨m, ?_, hdead, hh, hs⟩
      rw [hstep j]
      exact frozen_tickSim (s j) (c j) x hfind hdead
    · have : j + 1 = 100001 := by omega
      rw [this]
      exact hdead1

/-! Witness trajectory for the amended starvation claim: a lone seed at water
pressure 9/100 (no recovery, no dehydration), empty buffer, stress already at
1; it dies in the stress step of the very first tick and stays dead. -/

def WDnode0 : PlantNode :=
  { id := 1, type := NodeType.SEED, position := { x := 0, y := 0 },
    parentId := none, childrenIds := [], radius := 3/100,
    structuralHealth := 1, waterPressure := 9/100, sugarConcentration := 0,
    sugarStore := 0, isActive := true, stressLevel := 1 }

def WDdeadN : PlantNode := { WDnode0 with structuralHealth := 0, isActive := false }

def WDstore0 (cl : Climate) : Store :=
  { nodes := [WDnode0], seedId := 1, nextId := 2,
    resources := { sugar := 0, water := 0, minerals := 0 },
    climate := cl, selectedNodeId := none, isPaused := false,
    speedMultiplier := 1 }

def WDdead (cl : Climate) : Store := { WDstore0 cl with nodes := [WDdeadN] }

theorem W0_find (cl : Climate) : (WDstore0 cl).find? 1 = some WDnode0 := rfl

theorem W0_transp1 (c : Climate) : transpStep c (WDstore0 c) 1 = WDstore0 c := by
  unfold transpStep
  rw [W0_find]
  dsimp only
  rw [if_neg (by decide : ¬ (WDnode0.isActive = false)),
    if_pos (by decide : WDnode0.type = NodeType.LEAF ∨ WDnode0.childrenIds.length = 0),
    if_neg (by norm_num [WDnode0] : ¬ (WDnode0.waterPressure > 15/100))]

theorem W0_transpPass (c : Climate) :
    processTranspiration (WDstore0 c) = WDstore0 c := by
  show List.foldl (transpStep c) (WDstore0 c) [1] = WDstore0 c
  rw [List.foldl_cons, W0_transp1, List.foldl_nil]

theorem W0_uptakePass (c : Climate) :
    processRootUptake (WDstore0 c) = WDstore0 c := by
  show List.foldl (uptakeStep c) (WDstore0 c) [] = WDstore0 c
  rw [List.foldl_nil]

theorem W0_xylem1 (c : Climate) : xylemStep (WDstore0 c) 1 = WDstore0 c := by
  unfold xylemStep
  rw [W0_find]
  dsimp only
  rw [if_neg (by decide : ¬ (WDnode0.isActive = false))]
  rfl

theorem W0_xylemPass (c : Climate) : processXylemFlow (WDstore0 c) = WDstore0 c := by
  show List.foldl xylemStep (WDstore0 c) [1] = WDstore0 c
  rw [List.foldl_cons, W0_xylem1, List.foldl_nil]

theorem W0_phloem1 (c : Climate) : phloemStep (WDstore0 c) 1 = WDstore0 c := by
  unfold phloemStep
  rw [W0_find]
  dsimp only
  rw [if_neg (by decide : ¬ (WDnode0.isActive = false))]
  rw [show WDnode0.childrenIds = ([] : List Nat) from rfl]
  rw [List.foldl_nil]

theorem W0_phloemPass (c : Climate) :
    processPhloemFlow (WDstore0 c) = WDstore0 c := by
  show List.foldl phloemStep (WDstore0 c) [1] = WDstore0 c
  rw [List.foldl_cons, W0_phloem1, List.foldl_nil]

theorem W0_photo1 (c : Climate) : photoStep c (WDstore0 c) 1 = WDstore0 c := by
  unfold photoStep
  rw [W0_find]
  dsimp only
  rw [if_neg (by decide : ¬ (WDnode0.isActive = false)),
    if_neg (by decide : ¬ (WDnode0.type ≠ NodeType.LEAF ∧
      WDnode0.childrenIds.length > 0)),
    if_pos (by norm_num [WDnode0, MIN_WATER_FOR_PHOTOSYNTHESIS] :
      WDnode0.waterPressure < MIN_WATER_FOR_PHOTOSYNTHESIS)]

theorem W0_photoPass (c : Climate) :
    processPhotosynthesis (WDstore0 c) = WDstore0 c := by
  show List.foldl (photoStep c) (WDstore0 c) [1] = WDstore0 c
  rw [List.foldl_cons, W0_photo1, List.foldl_nil]

theorem W0_resp1 (c : Climate) : respStep (WDstore0 c) 1 = WDstore0 c := by
  unfold respStep
  rw [W0_find]
  dsimp only
  rw [if_neg (by decide : ¬ (WDnode0.isActive = false)),
    if_neg (by norm_num [WDnode0, NODE_RESPIRATION_COST] :
      ¬ (WDnode0.sugarStore ≥ NODE_RESPIRATION_COST * (1 + WDnode0.radius * 5)))]
  norm_num [Store.updateNode, WDstore0, WDnode0, NODE_RESPIRATION_COST,
    STARVATION_STRESS_RATE, max_def, min_def]

theorem W0_respPass (c : Climate) : processRespiration (WDstore0 c) = WDstore0 c := by
  show List.foldl respStep (WDstore0 c) [1] = WDstore0 c
  rw [List.foldl_cons, W0_resp1, List.foldl_nil]

theorem W0_stress1 (c : Climate) : stressStep (WDstore0 c) 1 = WDdead c := by
  unfold stressStep
  rw [W0_find]
  dsimp only
  rw [if_neg (by decide : ¬ (WDnode0.isActive = false)),
    if_pos (by norm_num [WDnode0, stressDelta, DEHYDRATION_STRESS_RATE,
      HEALTH_RECOVERY_RATE, STRESS_DEATH_THRESHOLD, max_def, min_def] :
      max 0 (min 1 (WDnode0.stressLevel + stressDelta WDnode0)) ≥
        STRESS_DEATH_THRESHOLD)]
  norm_num [Store.updateNode, WDstore0, WDdead, WDnode0, WDdeadN, max_def, min_def]

theorem W0_stressPass (c : Climate) :
    processStressAndHealth (WDstore0 c) = WDdead c := by
  show List.foldl stressStep (WDstore0 c) [1] = WDdead c
  rw [List.foldl_cons, W0_stress1, List.foldl_nil]

theorem midW0 (cl c : Climate) : midResp (WDstore0 cl) c = WDstore0 c := by
  unfold midResp updateHydraulics
  rw [show ({ WDstore0 cl with climate := c } : Store) = WDstore0 c from rfl,
    W0_transpPass, W0_uptakePass, W0_xylemPass, W0_phloemPass, W0_photoPass]

theorem tickW0 (cl c : Climate) :
    tickSim (WDstore0 cl) c = WDdead { c with tick := c.tick + 1 } := by
  unfold tickSim updateMetabolism updateHydraulics
  rw [show ({ WDstore0 cl with climate := c } : Store) = WDstore0 c from rfl,
    W0_transpPass, W0_uptakePass, W0_xylemPass, W0_phloemPass, W0_photoPass,
    W0_respPass, W0_stressPass]
  rfl

theorem WD_find (cl : Climate) : (WDdead cl).find? 1 = some WDdeadN := rfl

theorem WD_transp1 (c : Climate) : transpStep c (WDdead c) 1 = WDdead c := by
  unfold transpStep
  rw [WD_find]
  dsimp only
  rw [if_pos (by decide : WDdeadN.isActive = false)]

theorem WD_xylem1 (c : Climate) : xylemStep (WDdead c) 1 = WDdead c := by
  unfold xylemStep
  rw [WD_find]
  dsimp only
  rw [if_pos (by decide : WDdeadN.isActive = false)]

theorem WD_phloem1 (c : Climate) : phloemStep (WDdead c) 1 = WDdead c := by
  unfold phloemStep
  rw [WD_find]
  dsimp only
  rw [if_pos (by decide : WDdeadN.isActive = false)]

theorem WD_photo1 (c : Climate) : photoStep c (WDdead c) 1 = WDdead c := by
  unfold photoStep
  rw [WD_find]
  dsimp only
  rw [if_pos (by decide : WDdeadN.isActive = false)]

theorem WD_resp1 (c : Climate) : respStep (WDdead c) 1 = WDdead c := by
  unfold respStep
  rw [WD_find]
  dsimp only
  rw [if_pos (by decide : WDdeadN.isActive = false)]

theorem WD_stress1 (c : Climate) : stressStep (WDdead c) 1 = WDdead c := by
  unfold stressStep
  rw [WD_find]
  dsimp only
  rw [if_pos (by decide : WDdeadN.isActive = false)]

theorem WD_transpPass (c : Climate) : processTranspiration (WDdead c) = WDdead c := by
  show List.foldl (transpStep c) (WDdead c) [1] = WDdead c
  rw [List.foldl_cons, WD_transp1, List.foldl_nil]

theorem WD_uptakePass (c : Climate) : processRootUptake (WDdead c) = WDdead c := by
  show List.foldl (uptakeStep c) (WDdead c) [] = WDdead c
  rw [List.foldl_nil]

theorem WD_xylemPass (c : Climate) : processXylemFlow (WDdead c) = WDdead c := by
  show List.foldl xylemStep (WDdead c) [1] = WDdead c
  rw [List.foldl_cons, WD_xylem1, List.foldl_nil]

theorem WD_phloemPass (c : Climate) : processPhloemFlow (WDdead c) = WDdead c := by
  show List.foldl phloemStep (WDdead c) [1] = WDdead c
  rw [List.foldl_cons, WD_phloem1, List.foldl_nil]

theorem WD_photoPass (c : Climate) : processPhotosynthesis (WDdead c) = WDdead c := by
  show List.foldl (photoStep c) (WDdead c) [1] = WDdead c
  rw [List.foldl_cons, WD_photo1, List.foldl_nil]

theorem WD_respPass (c : Climate) : processRespiration (WDdead c) = WDdead c := by
  show List.foldl respStep (WDdead c) [1] = WDdead c
  rw [List.foldl_cons, WD_resp1, List.foldl_nil]

theorem WD_stressPass (c : Climate) : processStressAndHealth (WDdead c) = WDdead c := by
  show List.foldl stressStep (WDdead c) [1] = WDdead c
  rw [List.foldl_cons, WD_stress1, List.foldl_nil]

theorem midWD (cl c : Climate) : midResp (WDdead cl) c = WDdead c := by
  unfold midResp updateHydraulics
  rw [show ({ WDdead cl with climate := c } : Store) = WDdead c from rfl,
    WD_transpPass, WD_uptakePass, WD_xylemPass, WD_phloemPass, WD_photoPass]

theorem tickWD (cl c : Climate) :
    tickSim (WDdead cl) c = WDdead { c with tick := c.tick + 1 } := by
  unfold tickSim updateMetabolism updateHydraulics
  rw [show ({ WDdead cl with climate := c } : Store) = WDdead c from rfl,
    WD_transpPass, WD_uptakePass, WD_xylemPass, WD_phloemPass, WD_photoPass,
    WD_respPass, WD_stressPass]
  rfl

def wtraj : Nat → Store
  | 0 => WDstore0 (CXclimate 0)
  | k + 1 => tickSim (wtraj k) (CXclimate k)

theorem wshape : ∀ k, wtraj (k + 1) = WDdead (CXclimate (k + 1)) := by
  intro k
  induction k with
  | zero =>
    show tickSim (WDstore0 (CXclimate 0)) (CXclimate 0) = WDdead (CXclimate 1)
    rw [tickW0]
    rfl
  | succ k ih =>
    show tickSim (wtraj (k + 1)) (CXclimate (k + 1)) = WDdead (CXclimate (k + 2))
    rw [ih, tickWD]
    rfl

/-- Concrete instance of the amended claim C5: along the witness trajectory
the lone starving seed is permanently dead from tick 100001 on (in fact it
dies on the very first tick). -/
theorem claim_C5_starvation_death_amended_witness :
    ∃ m, (wtraj 100001).find? 1 = some m ∧ m.isActive = false ∧
      m.structuralHealth = 0 ∧ m.stressLevel = 1 :=
  claim_C5_starvation_death_amended wtraj CXclimate 1
    (fun k => rfl)
    (fun k => by
      cases k with
      | zero =>
        rw [show wtraj 0 = WDstore0 (CXclimate 0) from rfl, midW0]
        decide
      | succ k =>
        rw [wshape k, midWD]
        exact (by decide : ([1] : List Nat).Nodup))
    (fun k => by
      cases k with
      | zero =>
        refine ⟨WDnode0, ?_, fun _ => ⟨rfl, by norm_num [WDnode0], by
          norm_num [WDnode0]⟩⟩
        rw [show wtraj 0 = WDstore0 (CXclimate 0) from rfl, midW0]
        rfl
      | succ k =>
        refine ⟨WDdeadN, ?_, fun h => absurd h (by decide)⟩
        rw [wshape k, midWD]
        rfl)
    ⟨WDnode0, by
      rw [show wtraj 0 = WDstore0 (CXclimate 0) from rfl, midW0]
      exact rfl, rfl, by norm_num [WDnode0]⟩
    100001 (le_refl _)

/-! Claim C9's scenario: a two-segment chain, parent at pressure 9/10, child
at 1/10, both radii 2/100.  One tick moves 4/625 of pressure across the edge
(capped xylem flow), with 95/100 of it arriving: the gap drops from 8/10 to
2461/3125, whatever the climate outcome of the tick — every climate-dependent
guard is off at these concrete pressures. -/

def C9parent : PlantNode :=
  { id := 1, type := NodeType.TRUNK, position := { x := 0, y := 0 },
    parentId := none, childrenIds := [2], radius := 2/100,
    structuralHealth := 1, waterPressure := 9/10, sugarConcentration := 1/2,
    sugarStore := 0, isActive := true, stressLevel := 0 }

def C9child : PlantNode :=
  { id := 2, type := NodeType.TRUNK, position := { x := 0, y := -1/4 },
    parentId := some 1, childrenIds := [], radius := 2/100,
    structuralHealth := 1, waterPressure := 1/10, sugarConcentration := 1/2,
    sugarStore := 0, isActive := true, stressLevel := 0 }

def C9store (cl : Climate) : Store :=
  { nodes := [C9parent, C9child], seedId := 1, nextId := 3,
    resources := { sugar := 0, water := 0, minerals := 0 },
    climate := cl, selectedNodeId := none, isPaused := false,
    speedMultiplier := 1 }

def C9parentX : PlantNode := { C9parent with waterPressure := 1117/1250 }

def C9childX : PlantNode := { C9child with waterPressure := 663/6250 }

def C9storeX (c : Climate) : Store := { C9store c with nodes := [C9parentX, C9childX] }

def C9parentR : PlantNode :=
  { C9parentX with sugarConcentration := 49/100, stressLevel := 11/1000000 }

def C9childR : PlantNode :=
  { C9childX with sugarConcentration := 49/100, stressLevel := 11/1000000 }

def C9storeR (c : Climate) : Store := { C9store c with nodes := [C9parentR, C9childR] }

def C9parentF : PlantNode := { C9parentX with sugarConcentration := 49/100 }

def C9childF : PlantNode := { C9childX with sugarConcentration := 49/100 }

def C9storeF (c : Climate) : Store := { C9store c with nodes := [C9parentF, C9childF] }

theorem C9_find1 (c : Climate) : (C9store c).find? 1 = some C9parent := rfl

theorem C9_find2 (c : Climate) : (C9store c).find? 2 = some C9child := rfl

theorem C9_transp1 (c : Climate) : transpStep c (C9store c) 1 = C9store c := by
  unfold transpStep
  rw [C9_find1]
  dsimp only
  rw [if_neg (by decide : ¬ (C9parent.isActive = false)),
    if_neg (by decide : ¬ (C9parent.type = NodeType.LEAF ∨
      C9parent.childrenIds.length = 0))]

theorem C9_transp2 (c : Climate) : transpStep c (C9store c) 2 = C9store c := by
  unfold transpStep
  rw [C9_find2]
  dsimp only
  rw [if_neg (by decide : ¬ (C9child.isActive = false)),
    if_pos (by decide : C9child.type = NodeType.LEAF ∨
      C9child.childrenIds.length = 0),
    if_neg (by norm_num [C9child] : ¬ (C9child.waterPressure > 15/100))]

theorem C9_transpPass (c : Climate) : processTranspiration (C9store c) = C9store c := by
  show List.foldl (transpStep c) (C9store c) [1, 2] = C9store c
  rw [List.foldl_cons, C9_transp1, List.foldl_cons, C9_transp2, List.foldl_nil]

theorem C9_uptakePass (c : Climate) : processRootUptake (C9store c) = C9store c := by
  show List.foldl (uptakeStep c) (C9store c) [] = C9store c
  rw [List.foldl_nil]

theorem C9_xylem1 (c : Climate) : xylemStep (C9store c) 1 = C9store c := by
  unfold xylemStep
  rw [C9_find1]
  dsimp only
  rw [if_neg (by decide : ¬ (C9parent.isActive = false))]
  rfl

theorem C9_xylem2 (c : Climate) : xylemStep (C9store c) 2 = C9storeX c := by
  unfold xylemStep
  rw [C9_find2]
  dsimp only
  rw [if_neg (by decide : ¬ (C9child.isActive = false))]
  rw [show C9child.parentId = some 1 from rfl]
  dsimp only
  rw [C9_find1]
  dsimp only
  rw [if_neg (by decide : ¬ (C9parent.isActive = false)),
    if_pos (by norm_num [C9parent, C9child, FLOW_THRESHOLD] :
      C9parent.waterPressure - C9child.waterPressure > FLOW_THRESHOLD)]
  norm_num [Store.updateNode, C9store, C9storeX, C9parent, C9child, C9parentX,
    C9childX, WATER_FLOW_RATE, max_def, min_def]

theorem C9_xylemPass (c : Climate) : processXylemFlow (C9store c) = C9storeX c := by
  show List.foldl xylemStep (C9store c) [1, 2] = C9storeX c
  rw [List.foldl_cons, C9_xylem1, List.foldl_cons, C9_xylem2, List.foldl_nil]

theorem C9X_find1 (c : Climate) : (C9storeX c).find? 1 = some C9parentX := rfl

theorem C9X_find2 (c : Climate) : (C9storeX c).find? 2 = some C9childX := rfl

theorem C9_phloemEdge12 (c : Climate) : phloemEdge (C9storeX c) 1 2 = C9storeX c := by
  unfold phloemEdge
  rw [C9X_find1]
  dsimp only
  rw [C9X_find2]
  dsimp only
  rw [if_neg (by decide : ¬ (C9childX.isActive = false)),
    if_neg (by norm_num [C9parentX, C9childX, C9parent, C9child, FLOW_THRESHOLD] :
      ¬ (|C9parentX.sugarConcentration - C9childX.sugarConcentration| >
        FLOW_THRESHOLD))]

theorem C9_phloem1 (c : Climate) : phloemStep (C9storeX c) 1 = C9storeX c := by
  unfold phloemStep
  rw [C9X_find1]
  dsimp only
  rw [if_neg (by decide : ¬ (C9parentX.isActive = false))]
  rw [show C9parentX.childrenIds = [2] from rfl]
  rw [List.foldl_cons, C9_phloemEdge12, List.foldl_nil]

theorem C9_phloem2 (c : Climate) : phloemStep (C9storeX c) 2 = C9storeX c := by
  unfold phloemStep
  rw [C9X_find2]
  dsimp only
  rw [if_neg (by decide : ¬ (C9childX.isActive = false))]
  rw [show C9childX.childrenIds = ([] : List Nat) from rfl]
  rw [List.foldl_nil]

theorem C9_phloemPass (c : Climate) : processPhloemFlow (C9storeX c) = C9storeX c := by
  show List.foldl phloemStep (C9storeX c) [1, 2] = C9storeX c
  rw [List.foldl_cons, C9_phloem1, List.foldl_cons, C9_phloem2, List.foldl_nil]

theorem C9_photo1 (c : Climate) : photoStep c (C9storeX c) 1 = C9storeX c := by
  unfold photoStep
  rw [C9X_find1]
  dsimp only
  rw [if_neg (by decide : ¬ (C9parentX.isActive = false)),
    if_pos (by decide : C9parentX.type ≠ NodeType.LEAF ∧
      C9parentX.childrenIds.length > 0)]

theorem C9_photo2 (c : Climate) : photoStep c (C9storeX c) 2 = C9storeX c := by
  unfold photoStep
  rw [C9X_find2]
  dsimp only
  rw [if_neg (by decide : ¬ (C9childX.isActive = false)),
    if_neg (by decide : ¬ (C9childX.type ≠ NodeType.LEAF ∧
      C9childX.childrenIds.length > 0)),
    if_pos (by norm_num [C9childX, C9child, MIN_WATER_FOR_PHOTOSYNTHESIS] :
      C9childX.waterPressure < MIN_WATER_FOR_PHOTOSYNTHESIS)]

theorem C9_photoPass (c : Climate) :
    processPhotosynthesis (C9storeX c) = C9storeX c := by
  show List.foldl (photoStep c) (C9storeX c) [1, 2] = C9storeX c
  rw [List.foldl_cons, C9_photo1, List.foldl_cons, C9_photo2, List.foldl_nil]

theorem C9_resp1 (c : Climate) :
    respStep (C9storeX c) 1 = { C9storeX c with nodes := [C9parentR, C9childX] } := by
  unfold respStep
  rw [C9X_find1]
  dsimp only
  rw [if_neg (by decide : ¬ (C9parentX.isActive = false)),
    if_neg (by norm_num [C9parentX, C9parent, NODE_RESPIRATION_COST] :
      ¬ (C9parentX.sugarStore ≥ NODE_RESPIRATION_COST *
        (1 + C9parentX.radius * 5)))]
  norm_num [Store.updateNode, C9storeX, C9store, C9parentX, C9childX, C9parent,
    C9child, C9parentR, NODE_RESPIRATION_COST, STARVATION_STRESS_RATE,
    max_def, min_def]

theorem C9_resp2 (c : Climate) :
    respStep ({ C9storeX c with nodes := [C9parentR, C9childX] }) 2 = C9storeR c := by
  unfold respStep
  rw [show ({ C9storeX c with nodes := [C9parentR, C9childX] } : Store).find? 2 =
    some C9childX from rfl]
  dsimp only
  rw [if_neg (by decide : ¬ (C9childX.isActive = false)),
    if_neg (by norm_num [C9childX, C9child, NODE_RESPIRATION_COST] :
      ¬ (C9childX.sugarStore ≥ NODE_RESPIRATION_COST *
        (1 + C9childX.radius * 5)))]
  norm_num [Store.updateNode, C9storeX, C9storeR, C9store, C9parentX, C9childX,
    C9parent, C9child, C9parentR, C9childR, NODE_RESPIRATION_COST,
    STARVATION_STRESS_RATE, max_def, min_def]

theorem C9_respPass (c : Climate) : processRespiration (C9storeX c) = C9storeR c := by
  show List.foldl respStep (C9storeX c) [1, 2] = C9storeR c
  rw [List.foldl_cons, C9_resp1, List.foldl_cons, C9_resp2, List.foldl_nil]

theorem C9_stress1 (c : Climate) :
    stressStep (C9storeR c) 1 = { C9storeR c with nodes := [C9parentF, C9childR] } := by
  unfold stressStep
  rw [show (C9storeR c).find? 1 = some C9parentR from rfl]
  dsimp only
  rw [if_neg (by decide : ¬ (C9parentR.isActive = false)),
    if_neg (by norm_num [C9parentR, C9parentX, C9parent, stressDelta,
      DEHYDRATION_STRESS_RATE, HEALTH_RECOVERY_RATE, STRESS_DEATH_THRESHOLD,
      max_def, min_def] :
      ¬ (max 0 (min 1 (C9parentR.stressLevel + stressDelta C9parentR)) ≥
        STRESS_DEATH_THRESHOLD))]
  norm_num [Store.updateNode, C9storeR, C9store, C9parentR, C9childR, C9parentF,
    C9parentX, C9childX, C9parent, C9child, stressDelta,
    DEHYDRATION_STRESS_RATE, HEALTH_RECOVERY_RATE, max_def, min_def]

theorem C9_stress2 (c : Climate) :
    stressStep ({ C9storeR c with nodes := [C9parentF, C9childR] }) 2 =
      C9storeF c := by
  unfold stressStep
  rw [show ({ C9storeR c with nodes := [C9parentF, C9childR] } : Store).find? 2 =
    some C9childR from rfl]
  dsimp only
  rw [if_neg (by decide : ¬ (C9childR.isActive = false)),
    if_neg (by norm_num [C9childR, C9childX, C9child, stressDelta,
      DEHYDRATION_STRESS_RATE, HEALTH_RECOVERY_RATE, STRESS_DEATH_THRESHOLD,
      max_def, min_def] :
      ¬ (max 0 (min 1 (C9childR.stressLevel + stressDelta C9childR)) ≥
        STRESS_DEATH_THRESHOLD))]
  norm_num [Store.updateNode, C9storeR, C9storeF, C9store, C9parentR, C9childR,
    C9parentF, C9childF, C9parentX, C9childX, C9parent, C9child, stressDelta,
    DEHYDRATION_STRESS_RATE, HEALTH_RECOVERY_RATE, max_def, min_def]

theorem C9_stressPass (c : Climate) :
    processStressAndHealth (C9storeR c) = C9storeF c := by
  show List.foldl stressStep (C9storeR c) [1, 2] = C9storeF c
  rw [List.foldl_cons, C9_stress1, List.foldl_cons, C9_stress2, List.foldl_nil]

theorem tickSim_C9 (cl c : Climate) :
    tickSim (C9store cl) c = { C9storeF c with
      climate := { c with tick := c.tick + 1 } } := by
  unfold tickSim updateMetabolism updateHydraulics
  rw [show ({ C9store cl with climate := c } : Store) = C9store c from rfl,
    C9_transpPass, C9_uptakePass, C9_xylemPass, C9_phloemPass, C9_photoPass,
    C9_respPass, C9_stressPass]
  rfl

/-- Claim C9: on the two-segment chain with parent pressure 9/10, child
pressure 1/10 and radii 2/100 (flow threshold FLOW_THRESHOLD = 3/1000), one
simulation tick — for every climate outcome the tick's random rolls can
produce, the flow markers being a separate cosmetic subsystem — leaves the
two segments with a strictly smaller absolute pressure gap than before
(2461/3125 against the initial 8/10). -/
theorem claim_C9_gap_shrinks (c : Climate) :
    ∃ p q, (tickSim (C9store (CXclimate 0)) c).find? 1 = some p ∧
      (tickSim (C9store (CXclimate 0)) c).find? 2 = some q ∧
      |p.waterPressure - q.waterPressure| <
        |C9parent.waterPressure - C9child.waterPressure| := by
  refine ⟨C9parentF, C9childF, ?_, ?_, ?_⟩
  · rw [tickSim_C9]
    rfl
  · rw [tickSim_C9]
    rfl
  · simp only [C9parentF, C9childF, C9parentX, C9childX, C9parent, C9child]
    rw [abs_of_pos (by norm_num), abs_of_pos (by norm_num)]
    norm_num

/-! Claim C8: the rooted subtree.  `AncP R t y` says the parent chain from id
y (inside node list R) reaches id t — t is an ancestor-or-self of y — and the
subtree of t is the set of ids t is an ancestor-or-self of.  `subtreeIds`
computes it downward through the children lists, with fuel, mirroring the
recursion of removeNode. -/

inductive AncP (R : List PlantNode) (t : Nat) : Nat → Prop
  | refl : AncP R t t
  | step (y p : Nat) (m : PlantNode) (hm : m ∈ R) (hid : m.id = y)
      (hp : m.parentId = some p) (h : AncP R t p) : AncP R t y

def subtreeIds (R : List PlantNode) : Nat → Nat → List Nat
  | 0, _ => []
  | fuel + 1, t =>
    match R.find? (fun n => n.id == t) with
    | none => [t]
    | some n => t :: n.childrenIds.foldl (fun acc c => acc ++ subtreeIds R fuel c) []

theorem anc_trans {R : List PlantNode} {a b y : Nat} (h1 : AncP R a b)
    (h2 : AncP R b y) : AncP R a y := by
  induction h2 with
  | refl => exact h1
  | step y p m hm hid hp h ih => exact AncP.step y p m hm hid hp ih

theorem anc_depth {R : List PlantNode} {t y : Nat} (dep : Nat → Nat)
    (hd : ∀ m ∈ R, ∀ p, m.parentId = some p → ∀ q ∈ R, q.id = p →
      dep m.id = dep q.id + 1)
    (hpm : ∀ m ∈ R, ∀ p, m.parentId = some p → ∃ q ∈ R, q.id = p)
    (h : AncP R t y) : y = t ∨ dep t < dep y := by
  induction h with
  | refl => exact Or.inl rfl
  | step y p m hm hid hp h ih =>
    right
    obtain ⟨q, hq, hqid⟩ := hpm m hm p hp
    have hdy : dep y = dep p + 1 := by
      have := hd m hm p hp q hq hqid
      rw [hid] at this
      rw [this, hqid]
    rcases ih with h1 | h1
    · rw [h1] at hdy
      omega
    · omega

theorem anc_comparable {R : List PlantNode} {c1 c2 y : Nat}
    (hnd : (R.map (fun n => n.id)).Nodup)
    (h1 : AncP R c1 y) (h2 : AncP R c2 y) : AncP R c1 c2 ∨ AncP R c2 c1 := by
  induction h1 with
  | refl => exact Or.inr h2
  | step y p m hm hid hp h ih =>
    cases h2 with
    | refl => exact Or.inl (AncP.step _ p m hm hid hp h)
    | step y p' m' hm' hid' hp' h' =>
      have hmm : m = m' := List.inj_on_of_nodup_map hnd hm hm'
        (hid.trans hid'.symm)
      have hpp : p = p' := by
        rw [hmm] at hp
        rw [hp] at hp'
        exact Option.some.inj hp'
      exact ih (hpp ▸ h')

theorem foldl_append_mem {α β : Type} [DecidableEq β] (f : α → List β) :
    ∀ (l : List α) (init : List β) (a : β),
      a ∈ l.foldl (fun acc c => acc ++ f c) init ↔
        a ∈ init ∨ ∃ c ∈ l, a ∈ f c := by
  intro l
  induction l with
  | nil => intro init a; simp
  | cons c l ih =>
    intro init a
    rw [List.foldl_cons, ih]
    constructor
    · rintro (h | h)
      · rw [List.mem_append] at h
        rcases h with h | h
        · exact Or.inl h
        · exact Or.inr ⟨c, List.mem_cons_self c l, h⟩
      · obtain ⟨c', hc', ha⟩ := h
        exact Or.inr ⟨c', List.mem_cons_of_mem c hc', ha⟩
    · rintro (h | ⟨c', hc', ha⟩)
      · exact Or.inl (List.mem_append.mpr (Or.inl h))
      · rcases List.mem_cons.mp hc' with rfl | hc'
        · exact Or.inl (List.mem_append.mpr (Or.inr ha))
        · exact Or.inr ⟨c', hc', ha⟩

theorem anc_child {R : List PlantNode}
    (hcm : ∀ n ∈ R, ∀ c ∈ n.childrenIds, ∃ m ∈ R, m.id = c)
    (hcp : ∀ n ∈ R, ∀ c ∈ n.childrenIds, ∀ m ∈ R, m.id = c →
      m.parentId = some n.id)
    {t c : Nat} {n : PlantNode} (hn : n ∈ R) (hnid : n.id = t)
    (hc : c ∈ n.childrenIds) : AncP R t c := by
  obtain ⟨mc, hmc, hmcid⟩ := hcm n hn c hc
  have hpar : mc.parentId = some t := by
    have h1 := hcp n hn c hc mc hmc hmcid
    rw [hnid] at h1
    exact h1
  exact AncP.step c t mc hmc hmcid hpar AncP.refl

theorem anc_decomp {R : List PlantNode} {rootT : Nat}
    (hpc : ∀ m ∈ R, ∀ p, m.parentId = some p → ∀ q ∈ R, q.id = p →
      AncP R rootT p → m.id ∈ q.childrenIds)
    {t y : Nat} {n : PlantNode} (hn : n ∈ R) (hnid : n.id = t)
    (hroot : AncP R rootT t) (h : AncP R t y) :
    y = t ∨ ∃ c ∈ n.childrenIds, AncP R c y := by
  induction h with
  | refl => exact Or.inl rfl
  | step y p m hm hid hp h ih =>
    rcases ih with rfl | ⟨c, hcmem, hanc⟩
    · right
      have hmem : m.id ∈ n.childrenIds := hpc m hm p hp n hn (hnid.trans rfl) hroot
      exact ⟨y, hid ▸ hmem, AncP.refl⟩
    · right
      exact ⟨c, hcmem, AncP.step y p m hm hid hp hanc⟩

theorem subtree_mem {R : List PlantNode} {rootT : Nat} {dep : Nat → Nat}
    (hnd : (R.map (fun n => n.id)).Nodup)
    (hcm : ∀ n ∈ R, ∀ c ∈ n.childrenIds, ∃ m ∈ R, m.id = c)
    (hcp : ∀ n ∈ R, ∀ c ∈ n.childrenIds, ∀ m ∈ R, m.id = c →
      m.parentId = some n.id)
    (hpc : ∀ m ∈ R, ∀ p, m.parentId = some p → ∀ q ∈ R, q.id = p →
      AncP R rootT p → m.id ∈ q.childrenIds)
    (hd : ∀ m ∈ R, ∀ p, m.parentId = some p → ∀ q ∈ R, q.id = p →
      dep m.id = dep q.id + 1) :
    ∀ (fuel : Nat) (t : Nat), AncP R rootT t → (∃ n ∈ R, n.id = t) →
    (∀ m ∈ R, AncP R t m.id → dep m.id < dep t + fuel) →
    ∀ y, y ∈ subtreeIds R fuel t ↔ (AncP R t y ∧ ∃ m ∈ R, m.id = y) := by
  intro fuel
  induction fuel with
  | zero =>
    rintro t hroot ⟨n, hn, hnid⟩ hfuel y
    exfalso
    have h1 := hfuel n hn (by rw [hnid]; exact AncP.refl)
    rw [hnid] at h1
    omega
  | succ fuel ih =>
    rintro t hroot ⟨n, hn, hnid⟩ hfuel y
    cases hf : R.find? (fun m => m.id == t) with
    | none =>
      exfalso
      have h1 := List.find?_eq_none.mp hf n hn
      simp [hnid] at h1
    | some n' =>
      have hn' : n' ∈ R := List.mem_of_find?_eq_some hf
      have hn'id : n'.id = t := by simpa using List.find?_some hf
      have hsub : subtreeIds R (fuel + 1) t =
          t :: n'.childrenIds.foldl (fun acc c => acc ++ subtreeIds R fuel c) [] := by
        simp only [subtreeIds]
        rw [hf]
      have hchild : ∀ c ∈ n'.childrenIds,
          AncP R t c ∧ (∃ m ∈ R, m.id = c) ∧ dep c = dep t + 1 := by
        intro c hc
        obtain ⟨mc, hmc, hmcid⟩ := hcm n' hn' c hc
        have hpar : mc.parentId = some t := by
          have h1 := hcp n' hn' c hc mc hmc hmcid
          rw [hn'id] at h1
          exact h1
        refine ⟨anc_child hcm hcp hn' hn'id hc, ⟨mc, hmc, hmcid⟩, ?_⟩
        have h2 := hd mc hmc t hpar n' hn' hn'id
        rw [hmcid, hn'id] at h2
        exact h2
      have hrec : ∀ c ∈ n'.childrenIds, ∀ y',
          y' ∈ subtreeIds R fuel c ↔ (AncP R c y' ∧ ∃ m ∈ R, m.id = y') := by
        intro c hc
        obtain ⟨hanc_tc, hpres_c, hdep_c⟩ := hchild c hc
        refine ih c (anc_trans hroot hanc_tc) hpres_c ?_
        intro m hm hancm
        have h3 := hfuel m hm (anc_trans hanc_tc hancm)
        omega
      rw [hsub, List.mem_cons, foldl_append_mem]
      simp only [List.not_mem_nil, false_or]
      constructor
      · rintro (rfl | ⟨c, hc, hyc⟩)
        · exact ⟨AncP.refl, ⟨n', hn', hn'id⟩⟩
        · obtain ⟨hancy, hpres⟩ := (hrec c hc y).mp hyc
          exact ⟨anc_trans (hchild c hc).1 hancy, hpres⟩
      · rintro ⟨hanc, hpres⟩
        rcases anc_decomp hpc hn' hn'id hroot hanc with rfl | ⟨c, hc, hancc⟩
        · exact Or.inl rfl
        · exact Or.inr ⟨c, hc, (hrec c hc y).mpr ⟨hancc, hpres⟩⟩

set_option maxHeartbeats 1000000 in
/-- The recursion of removeNode deletes, from any list L that still holds the
whole subtree, exactly the members of the subtree of t — provided the ids are
unique, the child/parent tables are consistent (parent-to-child possibly
broken at the detached root, which no subtree parent reaches), and the fuel
covers the subtree's depth range. -/
theorem removeRec_spec {R : List PlantNode} {rootT : Nat} {dep : Nat → Nat}
    (hnd : (R.map (fun n => n.id)).Nodup)
    (hcm : ∀ n ∈ R, ∀ c ∈ n.childrenIds, ∃ m ∈ R, m.id = c)
    (hcp : ∀ n ∈ R, ∀ c ∈ n.childrenIds, ∀ m ∈ R, m.id = c →
      m.parentId = some n.id)
    (hcn : ∀ n ∈ R, n.childrenIds.Nodup)
    (hpm : ∀ m ∈ R, ∀ p, m.parentId = some p → ∃ q ∈ R, q.id = p)
    (hpc : ∀ m ∈ R, ∀ p, m.parentId = some p → ∀ q ∈ R, q.id = p →
      AncP R rootT p → m.id ∈ q.childrenIds)
    (hd : ∀ m ∈ R, ∀ p, m.parentId = some p → ∀ q ∈ R, q.id = p →
      dep m.id = dep q.id + 1) :
    ∀ (fuel : Nat) (t : Nat) (L : List PlantNode), L.Sublist R →
    AncP R rootT t →
    (∃ n, n ∈ L ∧ n.id = t) →
    (∀ m ∈ R, AncP R t m.id → m ∈ L) →
    (∀ m ∈ R, AncP R t m.id → dep m.id < dep t + fuel) →
    (removeRec fuel L t).Sublist L ∧
    (∀ m ∈ R, (m ∈ removeRec fuel L t ↔ m ∈ L ∧ ¬ AncP R t m.id)) := by
  intro fuel
  induction fuel with
  | zero =>
    rintro t L hLsub hroot ⟨n, hnL, hnid⟩ hsubL hfuel
    exfalso
    have h1 := hfuel n (hLsub.subset hnL) (by rw [hnid]; exact AncP.refl)
    rw [hnid] at h1
    omega
  | succ fuel ih =>
    rintro t L hLsub hroot ⟨n, hnL, hnid⟩ hsubL hfuel
    cases hf : L.find? (fun m => m.id == t) with
    | none =>
      exfalso
      have h1 := List.find?_eq_none.mp hf n hnL
      simp [hnid] at h1
    | some n' =>
      have hn'L : n' ∈ L := List.mem_of_find?_eq_some hf
      have hn'R : n' ∈ R := hLsub.subset hn'L
      have hn'id : n'.id = t := by simpa using List.find?_some hf
      have hstep : removeRec (fuel + 1) L t =
          (n'.childrenIds.foldl (fun acc c => removeRec fuel acc c) L).filter
            (fun m => m.id != t) := by
        simp only [removeRec]
        rw [hf]
      have childdep : ∀ c ∈ n'.childrenIds, dep c = dep t + 1 := by
        intro c hc
        obtain ⟨mc, hmc, hmcid⟩ := hcm n' hn'R c hc
        have hpar : mc.parentId = some t := by
          have h1 := hcp n' hn'R c hc mc hmc hmcid
          rw [hn'id] at h1
          exact h1
        have h2 := hd mc hmc t hpar n' hn'R hn'id
        rw [hmcid, hn'id] at h2
        exact h2
      have hsib : ∀ c' ∈ n'.childrenIds, ∀ y ∈ n'.childrenIds, c' ≠ y →
          ¬ AncP R c' y := by
        intro c' hc' y hy hne hanc
        have hd1 := childdep c' hc'
        have hd2 := childdep y hy
        rcases anc_depth dep hd hpm hanc with h | h
        · exact hne h.symm
        · omega
      have hfold : ∀ (todo done : List Nat) (Lk : List PlantNode),
          n'.childrenIds = done ++ todo →
          Lk.Sublist L →
          (∀ m ∈ R, m ∈ Lk ↔ m ∈ L ∧ ∀ c ∈ done, ¬ AncP R c m.id) →
          (todo.foldl (fun acc c => removeRec fuel acc c) Lk).Sublist L ∧
          (∀ m ∈ R, m ∈ todo.foldl (fun acc c => removeRec fuel acc c) Lk ↔
            m ∈ L ∧ ∀ c ∈ done ++ todo, ¬ AncP R c m.id) := by
        intro todo
        induction todo with
        | nil =>
          intro done Lk hsplit hLkSub hmem
          rw [List.foldl_nil]
          refine ⟨hLkSub, ?_⟩
          intro m hm
          rw [hmem m hm]
          simp
        | cons c todo ihtodo =>
          intro done Lk hsplit hLkSub hmem
          rw [List.foldl_cons]
          have hcch : c ∈ n'.childrenIds := by
            rw [hsplit]
            exact List.mem_append.mpr (Or.inr (List.mem_cons_self c todo))
          have hcnotdone : c ∉ done := by
            have hnodup : (done ++ c :: todo).Nodup := hsplit ▸ hcn n' hn'R
            rw [List.nodup_append] at hnodup
            intro hmem2
            exact hnodup.2.2 hmem2 (List.mem_cons_self c todo)
          have hanc_tc : AncP R t c := anc_child hcm hcp hn'R hn'id hcch
          have hroot_c : AncP R rootT c := anc_trans hroot hanc_tc
          have hdep_c := childdep c hcch
          obtain ⟨mc, hmcR, hmcid⟩ := hcm n' hn'R c hcch
          have hmcL : mc ∈ L := hsubL mc hmcR (by rw [hmcid]; exact hanc_tc)
          have hmcLk : mc ∈ Lk := by
            rw [hmem mc hmcR]
            refine ⟨hmcL, ?_⟩
            intro c' hc'done hanc
            rw [hmcid] at hanc
            exact hsib c' (hsplit ▸ List.mem_append.mpr (Or.inl hc'done)) c hcch
              (fun heq => hcnotdone (heq ▸ hc'done)) hanc
          have hLkR : Lk.Sublist R := hLkSub.trans hLsub
          have hsubL_c : ∀ m ∈ R, AncP R c m.id → m ∈ Lk := by
            intro m hm hanc
            rw [hmem m hm]
            refine ⟨hsubL m hm (anc_trans hanc_tc hanc), ?_⟩
            intro c' hc'done hanc'
            have hc'ch : c' ∈ n'.childrenIds :=
              hsplit ▸ List.mem_append.mpr (Or.inl hc'done)
            have hne : c' ≠ c := fun heq => hcnotdone (heq ▸ hc'done)
            rcases anc_comparable hnd hanc' hanc with h | h
            · exact hsib c' hc'ch c hcch hne h
            · exact hsib c hcch c' hc'ch (Ne.symm hne) h
          have hfuel_c : ∀ m ∈ R, AncP R c m.id → dep m.id < dep c + fuel := by
            intro m hm hanc
            have h1 := hfuel m hm (anc_trans hanc_tc hanc)
            omega
          obtain ⟨hsub1, hmem1⟩ := ih c Lk hLkR hroot_c ⟨mc, hmcLk, hmcid⟩
            hsubL_c hfuel_c
          have hsplit' : n'.childrenIds = (done ++ [c]) ++ todo := by
            rw [hsplit, List.append_assoc, List.singleton_append]
          have hmem' : ∀ m ∈ R, m ∈ removeRec fuel Lk c ↔
              m ∈ L ∧ ∀ c' ∈ done ++ [c], ¬ AncP R c' m.id := by
            intro m hm
            rw [hmem1 m hm, hmem m hm]
            constructor
            · rintro ⟨⟨h1, h2⟩, h3⟩
              refine ⟨h1, ?_⟩
              intro c' hc'
              rcases List.mem_append.mp hc' with h | h
              · exact h2 c' h
              · rw [List.mem_singleton] at h
                exact h ▸ h3
            · rintro ⟨h1, h2⟩
              exact ⟨⟨h1, fun c' hc' => h2 c' (List.mem_append.mpr (Or.inl hc'))⟩,
                h2 c (List.mem_append.mpr (Or.inr (List.mem_singleton.mpr rfl)))⟩
          obtain ⟨hsubF, hmemF⟩ := ihtodo (done ++ [c]) (removeRec fuel Lk c)
            hsplit' (hsub1.trans hLkSub) hmem'
          refine ⟨hsubF, ?_⟩
          intro m hm
          rw [hmemF m hm]
          rw [List.append_assoc, List.singleton_append]
      obtain ⟨hsubF, hmemF⟩ := hfold n'.childrenIds [] L (List.nil_append _).symm
        (List.Sublist.refl L) (by intro m hm; simp)
      rw [hstep]
      refine ⟨(List.filter_sublist _).trans hsubF, ?_⟩
      intro m hm
      rw [List.mem_filter, hmemF m hm]
      simp only [List.nil_append, bne_iff_ne, ne_eq]
      constructor
      · rintro ⟨⟨hmL, hch⟩, hne⟩
        refine ⟨hmL, fun hanc => ?_⟩
        rcases anc_decomp hpc hn'R hn'id hroot hanc with heq | ⟨c, hc, hancc⟩
        · exact hne heq
        · exact hch c hc hancc
      · rintro ⟨hmL, hnotanc⟩
        refine ⟨⟨hmL, fun c hc hanc => hnotanc (anc_trans
          (anc_child hcm hcp hn'R hn'id hc) hanc)⟩, fun heq => hnotanc ?_⟩
        rw [heq]
        exact AncP.refl

theorem anc_map_ite {R : List PlantNode} {i : Nat} {f : PlantNode → PlantNode}
    (hfid : ∀ n, (f n).id = n.id) (hfp : ∀ n, (f n).parentId = n.parentId)
    {t y : Nat} :
    AncP (R.map (fun n => if n.id == i then f n else n)) t y ↔ AncP R t y := by
  have gid : ∀ n : PlantNode, (if n.id == i then f n else n).id = n.id := by
    intro n
    by_cases h : (n.id == i) = true
    · rw [if_pos h, hfid]
    · rw [if_neg h]
  have gp : ∀ n : PlantNode,
      (if n.id == i then f n else n).parentId = n.parentId := by
    intro n
    by_cases h : (n.id == i) = true
    · rw [if_pos h, hfp]
    · rw [if_neg h]
  constructor
  · intro h
    induction h with
    | refl => exact AncP.refl
    | step y p m hm hid hp h ih =>
      obtain ⟨m0, hm0, hm0eq⟩ := List.mem_map.mp hm
      refine AncP.step y p m0 hm0 ?_ ?_ ih
      · rw [← gid m0, hm0eq, hid]
      · rw [← gp m0, hm0eq, hp]
  · intro h
    induction h with
    | refl => exact AncP.refl
    | step y p m hm hid hp h ih =>
      refine AncP.step y p (if m.id == i then f m else m)
        (List.mem_map.mpr ⟨m, hm, rfl⟩) ?_ ?_ ih
      · rw [gid m]
        exact hid
      · rw [gp m]
        exact hp

theorem length_filter_split {α : Type} (p : α → Bool) :
    ∀ l : List α,
      (l.filter p).length + (l.filter (fun a => !(p a))).length = l.length := by
  intro l
  induction l with
  | nil => rfl
  | cons a l ih =>
    by_cases h : p a = true
    · rw [List.filter_cons_of_pos h,
        List.filter_cons_of_neg (by rw [h]; decide)]
      simp only [List.length_cons]
      omega
    · rw [List.filter_cons_of_neg h,
        List.filter_cons_of_pos (by rw [Bool.eq_false_iff.mpr h]; decide)]
      simp only [List.length_cons]
      omega

theorem length_eq_of_same_mem {α : Type} [DecidableEq α] {l1 l2 L : List α}
    (h1 : l1.Sublist L) (h2 : l2.Sublist L) (hL : L.Nodup)
    (hmem : ∀ a, a ∈ l1 ↔ a ∈ l2) : l1.length = l2.length := by
  have hn1 : l1.Nodup := hL.sublist h1
  have hn2 : l2.Nodup := hL.sublist h2
  rw [← List.toFinset_card_of_nodup hn1, ← List.toFinset_card_of_nodup hn2]
  congr 1
  ext a
  simp only [List.mem_toFinset]
  exact hmem a

theorem length_filter_map_id {g : PlantNode → PlantNode}
    (hgid : ∀ n, (g n).id = n.id) (p : Nat → Bool) (l : List PlantNode) :
    ((l.map g).filter (fun m => p m.id)).length =
      (l.filter (fun m => p m.id)).length := by
  rw [← List.countP_eq_length_filter, ← List.countP_eq_length_filter,
    List.countP_map]
  apply List.countP_congr
  intro a _
  simp [Function.comp, hgid]

theorem anc_map {R : List PlantNode} {g : PlantNode → PlantNode}
    (hgid : ∀ n, (g n).id = n.id) (hgp : ∀ n, (g n).parentId = n.parentId)
    {t y : Nat} : AncP (R.map g) t y ↔ AncP R t y := by
  constructor
  · intro h
    induction h with
    | refl => exact AncP.refl
    | step y p m hm hid hp h ih =>
      obtain ⟨m0, hm0, hm0eq⟩ := List.mem_map.mp hm
      refine AncP.step y p m0 hm0 ?_ ?_ ih
      · rw [← hgid m0, hm0eq, hid]
      · rw [← hgp m0, hm0eq, hp]
  · intro h
    induction h with
    | refl => exact AncP.refl
    | step y p m hm hid hp h ih =>
      refine AncP.step y p (g m) (List.mem_map.mpr ⟨m, hm, rfl⟩) ?_ ?_ ih
      · rw [hgid m]
        exact hid
      · rw [hgp m]
        exact hp

/-- The well-formedness of a store's node graph that removeSegment's
recursion relies on: unique ids, child lists and parent pointers that agree
in both directions and without duplicates, and a depth function certifying
acyclicity, bounded by the store size. -/
structure WFStore (s : Store) : Prop where
  nodup : (s.nodes.map (fun n => n.id)).Nodup
  childMem : ∀ n ∈ s.nodes, ∀ c ∈ n.childrenIds, ∃ m ∈ s.nodes, m.id = c
  childParent : ∀ n ∈ s.nodes, ∀ c ∈ n.childrenIds, ∀ m ∈ s.nodes, m.id = c →
    m.parentId = some n.id
  childNodup : ∀ n ∈ s.nodes, n.childrenIds.Nodup
  parentMem : ∀ m ∈ s.nodes, ∀ p, m.parentId = some p → ∃ q ∈ s.nodes, q.id = p
  parentChild : ∀ m ∈ s.nodes, ∀ p, m.parentId = some p → ∀ q ∈ s.nodes,
    q.id = p → m.id ∈ q.childrenIds
  depth : ∃ dp : Nat → Nat, (∀ m ∈ s.nodes, ∀ p, m.parentId = some p →
    ∀ q ∈ s.nodes, q.id = p → dp m.id = dp q.id + 1) ∧
    ∀ m ∈ s.nodes, dp m.id < s.nodes.length

set_option maxHeartbeats 1000000 in
/-- Counting core for removeNode: on the (possibly parent-detached) node list
`s.nodes.map g`, the recursion removes exactly the subtree of `id` as computed
by `subtreeIds` on the original nodes, so the lengths add up. -/
theorem removeNode_core {s : Store} {id : Nat} {node : PlantNode} {dp : Nat → Nat}
    (hwf : WFStore s)
    (hdp : ∀ m ∈ s.nodes, ∀ p, m.parentId = some p → ∀ q ∈ s.nodes, q.id = p →
      dp m.id = dp q.id + 1)
    (hdpb : ∀ m ∈ s.nodes, dp m.id < s.nodes.length)
    (hfind : s.find? id = some node)
    (g : PlantNode → PlantNode)
    (hgid : ∀ n, (g n).id = n.id)
    (hgp : ∀ n, (g n).parentId = n.parentId)
    (hgch : ∀ n, ∀ c ∈ (g n).childrenIds, c ∈ n.childrenIds)
    (hgchn : ∀ n, n.childrenIds.Nodup → (g n).childrenIds.Nodup)
    (hpc1 : ∀ m ∈ s.nodes.map g, ∀ p, m.parentId = some p →
      ∀ q ∈ s.nodes.map g, q.id = p → AncP (s.nodes.map g) id p →
      m.id ∈ q.childrenIds) :
    (removeRec (s.nodes.map g).length (s.nodes.map g) id).length +
      (s.nodes.filter (fun m =>
        (subtreeIds s.nodes s.nodes.length id).contains m.id)).length
      = s.nodes.length ∧
    (∀ m ∈ removeRec (s.nodes.map g).length (s.nodes.map g) id,
      (subtreeIds s.nodes s.nodes.length id).contains m.id = false) ∧
    (∀ m ∈ s.nodes,
      (subtreeIds s.nodes s.nodes.length id).contains m.id = false →
      ∃ m', m' ∈ removeRec (s.nodes.map g).length (s.nodes.map g) id ∧
        m'.id = m.id) := by
  have hnodeR : node ∈ s.nodes := mem_of_find? hfind
  have hnodeid : node.id = id := by
    have h2 : s.nodes.find? (fun n => n.id == id) = some node := hfind
    simpa using List.find?_some h2
  have hids : (s.nodes.map g).map (fun n => n.id) = s.nodes.map (fun n => n.id) := by
    rw [List.map_map]
    exact List.map_congr_left (fun n _ => hgid n)
  have hnd1 : ((s.nodes.map g).map (fun n => n.id)).Nodup := by
    rw [hids]
    exact hwf.nodup
  have hcm1 : ∀ n ∈ s.nodes.map g, ∀ c ∈ n.childrenIds,
      ∃ m ∈ s.nodes.map g, m.id = c := by
    intro n hn c hc
    obtain ⟨n0, hn0, rfl⟩ := List.mem_map.mp hn
    obtain ⟨m0, hm0, hm0id⟩ := hwf.childMem n0 hn0 c (hgch n0 c hc)
    exact ⟨g m0, List.mem_map.mpr ⟨m0, hm0, rfl⟩, (hgid m0).trans hm0id⟩
  have hcp1 : ∀ n ∈ s.nodes.map g, ∀ c ∈ n.childrenIds, ∀ m ∈ s.nodes.map g,
      m.id = c → m.parentId = some n.id := by
    intro n hn c hc m hm hmid
    obtain ⟨n0, hn0, rfl⟩ := List.mem_map.mp hn
    obtain ⟨m0, hm0, rfl⟩ := List.mem_map.mp hm
    rw [hgp, hgid]
    exact hwf.childParent n0 hn0 c (hgch n0 c hc) m0 hm0
      ((hgid m0).symm.trans hmid)
  have hcn1 : ∀ n ∈ s.nodes.map g, n.childrenIds.Nodup := by
    intro n hn
    obtain ⟨n0, hn0, rfl⟩ := List.mem_map.mp hn
    exact hgchn n0 (hwf.childNodup n0 hn0)
  have hpm1 : ∀ m ∈ s.nodes.map g, ∀ p, m.parentId = some p →
      ∃ q ∈ s.nodes.map g, q.id = p := by
    intro m hm p hp
    obtain ⟨m0, hm0, rfl⟩ := List.mem_map.mp hm
    rw [hgp] at hp
    obtain ⟨q0, hq0, hq0id⟩ := hwf.parentMem m0 hm0 p hp
    exact ⟨g q0, List.mem_map.mpr ⟨q0, hq0, rfl⟩, (hgid q0).trans hq0id⟩
  have hd1 : ∀ m ∈ s.nodes.map g, ∀ p, m.parentId = some p →
      ∀ q ∈ s.nodes.map g, q.id = p → dp m.id = dp q.id + 1 := by
    intro m hm p hp q hq hqid
    obtain ⟨m0, hm0, rfl⟩ := List.mem_map.mp hm
    obtain ⟨q0, hq0, rfl⟩ := List.mem_map.mp hq
    rw [hgp] at hp
    rw [hgid] at hqid
    rw [hgid m0, hgid q0]
    exact hdp m0 hm0 p hp q0 hq0 hqid
  have hfuel1 : ∀ m ∈ s.nodes.map g, AncP (s.nodes.map g) id m.id →
      dp m.id < dp id + (s.nodes.map g).length := by
    intro m hm _
    obtain ⟨m0, hm0, rfl⟩ := List.mem_map.mp hm
    rw [hgid]
    have h3 := hdpb m0 hm0
    rw [List.length_map]
    omega
  obtain ⟨hsubF, hmemF⟩ := removeRec_spec hnd1 hcm1 hcp1 hcn1 hpm1 hpc1 hd1
    (s.nodes.map g).length id (s.nodes.map g) (List.Sublist.refl _) AncP.refl
    ⟨g node, List.mem_map.mpr ⟨node, hnodeR, rfl⟩, (hgid node).trans hnodeid⟩
    (fun m hm _ => hm) hfuel1
  have hsubmem := subtree_mem hwf.nodup hwf.childMem hwf.childParent
    (fun m hm p hp q hq hqid _ => hwf.parentChild m hm p hp q hq hqid)
    hdp s.nodes.length id AncP.refl ⟨node, hnodeR, hnodeid⟩
    (fun m hm _ => by have h3 := hdpb m hm; omega)
  have hcont : ∀ y, ((subtreeIds s.nodes s.nodes.length id).contains y = true) ↔
      (AncP s.nodes id y ∧ ∃ m ∈ s.nodes, m.id = y) := by
    intro y
    rw [show ((subtreeIds s.nodes s.nodes.length id).contains y = true) ↔
      y ∈ subtreeIds s.nodes s.nodes.length id from by simp [List.elem_iff]]
    exact hsubmem y
  have hancIff : ∀ y, AncP (s.nodes.map g) id y ↔ AncP s.nodes id y :=
    fun y => anc_map hgid hgp
  have hKmem : ∀ m, m ∈ removeRec (s.nodes.map g).length (s.nodes.map g) id ↔
      m ∈ (s.nodes.map g).filter
        (fun m => !((subtreeIds s.nodes s.nodes.length id).contains m.id)) := by
    intro m
    constructor
    · intro hmF
      have hmR1 : m ∈ s.nodes.map g := hsubF.subset hmF
      obtain ⟨hmR1', hnot⟩ := (hmemF m hmR1).mp hmF
      rw [List.mem_filter]
      refine ⟨hmR1, ?_⟩
      cases hct : (subtreeIds s.nodes s.nodes.length id).contains m.id with
      | false => rfl
      | true =>
        exfalso
        exact hnot ((hancIff m.id).mpr ((hcont m.id).mp hct).1)
    · intro hmK
      rw [List.mem_filter] at hmK
      obtain ⟨hmR1, hbool⟩ := hmK
      refine (hmemF m hmR1).mpr ⟨hmR1, ?_⟩
      intro hanc
      obtain ⟨m0, hm0, rfl⟩ := List.mem_map.mp hmR1
      have h2 : (subtreeIds s.nodes s.nodes.length id).contains (g m0).id = true :=
        (hcont (g m0).id).mpr ⟨(hancIff (g m0).id).mp hanc,
          ⟨m0, hm0, (hgid m0).symm⟩⟩
      rw [h2] at hbool
      exact absurd hbool (by decide)
  have hnodupEl : (s.nodes.map g).Nodup := List.Nodup.of_map _ hnd1
  have hlenEq : (removeRec (s.nodes.map g).length (s.nodes.map g) id).length =
      ((s.nodes.map g).filter
        (fun m => !((subtreeIds s.nodes s.nodes.length id).contains m.id))).length :=
    length_eq_of_same_mem hsubF (List.filter_sublist _) hnodupEl hKmem
  have hlen2 := length_filter_map_id hgid
    (fun y => !((subtreeIds s.nodes s.nodes.length id).contains y)) s.nodes
  have hlen3 := length_filter_split
    (fun m : PlantNode => (subtreeIds s.nodes s.nodes.length id).contains m.id)
    s.nodes
  refine ⟨?_, ?_, ?_⟩
  · rw [hlenEq, hlen2]
    omega
  · intro m hmF
    have hm := (hKmem m).mp hmF
    rw [List.mem_filter] at hm
    have hb := hm.2
    cases hct : (subtreeIds s.nodes s.nodes.length id).contains m.id with
    | false => rfl
    | true =>
      rw [hct] at hb
      exact absurd hb (by decide)
  · intro m hm hcf
    refine ⟨g m, ?_, hgid m⟩
    refine (hmemF (g m) (List.mem_map.mpr ⟨m, hm, rfl⟩)).mpr
      ⟨List.mem_map.mpr ⟨m, hm, rfl⟩, ?_⟩
    intro hanc
    have h2 : (subtreeIds s.nodes s.nodes.length id).contains (g m).id = true :=
      (hcont (g m).id).mpr ⟨(hancIff (g m).id).mp hanc, ⟨m, hm, (hgid m).symm⟩⟩
    rw [hgid] at h2
    rw [h2] at hcf
    exact absurd hcf (by decide)

set_option maxHeartbeats 1000000 in
/-- Claim C8: on a well-formed store, removeSegment refuses the seed and
leaves the store untouched; on any other present segment it deletes exactly
the rooted subtree — the kept entries are exactly those outside the subtree
(by id) — so the segment count drops by exactly the subtree's size N. -/
theorem claim_C8_remove_subtree (s : Store) (id : Nat) (hwf : WFStore s) :
    (∀ node, s.find? id = some node → node.type = NodeType.SEED →
      removeNode s id = (s, false)) ∧
    (∀ node, s.find? id = some node → node.type ≠ NodeType.SEED →
      (removeNode s id).2 = true ∧
      ((removeNode s id).1.nodes.length +
        (s.nodes.filter (fun m =>
          (subtreeIds s.nodes s.nodes.length id).contains m.id)).length
        = s.nodes.length) ∧
      (∀ m ∈ (removeNode s id).1.nodes,
        (subtreeIds s.nodes s.nodes.length id).contains m.id = false) ∧
      (∀ m ∈ s.nodes,
        (subtreeIds s.nodes s.nodes.length id).contains m.id = false →
        ∃ m', m' ∈ (removeNode s id).1.nodes ∧ m'.id = m.id)) := by
  constructor
  · intro node hfind htype
    unfold removeNode
    rw [hfind]
    dsimp only
    rw [if_pos (show (node.type == NodeType.SEED) = true by rw [htype]; rfl)]
  · intro node hfind htype
    have hbneg : ¬ (node.type == NodeType.SEED) = true := by
      intro h
      exact htype (by simpa using h)
    obtain ⟨dp, hdp, hdpb⟩ := hwf.depth
    have hnodeR : node ∈ s.nodes := mem_of_find? hfind
    have hnodeid : node.id = id := by
      have h2 : s.nodes.find? (fun n => n.id == id) = some node := hfind
      simpa using List.find?_some h2
    cases hpar : node.parentId with
    | none =>
      have hflag : (removeNode s id).2 = true := by
        unfold removeNode
        rw [hfind]
        dsimp only
        rw [if_neg hbneg, hpar]
      have hnodes : (removeNode s id).1.nodes =
          removeRec s.nodes.length s.nodes id := by
        unfold removeNode
        rw [hfind]
        dsimp only
        rw [if_neg hbneg, hpar]
      have hmapid : s.nodes.map (fun n => n) = s.nodes := List.map_id' s.nodes
      have hpcid : ∀ m ∈ s.nodes.map (fun n => n), ∀ p, m.parentId = some p →
          ∀ q ∈ s.nodes.map (fun n => n), q.id = p →
          AncP (s.nodes.map (fun n => n)) id p → m.id ∈ q.childrenIds := by
        rw [hmapid]
        exact fun m hm p hp q hq hqid _ => hwf.parentChild m hm p hp q hq hqid
      obtain ⟨hc1, hc2, hc3⟩ := removeNode_core hwf hdp hdpb hfind (fun n => n)
        (fun n => rfl) (fun n => rfl) (fun n c hc => hc) (fun n h => h) hpcid
      rw [hmapid] at hc1 hc2 hc3
      rw [hflag, hnodes]
      exact ⟨rfl, hc1, hc2, hc3⟩
    | some pid =>
      have hflag : (removeNode s id).2 = true := by
        unfold removeNode
        rw [hfind]
        dsimp only
        rw [if_neg hbneg, hpar]
      have hgid : ∀ n : PlantNode, ((fun n : PlantNode =>
          if n.id == pid then
            { n with childrenIds := n.childrenIds.filter (fun i => i != id) }
          else n) n).id = n.id := by
        intro n
        by_cases h : (n.id == pid) = true
        · simp only [h, if_pos]
        · simp only [h, if_neg, Bool.false_eq_true, not_false_iff]
      have hgp : ∀ n : PlantNode, ((fun n : PlantNode =>
          if n.id == pid then
            { n with childrenIds := n.childrenIds.filter (fun i => i != id) }
          else n) n).parentId = n.parentId := by
        intro n
        by_cases h : (n.id == pid) = true
        · simp only [h, if_pos]
        · simp only [h, if_neg, Bool.false_eq_true, not_false_iff]
      have hnodes : (removeNode s id).1.nodes =
          removeRec (s.nodes.map (fun n : PlantNode =>
            if n.id == pid then
              { n with childrenIds := n.childrenIds.filter (fun i => i != id) }
            else n)).length
            (s.nodes.map (fun n : PlantNode =>
              if n.id == pid then
                { n with childrenIds := n.childrenIds.filter (fun i => i != id) }
              else n)) id := by
        unfold removeNode
        rw [hfind]
        dsimp only
        rw [if_neg hbneg, hpar]
        dsimp only [Store.updateNode]
      have hgch : ∀ n : PlantNode, ∀ c ∈ ((fun n : PlantNode =>
          if n.id == pid then
            { n with childrenIds := n.childrenIds.filter (fun i => i != id) }
          else n) n).childrenIds, c ∈ n.childrenIds := by
        intro n c hc
        by_cases h : (n.id == pid) = true
        · simp only [h, if_pos] at hc
          exact List.mem_of_mem_filter hc
        · simp only [h, if_neg, Bool.false_eq_true, not_false_iff] at hc
          exact hc
      have hgchn : ∀ n : PlantNode, n.childrenIds.Nodup → ((fun n : PlantNode =>
          if n.id == pid then
            { n with childrenIds := n.childrenIds.filter (fun i => i != id) }
          else n) n).childrenIds.Nodup := by
        intro n hn
        by_cases h : (n.id == pid) = true
        · simp only [h, if_pos]
          exact hn.filter _
        · simp only [h, if_neg, Bool.false_eq_true, not_false_iff]
          exact hn
      have hpc1 : ∀ m ∈ s.nodes.map (fun n : PlantNode =>
          if n.id == pid then
            { n with childrenIds := n.childrenIds.filter (fun i => i != id) }
          else n), ∀ p, m.parentId = some p →
          ∀ q ∈ s.nodes.map (fun n : PlantNode =>
            if n.id == pid then
              { n with childrenIds := n.childrenIds.filter (fun i => i != id) }
            else n), q.id = p →
          AncP (s.nodes.map (fun n : PlantNode =>
            if n.id == pid then
              { n with childrenIds := n.childrenIds.filter (fun i => i != id) }
            else n)) id p → m.id ∈ q.childrenIds := by
        intro m hm p hp q hq hqid hancp
        obtain ⟨m0, hm0, rfl⟩ := List.mem_map.mp hm
        obtain ⟨q0, hq0, rfl⟩ := List.mem_map.mp hq
        have hp0 : m0.parentId = some p := by rw [← hgp m0]; exact hp
        have hq0id : q0.id = p := by rw [← hgid q0]; exact hqid
        have hbase := hwf.parentChild m0 hm0 p hp0 q0 hq0 hq0id
        rw [hgid m0]
        by_cases hq0pid : (q0.id == pid) = true
        · have hch : ((fun n : PlantNode =>
              if n.id == pid then
                { n with childrenIds := n.childrenIds.filter (fun i => i != id) }
              else n) q0).childrenIds = q0.childrenIds.filter (fun i => i != id) := by
            simp only [hq0pid, if_pos]
          rw [hch, List.mem_filter]
          refine ⟨hbase, ?_⟩
          rw [bne_iff_ne, ne_eq]
          intro heq
          have hm0node : m0 = node := List.inj_on_of_nodup_map hwf.nodup hm0
            hnodeR (heq.trans hnodeid.symm)
          have hppid : p = pid := by
            rw [hm0node, hpar] at hp0
            exact (Option.some.inj hp0).symm
          have hanc : AncP s.nodes id p := (anc_map hgid hgp).mp hancp
          have hedge : dp node.id = dp q0.id + 1 := by
            refine hdp node hnodeR p ?_ q0 hq0 hq0id
            rw [hpar, hppid]
          rw [hnodeid, hq0id] at hedge
          rcases anc_depth dp hdp hwf.parentMem hanc with h | h
          · rw [h] at hedge
            omega
          · omega
        · have hch : ((fun n : PlantNode =>
              if n.id == pid then
                { n with childrenIds := n.childrenIds.filter (fun i => i != id) }
              else n) q0).childrenIds = q0.childrenIds := by
            simp only [hq0pid, if_neg, Bool.false_eq_true, not_false_iff]
          rw [hch]
          exact hbase
      obtain ⟨hc1, hc2, hc3⟩ := removeNode_core hwf hdp hdpb hfind
        (fun n : PlantNode =>
          if n.id == pid then
            { n with childrenIds := n.childrenIds.filter (fun i => i != id) }
          else n) hgid hgp hgch hgchn hpc1
      rw [hflag, hnodes]
      exact ⟨rfl, hc1, hc2, hc3⟩

def wC8seed : PlantNode :=
  { id := 1, type := NodeType.SEED, position := { x := 0, y := 0 },
    parentId := none, childrenIds := [2], radius := 3/100,
    structuralHealth := 1, waterPressure := 1/2, sugarConcentration := 1/2,
    sugarStore := 1, isActive := true, stressLevel := 0 }

def wC8trunk : PlantNode :=
  { id := 2, type := NodeType.TRUNK, position := { x := 0, y := -1/4 },
    parentId := some 1, childrenIds := [3, 4], radius := 4/100,
    structuralHealth := 1, waterPressure := 1/2, sugarConcentration := 1/2,
    sugarStore := 1, isActive := true, stressLevel := 0 }

def wC8leafA : PlantNode :=
  { id := 3, type := NodeType.LEAF, position := { x := 0, y := -1/2 },
    parentId := some 2, childrenIds := [], radius := 15/1000,
    structuralHealth := 1, waterPressure := 1/2, sugarConcentration := 1/2,
    sugarStore := 1, isActive := true, stressLevel := 0 }

def wC8leafB : PlantNode :=
  { id := 4, type := NodeType.LEAF, position := { x := 1/4, y := -1/2 },
    parentId := some 2, childrenIds := [], radius := 15/1000,
    structuralHealth := 1, waterPressure := 1/2, sugarConcentration := 1/2,
    sugarStore := 1, isActive := true, stressLevel := 0 }

def wC8store : Store :=
  { nodes := [wC8seed, wC8trunk, wC8leafA, wC8leafB], seedId := 1, nextId := 5,
    resources := { sugar := 50, water := 30, minerals := 20 },
    climate := { sunIntensity := 1/2, temperature := 20, soilWater := 1/2,
                 tick := 0 },
    selectedNodeId := none, isPaused := false, speedMultiplier := 1 }

theorem wC8wf : WFStore wC8store := by
  refine ⟨?_, ?_, ?_, ?_, ?_, ?_,
    ⟨fun i => if i = 1 then 0 else if i = 2 then 1 else 2, ?_, ?_⟩⟩ <;> decide

/-- Concrete instance of claim C8: on the four-segment plant, removing the
seed refuses, and removing the trunk (subtree of size 3: the trunk and its
two leaves) leaves one segment of the four. -/
theorem claim_C8_remove_subtree_witness :
    removeNode wC8store 1 = (wC8store, false) ∧
    (removeNode wC8store 2).2 = true ∧
    (removeNode wC8store 2).1.nodes.length +
      (wC8store.nodes.filter (fun m =>
        (subtreeIds wC8store.nodes wC8store.nodes.length 2).contains m.id)).length
      = wC8store.nodes.length := by
  refine ⟨?_, ?_, ?_⟩
  · exact (claim_C8_remove_subtree wC8store 1 wC8wf).1 wC8seed rfl rfl
  · exact ((claim_C8_remove_subtree wC8store 2 wC8wf).2 wC8trunk rfl
      (by decide)).1
  · exact ((claim_C8_remove_subtree wC8store 2 wC8wf).2 wC8trunk rfl
      (by decide)).2.1
